import Mathlib

/-!
CET policy reconciliation of the dynamic loader (sysdeps/x86/dl-cet.c).

A shallow embedding of `dl_check_legacy`, `dl_cet_check_main`,
`dl_cet_check_dyn` and `dl_cet_check`, followed by theorems about them.

Conventions of the embedding:

* `unsigned int` values are natural numbers; `~x` is `not32 x`.
* `struct dl_info` is the record `dl_info`; the `int` fields `legacy_*` are
  integers, `-1` meaning that no legacy object was recorded.
* The globals written by the code (`GL(dl_x86_feature_1)`, the
  `header.feature_1` field of the running thread) and the calls made to the
  kernel form the record `machine`; every function returns the final
  `dl_info`, the final `machine` and how control left it (`outcome`).
* `_dl_signal_error` and `_dl_fatal_printf` do not return: the embedding stops
  at them and reports them in the `outcome`.
* Everything that is declared outside this file (the `lc_*` bits, the FineIBT
  property bit, `HAS_CPU_FEATURE`, the `SHARED` build flag, the address of the
  loader's own map, the results of the two kernel calls and the feature
  control tunables) is a field of `sysenv`.
-/

namespace DlCet

/-! ## Data model -/

/-- Modelled from the spec: `enum dl_x86_cet_control`, which `dl-cet.c` takes
from a header. The spec names the three policies that the code tests for
(`cet_always_on`, `cet_always_off`, `cet_permissive`); `cet_elf_property` is
the zero value of the enum in glibc (the policy in force when no tunable is
set: follow the ELF property notes). The code compares with it nowhere, so it
stands for any value that is none of the other three. -/
inductive dl_x86_cet_control where
  | cet_elf_property
  | cet_always_on
  | cet_always_off
  | cet_permissive
  deriving DecidableEq, Repr

open dl_x86_cet_control

/-- The value of `GL(dl_x86_feature_control)`: one policy per feature. -/
structure dl_x86_feature_control where
  ibt : dl_x86_cet_control
  shstk : dl_x86_cet_control
  fineibt : dl_x86_cet_control
  deriving DecidableEq, Repr

/-- Modelled from the spec: the macro `GNU_PROPERTY_X86_FEATURE_1_IBT` of
`<elf.h>`, which `dl-cet.c` uses without defining it; bit 0 (the value the
x86-64 psABI gives it), the lower of "the two last bits" that
`dl_cet_check_main` selects with `0x3`. -/
def GNU_PROPERTY_X86_FEATURE_1_IBT : Nat := 1

/-- Modelled from the spec: the macro `GNU_PROPERTY_X86_FEATURE_1_SHSTK` of
`<elf.h>`, which `dl-cet.c` uses without defining it; bit 1 (the value the
x86-64 psABI gives it), the higher of "the two last bits" that
`dl_cet_check_main` selects with `0x3`. -/
def GNU_PROPERTY_X86_FEATURE_1_SHSTK : Nat := 2

/-- The fields of a `struct link_map` that the code reads through an entry of
`l_initfini`. `addr` is the address of the object (pointers are compared with
`==` only), `l_real` the address held in its `l_real` field. -/
structure link_map where
  addr : Nat
  l_real : Nat
  l_name : String
  l_init_called : Bool
  l_cet : Nat
  deriving DecidableEq, Repr

/-- The map `m` handed to `dl_cet_check` together with the array
`m->l_initfini`; `m->l_searchlist.r_nlist` is the number of its entries. -/
structure link_root where
  map : link_map
  l_initfini : List link_map
  deriving DecidableEq, Repr

/-- The number of entries `m->l_searchlist.r_nlist`. -/
def link_root.r_nlist (m : link_root) : Nat := m.l_initfini.length

/-- Everything the code takes from outside this file. -/
structure sysenv where
  /-- The bit `lc_ibt` of `l_cet`. -/
  lc_ibt : Nat
  /-- The bit `lc_shstk` of `l_cet`. -/
  lc_shstk : Nat
  /-- The bit `lc_fineibt` of `l_cet`. -/
  lc_fineibt : Nat
  /-- The macro `GNU_PROPERTY_X86_FEATURE_1_FINEIBT`. -/
  FEATURE_1_FINEIBT : Nat
  /-- The value of `HAS_CPU_FEATURE (IBT)`. -/
  cpu_ibt : Bool
  /-- The value of `HAS_CPU_FEATURE (SHSTK)`. -/
  cpu_shstk : Bool
  /-- Whether the file is compiled with `SHARED` defined. -/
  SHARED : Bool
  /-- The address `&GL(dl_rtld_map)`. -/
  dl_rtld_map : Nat
  /-- The value of `GL(dl_x86_feature_control)`. -/
  feature_control : dl_x86_feature_control
  /-- The result of `dl_cet_disable_cet` for a given argument. -/
  dl_cet_disable_cet : Nat → Int
  /-- The result of `dl_cet_lock_cet`. -/
  dl_cet_lock_cet : Int

/-- The record `struct dl_info`. -/
structure dl_info where
  enable_ibt_type : dl_x86_cet_control
  enable_shstk_type : dl_x86_cet_control
  enable_fineibt_type : dl_x86_cet_control
  ibt_enabled : Bool
  shstk_enabled : Bool
  fineibt_enabled : Bool
  enable_ibt : Bool
  enable_shstk : Bool
  enable_fineibt : Bool
  legacy_ibt : Int
  legacy_shstk : Int
  legacy_fineibt : Int
  deriving DecidableEq, Repr

/-- A call made to the kernel. -/
inductive kernel_call where
  | disable_cet (bits : Nat)
  | lock_cet
  deriving DecidableEq, Repr

/-- The state the code writes: `GL(dl_x86_feature_1)`, the copy in the control
block of the running thread, and the kernel calls made so far (oldest
first). -/
structure machine where
  dl_x86_feature_1 : Nat
  header_feature_1 : Nat
  kernel_calls : List kernel_call
  deriving DecidableEq, Repr

/-- How control leaves a function: a normal return, `_dl_signal_error
(errcode, objname, "dlopen", errstring)`, or `_dl_fatal_printf (fmt, program)`.
The object name is `none` when the index used to fetch it lies outside
`l_initfini`; `program` is `none` for a null pointer. -/
inductive outcome where
  | returned
  | signal_error (errcode : Int) (objname : Option String) (errstring : String)
  | fatal (fmt : String) (program : Option String)
  deriving DecidableEq, Repr

/-- What a reconciliation function leaves behind. -/
structure result where
  info : dl_info
  st : machine
  exit : outcome
  deriving DecidableEq, Repr

/-- The operator `~` on a 32-bit `unsigned int`. -/
def not32 (x : Nat) : Nat := 2 ^ 32 - (x % 2 ^ 32 + 1)

/-- The expression `m->l_initfini[idx]->l_name` for an `int` index. -/
def initfini_name (m : link_root) (idx : Int) : Option String :=
  if idx < 0 then none else (m.l_initfini[idx.toNat]?).map (fun l => l.l_name)

/-! ## dl_check_legacy -/

/-- The two `continue` tests at the top of the loop body: the object already
ran its initialisers, or (in a `SHARED` build) it is the loader itself, or it
is the map being checked while `program` is not null. -/
def dl_check_legacy_skip (E : sysenv) (m : link_root) (program : Option String)
    (l : link_map) : Bool :=
  l.l_init_called
    || (E.SHARED
        && (l.addr == E.dl_rtld_map
            || l.l_real == E.dl_rtld_map
            || (program.isSome && l.addr == m.map.addr)))

/-- The three blocks of the loop body that narrow the enable flags and record
the legacy indexes, for the entry `l` found at position `i`. -/
def dl_check_legacy_update (E : sysenv) (i : Nat) (l : link_map) (info : dl_info) :
    dl_info :=
  let info1 : dl_info :=
    { info with
      enable_ibt := info.enable_ibt
        && (info.enable_ibt_type == cet_always_on || (l.l_cet &&& E.lc_ibt) != 0) }
  let info2 : dl_info :=
    if !(decide (info1.legacy_ibt ≥ 0)) && (info1.enable_ibt != info1.ibt_enabled) then
      { info1 with legacy_ibt := (i : Int) }
    else info1
  let info3 : dl_info :=
    { info2 with
      enable_fineibt := info2.enable_fineibt
        && (info2.enable_fineibt_type == cet_always_on
            || (l.l_cet &&& E.lc_fineibt) != 0) }
  let info4 : dl_info :=
    if !(decide (info3.legacy_fineibt ≥ 0))
        && (info3.enable_fineibt != info3.fineibt_enabled) then
      { info3 with legacy_fineibt := (i : Int) }
    else info3
  let info5 : dl_info :=
    { info4 with
      enable_shstk := info4.enable_shstk
        && (info4.enable_shstk_type == cet_always_on
            || (l.l_cet &&& E.lc_shstk) != 0) }
  if !(decide (info5.legacy_shstk ≥ 0))
      && (info5.enable_shstk != info5.shstk_enabled) then
    { info5 with legacy_shstk := (i : Int) }
  else info5

/-- One pass through the loop body with `l = m->l_initfini[i]`. -/
def dl_check_legacy_body (E : sysenv) (m : link_root) (program : Option String)
    (i : Nat) (l : link_map) (info : dl_info) : dl_info :=
  if dl_check_legacy_skip E m program l then info
  else dl_check_legacy_update E i l info

/-- The loop `while (i-- > 0)`: called with the value `i` has before the test.
The position `i` read in the body is below `r_nlist`, so the lookup finds an
entry; the other branch is never taken from `dl_check_legacy`. -/
def dl_check_legacy_loop (E : sysenv) (m : link_root) (program : Option String) :
    Nat → dl_info → dl_info
  | 0, info => info
  | i + 1, info =>
    match m.l_initfini[i]? with
    | some l => dl_check_legacy_loop E m program i (dl_check_legacy_body E m program i l info)
    | none => dl_check_legacy_loop E m program i info

/-- The function `dl_check_legacy (m, info, program)`. -/
def dl_check_legacy (E : sysenv) (m : link_root) (info : dl_info)
    (program : Option String) : dl_info :=
  dl_check_legacy_loop E m program m.r_nlist info

/-! ## dl_cet_check_main -/

/-- Lines 179-192 of `dl_cet_check_main`: fold FineIBT into `cet_feature` and
publish it when IBT or SHSTK is enabled. -/
def dl_cet_check_main_publish (E : sysenv) (info : dl_info) (cet_feature : Nat)
    (st : machine) : result :=
  let cet_feature1 :=
    if info.enable_fineibt
        && (info.enable_fineibt_type == cet_always_on
            || !(decide (info.legacy_fineibt ≥ 0))) then
      cet_feature ||| E.FEATURE_1_FINEIBT
    else cet_feature
  if info.enable_ibt || info.enable_shstk then
    { info := info
      st := { st with dl_x86_feature_1 := cet_feature1, header_feature_1 := cet_feature1 }
      exit := outcome.returned }
  else
    { info := info, st := st, exit := outcome.returned }

/-- Lines 157-177 of `dl_cet_check_main` (compiled only with `SHARED`): lock
CET unless a feature that the kernel enabled is permissive. -/
def dl_cet_check_main_lock (E : sysenv) (info : dl_info) (program : Option String)
    (cet_feature : Nat) (st : machine) : result :=
  if E.SHARED then
    let ibt_lock : Bool :=
      if info.ibt_enabled && info.enable_ibt_type != cet_permissive then true
      else if !info.ibt_enabled then true
      else false
    let shstk_lock : Bool :=
      if info.shstk_enabled && info.enable_shstk_type != cet_permissive then true
      else if !info.shstk_enabled then true
      else false
    if ibt_lock && shstk_lock then
      let st1 : machine :=
        { st with kernel_calls := st.kernel_calls ++ [kernel_call.lock_cet] }
      if E.dl_cet_lock_cet != 0 then
        { info := info, st := st1, exit := outcome.fatal "%s: can't lock CET\n" program }
      else dl_cet_check_main_publish E info cet_feature st1
    else dl_cet_check_main_publish E info cet_feature st
  else dl_cet_check_main_publish E info cet_feature st

/-- Lines 113-130 of `dl_cet_check_main`: narrow the IBT and SHSTK flags by
the CPU and the executable, and seed the two FineIBT flags. -/
def dl_cet_check_main_flags (E : sysenv) (m : link_root) (info : dl_info) : dl_info :=
  let info1 : dl_info :=
    { info with
      enable_ibt := info.enable_ibt
        && (E.cpu_ibt
            && (info.enable_ibt_type == cet_always_on
                || (m.map.l_cet &&& E.lc_ibt) != 0)) }
  let info2 : dl_info :=
    { info1 with
      enable_shstk := info1.enable_shstk
        && (E.cpu_shstk
            && (info1.enable_shstk_type == cet_always_on
                || (m.map.l_cet &&& E.lc_shstk) != 0)) }
  let info3 : dl_info :=
    { info2 with fineibt_enabled := info2.enable_fineibt_type != cet_always_off }
  let info4 : dl_info :=
    { info3 with
      fineibt_enabled := info3.fineibt_enabled
        && (info3.enable_fineibt_type == cet_always_on
            || (m.map.l_cet &&& E.lc_fineibt) != 0) }
  { info4 with enable_fineibt := info4.fineibt_enabled }

/-- Lines 113-134 of `dl_cet_check_main`: the flags, then the scan of the
dependency list when IBT or SHSTK is still a candidate. -/
def dl_cet_check_main_scan (E : sysenv) (m : link_root) (info : dl_info)
    (program : Option String) : dl_info :=
  let info5 : dl_info := dl_cet_check_main_flags E m info
  if info5.enable_ibt || info5.enable_shstk then dl_check_legacy E m info5 program
  else info5

/-- Lines 137-146 of `dl_cet_check_main`: the IBT and SHSTK bits of
`cet_feature`. -/
def dl_cet_check_main_feature (info : dl_info) : Nat :=
  let cet_feature0 : Nat := 0
  let cet_feature1 : Nat :=
    if info.enable_ibt
        && (info.enable_ibt_type == cet_always_on
            || !(decide (info.legacy_ibt ≥ 0))) then
      cet_feature0 ||| GNU_PROPERTY_X86_FEATURE_1_IBT
    else cet_feature0
  if info.enable_shstk
      && (info.enable_shstk_type == cet_always_on
          || !(decide (info.legacy_shstk ≥ 0))) then
    cet_feature1 ||| GNU_PROPERTY_X86_FEATURE_1_SHSTK
  else cet_feature1

/-- The function `dl_cet_check_main (m, info, program)`. -/
def dl_cet_check_main (E : sysenv) (m : link_root) (info : dl_info)
    (program : Option String) (st : machine) : result :=
  let info6 : dl_info := dl_cet_check_main_scan E m info program
  let cet_feature : Nat := dl_cet_check_main_feature info6
  if !info6.enable_ibt || !info6.enable_shstk then
    let arg : Nat := not32 cet_feature &&& 0x3
    let st1 : machine :=
      { st with kernel_calls := st.kernel_calls ++ [kernel_call.disable_cet arg] }
    if E.dl_cet_disable_cet arg != 0 then
      { info := info6, st := st1, exit := outcome.fatal "%s: can't disable CET\n" program }
    else dl_cet_check_main_lock E info6 program cet_feature st1
  else dl_cet_check_main_lock E info6 program cet_feature st

/-! ## dl_cet_check_dyn -/

/-- Lines 256-264 of `dl_cet_check_dyn`: fold the FineIBT bit into
`cet_feature` and clear the resulting bits in `GL(dl_x86_feature_1)` and in
the thread's copy. -/
def dl_cet_check_dyn_commit (info : dl_info) (cet_feature fineibt_feature : Nat)
    (st : machine) : result :=
  let cet_feature1 : Nat := cet_feature ||| fineibt_feature
  if cet_feature1 != 0 then
    let feature_1 : Nat := st.dl_x86_feature_1 &&& (not32 cet_feature1 ||| 0xffffffe0)
    { info := info
      st := { st with dl_x86_feature_1 := feature_1, header_feature_1 := feature_1 }
      exit := outcome.returned }
  else
    { info := info, st := st, exit := outcome.returned }

/-- Lines 234-254 of `dl_cet_check_dyn`: return at once when no feature is
permissive, otherwise disable the accumulated bits in the kernel. -/
def dl_cet_check_dyn_disable (E : sysenv) (m : link_root) (info : dl_info)
    (cet_feature fineibt_feature : Nat) (st : machine) : result :=
  if info.enable_ibt_type != cet_permissive
      && info.enable_shstk_type != cet_permissive
      && info.enable_fineibt_type != cet_permissive then
    { info := info, st := st, exit := outcome.returned }
  else if cet_feature != 0 then
    let res : Int := E.dl_cet_disable_cet cet_feature
    let st1 : machine :=
      { st with
        kernel_calls := st.kernel_calls ++ [kernel_call.disable_cet cet_feature] }
    if res != 0 then
      let obj : Option String :=
        if info.legacy_ibt ≥ 0 then initfini_name m info.legacy_ibt
        else if info.legacy_shstk ≥ 0 then initfini_name m info.legacy_shstk
        else if info.legacy_fineibt ≥ 0 then initfini_name m info.legacy_fineibt
        else some "unknown"
      { info := info, st := st1
        exit := outcome.signal_error (-res) obj "can't disable CET" }
    else dl_cet_check_dyn_commit info cet_feature fineibt_feature st1
  else dl_cet_check_dyn_commit info cet_feature fineibt_feature st

/-- Lines 225-232 of `dl_cet_check_dyn`: the SHSTK test. -/
def dl_cet_check_dyn_shstk (E : sysenv) (m : link_root) (info : dl_info)
    (cet_feature fineibt_feature : Nat) (st : machine) : result :=
  if info.shstk_enabled && decide (info.legacy_shstk ≥ 0) then
    if info.enable_shstk_type != cet_permissive then
      { info := info, st := st
        exit := outcome.signal_error 0 (initfini_name m info.legacy_shstk)
          "rebuild DSO with SHSTK enabled" }
    else
      dl_cet_check_dyn_disable E m info
        (cet_feature ||| GNU_PROPERTY_X86_FEATURE_1_SHSTK) fineibt_feature st
  else dl_cet_check_dyn_disable E m info cet_feature fineibt_feature st

/-- Lines 214-223 of `dl_cet_check_dyn`: the IBT test. -/
def dl_cet_check_dyn_ibt (E : sysenv) (m : link_root) (info : dl_info)
    (cet_feature fineibt_feature : Nat) (st : machine) : result :=
  if info.ibt_enabled && decide (info.legacy_ibt ≥ 0) then
    if info.enable_ibt_type != cet_permissive then
      { info := info, st := st
        exit := outcome.signal_error 0 (initfini_name m info.legacy_ibt)
          "rebuild DSO with IBT enabled" }
    else
      dl_cet_check_dyn_shstk E m info
        (cet_feature ||| GNU_PROPERTY_X86_FEATURE_1_IBT)
        (fineibt_feature ||| E.FEATURE_1_FINEIBT) st
  else dl_cet_check_dyn_shstk E m info cet_feature fineibt_feature st

/-- Lines 204-211 of `dl_cet_check_dyn`: the FineIBT test. The error fetches
the object name at `legacy_ibt`, as the source does. -/
def dl_cet_check_dyn_fineibt (E : sysenv) (m : link_root) (info : dl_info)
    (cet_feature fineibt_feature : Nat) (st : machine) : result :=
  if info.fineibt_enabled && decide (info.legacy_fineibt ≥ 0) then
    if info.enable_fineibt_type != cet_permissive then
      { info := info, st := st
        exit := outcome.signal_error 0 (initfini_name m info.legacy_ibt)
          "rebuild DSO with FineIBT enabled" }
    else
      dl_cet_check_dyn_ibt E m info cet_feature
        (fineibt_feature ||| E.FEATURE_1_FINEIBT) st
  else dl_cet_check_dyn_ibt E m info cet_feature fineibt_feature st

/-- The function `dl_cet_check_dyn (m, info)`: the scan of lines 197-199, the
two local variables set to zero, then the three tests. -/
def dl_cet_check_dyn (E : sysenv) (m : link_root) (info : dl_info) (st : machine) :
    result :=
  let info1 : dl_info :=
    if info.enable_ibt || info.enable_shstk then dl_check_legacy E m info none
    else info
  let cet_feature : Nat := 0
  let fineibt_feature : Nat := 0
  dl_cet_check_dyn_fineibt E m info1 cet_feature fineibt_feature st

/-! ## dl_cet_check and its two entry points -/

/-- The function `dl_cet_check (m, program)`. The automatic variable `info` is
not initialised by its declaration: `info0` is what the stack holds there. The
fields `fineibt_enabled` and `enable_fineibt` are assigned only by
`dl_cet_check_main`. -/
def dl_cet_check (E : sysenv) (m : link_root) (program : Option String)
    (info0 : dl_info) (st : machine) : result :=
  let info1 : dl_info :=
    { info0 with
      enable_ibt_type := E.feature_control.ibt
      enable_shstk_type := E.feature_control.shstk
      enable_fineibt_type := E.feature_control.fineibt }
  let info2 : dl_info :=
    { info1 with legacy_ibt := -1, legacy_shstk := -1, legacy_fineibt := -1 }
  if info2.enable_ibt_type == cet_always_on
      && info2.enable_fineibt_type == cet_always_on
      && info2.enable_shstk_type == cet_always_on then
    { info := info2, st := st, exit := outcome.returned }
  else
    let info3 : dl_info :=
      { info2 with
        ibt_enabled := (st.dl_x86_feature_1 &&& GNU_PROPERTY_X86_FEATURE_1_IBT) != 0 }
    let info4 : dl_info :=
      { info3 with
        shstk_enabled :=
          (st.dl_x86_feature_1 &&& GNU_PROPERTY_X86_FEATURE_1_SHSTK) != 0 }
    if !info4.ibt_enabled && !info4.shstk_enabled then
      { info := info4, st := st, exit := outcome.returned }
    else
      let info5 : dl_info :=
        { info4 with
          enable_ibt := info4.ibt_enabled && info4.enable_ibt_type != cet_always_off }
      let info6 : dl_info :=
        { info5 with
          enable_shstk :=
            info5.shstk_enabled && info5.enable_shstk_type != cet_always_off }
      if program.isSome then dl_cet_check_main E m info6 program st
      else dl_cet_check_dyn E m info6 st

/-- The function `_dl_cet_open_check (l)`. -/
def _dl_cet_open_check (E : sysenv) (l : link_root) (info0 : dl_info) (st : machine) :
    result :=
  dl_cet_check E l none info0 st

/-- The function `_dl_cet_check (main_map, program)`, present in a `SHARED`
build. -/
def _dl_cet_check (E : sysenv) (main_map : link_root) (program : Option String)
    (info0 : dl_info) (st : machine) : result :=
  dl_cet_check E main_map program info0 st

/-! ## Vocabulary of the statements -/

/-- The three features the code reconciles. -/
inductive feature where
  | ibt
  | shstk
  | fineibt
  deriving DecidableEq, Repr

/-- The bit of `l_cet` that records support for a feature. -/
def sysenv.lc (E : sysenv) : feature → Nat
  | feature.ibt => E.lc_ibt
  | feature.shstk => E.lc_shstk
  | feature.fineibt => E.lc_fineibt

/-- The bit of `GL(dl_x86_feature_1)` that stands for a feature. -/
def sysenv.feature_1_bit (E : sysenv) : feature → Nat
  | feature.ibt => GNU_PROPERTY_X86_FEATURE_1_IBT
  | feature.shstk => GNU_PROPERTY_X86_FEATURE_1_SHSTK
  | feature.fineibt => E.FEATURE_1_FINEIBT

/-- The policy configured for a feature. -/
def dl_x86_feature_control.of (c : dl_x86_feature_control) : feature → dl_x86_cet_control
  | feature.ibt => c.ibt
  | feature.shstk => c.shstk
  | feature.fineibt => c.fineibt

/-- The field `enable_<feature>_type`. -/
def dl_info.type (info : dl_info) : feature → dl_x86_cet_control
  | feature.ibt => info.enable_ibt_type
  | feature.shstk => info.enable_shstk_type
  | feature.fineibt => info.enable_fineibt_type

/-- The field `<feature>_enabled`: the feature was previously enabled. -/
def dl_info.enabled (info : dl_info) : feature → Bool
  | feature.ibt => info.ibt_enabled
  | feature.shstk => info.shstk_enabled
  | feature.fineibt => info.fineibt_enabled

/-- The field `enable_<feature>`: the feature should be enabled. -/
def dl_info.enable (info : dl_info) : feature → Bool
  | feature.ibt => info.enable_ibt
  | feature.shstk => info.enable_shstk
  | feature.fineibt => info.enable_fineibt

/-- The field `legacy_<feature>`. -/
def dl_info.legacy (info : dl_info) : feature → Int
  | feature.ibt => info.legacy_ibt
  | feature.shstk => info.legacy_shstk
  | feature.fineibt => info.legacy_fineibt

/-- The test `(l->l_cet & lc_<feature>) != 0`: the object was built with
support for the feature. -/
def supports (E : sysenv) (F : feature) (l : link_map) : Bool :=
  (l.l_cet &&& E.lc F) != 0

/-- The test `(x & bit) != 0` on a feature word. -/
def has_bit (x : Nat) (bit : Nat) : Bool := (x &&& bit) != 0

/-- The entry at position `j` of `m->l_initfini` is scanned (it is neither
initialised nor exempt) and lacks the support bit of `F`. -/
def legacy_at (E : sysenv) (m : link_root) (program : Option String) (F : feature)
    (j : Nat) : Bool :=
  match m.l_initfini[j]? with
  | some l => !dl_check_legacy_skip E m program l && !supports E F l
  | none => false

/-- The state of `info` after the first `k` passes through the loop body of
`dl_check_legacy`: the pass number `k + 1` reads position `r_nlist - (k + 1)`. -/
def dl_check_legacy_after (E : sysenv) (m : link_root) (program : Option String) :
    Nat → dl_info → dl_info
  | 0, info => info
  | k + 1, info =>
    match m.l_initfini[m.r_nlist - (k + 1)]? with
    | some l =>
      dl_check_legacy_body E m program (m.r_nlist - (k + 1)) l
        (dl_check_legacy_after E m program k info)
    | none => dl_check_legacy_after E m program k info

/-- The position `j` is one at which the scan narrows the enable flag of `F`:
the policy `ty` is not always-on and the entry is scanned and lacks the bit. -/
def narrow_at (E : sysenv) (m : link_root) (program : Option String)
    (ty : dl_x86_cet_control) (F : feature) (j : Nat) : Bool :=
  ty != cet_always_on && legacy_at E m program F j

/-- The invariant of the scan for a feature whose enable flag agrees with its
previously-enabled flag on entry and that has no legacy index on entry. -/
def scan_inv (E : sysenv) (m : link_root) (program : Option String) (F : feature)
    (info st : dl_info) (k : Nat) : Prop :=
  (st.enable F = info.enable F ∧ st.legacy F = info.legacy F
      ∧ (info.enable F = true → ∀ j, m.r_nlist - k ≤ j → j < m.r_nlist →
          narrow_at E m program (info.type F) F j = false))
    ∨ (info.enable F = true ∧ st.enable F = false
        ∧ ∃ j, m.r_nlist - k ≤ j ∧ j < m.r_nlist
          ∧ narrow_at E m program (info.type F) F j = true
          ∧ (∀ j2, j < j2 → j2 < m.r_nlist →
              narrow_at E m program (info.type F) F j2 = false)
          ∧ st.legacy F = (j : Int))

/-! ## Concrete data used to exercise the statements -/

/-- An environment of a shared build on a CPU with IBT and SHSTK, in which the
kernel calls succeed, for a given feature control. The loader's map is at
address 1. -/
def env_of (c : dl_x86_feature_control) : sysenv :=
  { lc_ibt := 2, lc_shstk := 4, lc_fineibt := 8, FEATURE_1_FINEIBT := 16,
    cpu_ibt := true, cpu_shstk := true, SHARED := true, dl_rtld_map := 1,
    feature_control := c,
    dl_cet_disable_cet := fun _ => 0, dl_cet_lock_cet := 0 }

/-- An object that has not run its initialisers. -/
def obj (addr : Nat) (name : String) (l_cet : Nat) : link_map :=
  { addr := addr, l_real := addr, l_name := name, l_init_called := false, l_cet := l_cet }

/-- A root built with all three features whose dependency list holds itself, a
library with all features, a library with SHSTK only, a library with no
feature, and the loader. -/
def root_mixed : link_root :=
  { map := obj 10 "main" 14,
    l_initfini := [obj 10 "main" 14, obj 11 "libfull.so" 14, obj 12 "libshstk.so" 4,
      obj 13 "libnone.so" 0, obj 1 "ld.so" 14] }

/-- A reconciliation state in which the three features are enabled, under a
given feature control, with no legacy index. -/
def info_of (c : dl_x86_feature_control) : dl_info :=
  { enable_ibt_type := c.ibt, enable_shstk_type := c.shstk, enable_fineibt_type := c.fineibt,
    ibt_enabled := true, shstk_enabled := true, fineibt_enabled := true,
    enable_ibt := true, enable_shstk := true, enable_fineibt := true,
    legacy_ibt := -1, legacy_shstk := -1, legacy_fineibt := -1 }

/-- The feature control that leaves every feature to the ELF properties. -/
def control_default : dl_x86_feature_control :=
  { ibt := cet_elf_property, shstk := cet_elf_property, fineibt := cet_elf_property }

/-! ## Vocabulary of the statements on the reconciliation -/

/-- The outcome is a call of `_dl_signal_error`: a recoverable error. -/
def recoverable_error : outcome → Bool
  | outcome.signal_error _ _ _ => true
  | _ => false

/-- The outcome is one of the three errors that ask for a DSO to be rebuilt
with a feature enabled. -/
def incompatibility_error : outcome → Bool
  | outcome.signal_error _ _ s =>
    s == "rebuild DSO with FineIBT enabled"
      || s == "rebuild DSO with IBT enabled"
      || s == "rebuild DSO with SHSTK enabled"
  | _ => false

/-- The feature is downgraded by `dl_cet_check_dyn`: it was previously
enabled, it has a legacy index and its policy is permissive. -/
def downgraded (info : dl_info) (F : feature) : Bool :=
  info.enabled F && decide (info.legacy F ≥ 0) && info.type F == cet_permissive

/-- The IBT and SHSTK bits that are downgraded. -/
def kernel_disable_bits (info : dl_info) : Nat :=
  (if downgraded info feature.ibt then GNU_PROPERTY_X86_FEATURE_1_IBT else 0)
    ||| (if downgraded info feature.shstk then GNU_PROPERTY_X86_FEATURE_1_SHSTK else 0)

/-- The bits `D` a dynamic load clears: the downgraded IBT and SHSTK bits, and
the FineIBT bit when IBT or FineIBT is downgraded. -/
def cleared_bits (E : sysenv) (info : dl_info) : Nat :=
  kernel_disable_bits info
    ||| (if downgraded info feature.ibt || downgraded info feature.fineibt then
          E.FEATURE_1_FINEIBT
        else 0)

/-- The result `r`, reached from the state `st`, respects atomicity on error:
if it is a recoverable error then the feature word and the thread's copy are
those of `st`, and if it is an incompatibility error then no kernel call was
made. -/
def atomic_on_error (st : machine) (r : result) : Prop :=
  recoverable_error r.exit = true →
    r.st.dl_x86_feature_1 = st.dl_x86_feature_1
      ∧ r.st.header_feature_1 = st.header_feature_1
      ∧ (incompatibility_error r.exit = true → r.st.kernel_calls = st.kernel_calls)

/-- Neither fast path of `dl_cet_check` is taken: the three policies are not
all always-on, and IBT or SHSTK is set in `GL(dl_x86_feature_1)`. -/
def passes_fast_paths (E : sysenv) (st : machine) : Bool :=
  !(E.feature_control.ibt == cet_always_on
      && E.feature_control.fineibt == cet_always_on
      && E.feature_control.shstk == cet_always_on)
    && (has_bit st.dl_x86_feature_1 GNU_PROPERTY_X86_FEATURE_1_IBT
        || has_bit st.dl_x86_feature_1 GNU_PROPERTY_X86_FEATURE_1_SHSTK)

/-- The value of `info` that `dl_cet_check` hands to `dl_cet_check_main` or
`dl_cet_check_dyn` (lines 272-300), from the stack contents `info0`. -/
def dl_cet_check_info (E : sysenv) (info0 : dl_info) (st : machine) : dl_info :=
  { enable_ibt_type := E.feature_control.ibt
    enable_shstk_type := E.feature_control.shstk
    enable_fineibt_type := E.feature_control.fineibt
    ibt_enabled := (st.dl_x86_feature_1 &&& GNU_PROPERTY_X86_FEATURE_1_IBT) != 0
    shstk_enabled := (st.dl_x86_feature_1 &&& GNU_PROPERTY_X86_FEATURE_1_SHSTK) != 0
    fineibt_enabled := info0.fineibt_enabled
    enable_ibt := ((st.dl_x86_feature_1 &&& GNU_PROPERTY_X86_FEATURE_1_IBT) != 0)
      && E.feature_control.ibt != cet_always_off
    enable_shstk := ((st.dl_x86_feature_1 &&& GNU_PROPERTY_X86_FEATURE_1_SHSTK) != 0)
      && E.feature_control.shstk != cet_always_off
    enable_fineibt := info0.enable_fineibt
    legacy_ibt := -1
    legacy_shstk := -1
    legacy_fineibt := -1 }

/-- The value of `info` after the scan that opens `dl_cet_check_dyn`. -/
def dyn_scan_info (E : sysenv) (m : link_root) (info0 : dl_info) (st : machine) :
    dl_info :=
  if (dl_cet_check_info E info0 st).enable_ibt
      || (dl_cet_check_info E info0 st).enable_shstk then
    dl_check_legacy E m (dl_cet_check_info E info0 st) none
  else dl_cet_check_info E info0 st

/-- The feature control that makes every feature permissive. -/
def control_permissive : dl_x86_feature_control :=
  { ibt := cet_permissive, shstk := cet_permissive, fineibt := cet_permissive }

/-- The state in which the feature word and the thread's copy are `w` and no
kernel call has been made. -/
def state_of (w : Nat) : machine :=
  { dl_x86_feature_1 := w, header_feature_1 := w, kernel_calls := [] }

/-- A root whose only dependency besides the loader has SHSTK and FineIBT but
not IBT. -/
def root_no_ibt : link_root :=
  { map := obj 20 "plugin.so" 12,
    l_initfini := [obj 20 "plugin.so" 12, obj 1 "ld.so" 14] }

/-- The feature control that forces IBT on and leaves the rest to the ELF
properties. -/
def control_ibt_on : dl_x86_feature_control :=
  { ibt := cet_always_on, shstk := cet_elf_property, fineibt := cet_elf_property }

/-- The feature control that forces IBT off and leaves the rest to the ELF
properties. -/
def control_ibt_off : dl_x86_feature_control :=
  { ibt := cet_always_off, shstk := cet_elf_property, fineibt := cet_elf_property }

/-- A root built with all three features whose dependency list holds itself, a
library with all features and the loader. -/
def root_full : link_root :=
  { map := obj 10 "main" 14,
    l_initfini := [obj 10 "main" 14, obj 11 "libfull.so" 14, obj 1 "ld.so" 14] }

/-- The value of `HAS_CPU_FEATURE` for IBT and SHSTK; FineIBT has no hardware
query. -/
def sysenv.cpu (E : sysenv) : feature → Bool
  | feature.ibt => E.cpu_ibt
  | feature.shstk => E.cpu_shstk
  | feature.fineibt => true

/-- The lock test of lines 161-171 of `dl_cet_check_main`: each of IBT and
SHSTK is either previously enabled and not permissive, or not previously
enabled. -/
def main_lock_cond (info : dl_info) : Bool :=
  ((info.ibt_enabled && info.enable_ibt_type != cet_permissive) || !info.ibt_enabled)
    && ((info.shstk_enabled && info.enable_shstk_type != cet_permissive)
        || !info.shstk_enabled)

/-- The FineIBT bit that lines 180-183 of `dl_cet_check_main` fold into
`cet_feature`. -/
def main_fineibt_bit (E : sysenv) (info : dl_info) : Nat :=
  if info.enable_fineibt
      && (info.enable_fineibt_type == cet_always_on
          || !(decide (info.legacy_fineibt ≥ 0))) then
    E.FEATURE_1_FINEIBT
  else 0

/-- The kernel calls `dl_cet_check_main` makes when none of them fails. -/
def main_calls (E : sysenv) (info : dl_info) : List kernel_call :=
  (if !info.enable_ibt || !info.enable_shstk then
      [kernel_call.disable_cet (not32 (dl_cet_check_main_feature info) &&& 0x3)]
    else [])
    ++ (if E.SHARED && main_lock_cond info then [kernel_call.lock_cet] else [])

/-- The state `dl_cet_check_main` leaves when no kernel call fails. -/
def main_final (E : sysenv) (info : dl_info) (st : machine) : machine :=
  { dl_x86_feature_1 :=
      if info.enable_ibt || info.enable_shstk then
        dl_cet_check_main_feature info ||| main_fineibt_bit E info
      else st.dl_x86_feature_1
    header_feature_1 :=
      if info.enable_ibt || info.enable_shstk then
        dl_cet_check_main_feature info ||| main_fineibt_bit E info
      else st.header_feature_1
    kernel_calls := st.kernel_calls ++ main_calls E info }

/-- A root built with IBT only, whose dependency list holds itself and the
loader. -/
def root_ibt_only : link_root :=
  { map := obj 30 "main" 2,
    l_initfini := [obj 30 "main" 2, obj 1 "ld.so" 14] }

/-- A root built with all three features whose dependency list holds itself, a
library with all features, a library with SHSTK only, and the loader. -/
def root_one_legacy : link_root :=
  { map := obj 10 "main" 14,
    l_initfini := [obj 10 "main" 14, obj 11 "libfull.so" 14, obj 12 "libshstk.so" 4,
      obj 1 "ld.so" 14] }

/-- The feature control that forces the three features on. -/
def control_all_on : dl_x86_feature_control :=
  { ibt := cet_always_on, shstk := cet_always_on, fineibt := cet_always_on }

/-- A feature is lockable at process start: it was set in the feature word on
entry and its policy is not permissive, or it was not set on entry. -/
def lockable (E : sysenv) (st : machine) (F : feature) : Prop :=
  (has_bit st.dl_x86_feature_1 (E.feature_1_bit F) = true
      ∧ E.feature_control.of F ≠ cet_permissive)
    ∨ has_bit st.dl_x86_feature_1 (E.feature_1_bit F) = false

/-- The test of line 149 of `dl_cet_check_main`: IBT or SHSTK is not to be
enabled, so the kernel is asked to disable something. -/
def main_needs_disable (info : dl_info) : Bool :=
  !info.enable_ibt || !info.enable_shstk

/-- A root whose only dependency besides the loader has IBT and SHSTK but not
FineIBT. -/
def root_no_fineibt : link_root :=
  { map := obj 21 "plugin.so" 6,
    l_initfini := [obj 21 "plugin.so" 6, obj 1 "ld.so" 14] }

/-- A root whose dependency list holds a library without IBT (position 0), a
library without FineIBT (position 1) and the loader. -/
def root_two_legacy : link_root :=
  { map := obj 22 "libnoibt.so" 12,
    l_initfini := [obj 22 "libnoibt.so" 12, obj 23 "libnofine.so" 6, obj 1 "ld.so" 14] }

/-- No feature is configured permissive. -/
def no_permissive (E : sysenv) : Prop :=
  E.feature_control.ibt ≠ cet_permissive ∧ E.feature_control.shstk ≠ cet_permissive
    ∧ E.feature_control.fineibt ≠ cet_permissive

/-- A root whose only dependency besides the loader has IBT and FineIBT but
not SHSTK. -/
def root_no_shstk : link_root :=
  { map := obj 24 "plugin.so" 10,
    l_initfini := [obj 24 "plugin.so" 10, obj 1 "ld.so" 14] }

/-- A root built with all three features whose dependency list holds itself, a
library with SHSTK and FineIBT but not IBT, and the loader. -/
def root_main_no_ibt : link_root :=
  { map := obj 10 "main" 14,
    l_initfini := [obj 10 "main" 14, obj 22 "libnoibt.so" 12, obj 1 "ld.so" 14] }

/-- A root built with all three features, loaded after start, whose dependency
list holds itself and the loader. -/
def root_plugin_full : link_root :=
  { map := obj 11 "libfull.so" 14,
    l_initfini := [obj 11 "libfull.so" 14, obj 1 "ld.so" 14] }

/-- Stack contents that differ from `info_of control_default` only in the two
FineIBT flags, which are false. -/
def info_fineibt_off : dl_info :=
  { info_of control_default with fineibt_enabled := false, enable_fineibt := false }

/-! ## Lemmas on the scan -/

theorem loop_after (E : sysenv) (m : link_root) (program : Option String)
    (info : dl_info) (n : Nat) (hn : n ≤ m.r_nlist) :
    dl_check_legacy_loop E m program n
        (dl_check_legacy_after E m program (m.r_nlist - n) info)
      = dl_check_legacy_after E m program m.r_nlist info := by
  induction n with
  | zero => simp [dl_check_legacy_loop]
  | succ n ih =>
    have h1 : m.r_nlist - n = (m.r_nlist - (n + 1)) + 1 := by omega
    have h2 : m.r_nlist - (m.r_nlist - (n + 1) + 1) = n := by omega
    have ih1 := ih (by omega)
    rw [h1] at ih1
    simp only [dl_check_legacy_after, h2] at ih1
    simp only [dl_check_legacy_loop]
    cases hl : m.l_initfini[n]? with
    | none => simpa [hl] using ih1
    | some l => simpa [hl] using ih1

theorem dl_check_legacy_eq_after (E : sysenv) (m : link_root) (info : dl_info)
    (program : Option String) :
    dl_check_legacy E m info program
      = dl_check_legacy_after E m program m.r_nlist info := by
  have h := loop_after E m program info m.r_nlist (le_refl _)
  simpa [dl_check_legacy, dl_check_legacy_after] using h

theorem update_type (E : sysenv) (i : Nat) (l : link_map) (info : dl_info) (F : feature) :
    (dl_check_legacy_update E i l info).type F = info.type F := by
  cases F <;> simp only [dl_check_legacy_update, dl_info.type] <;> split_ifs <;> rfl

theorem update_enabled (E : sysenv) (i : Nat) (l : link_map) (info : dl_info)
    (F : feature) :
    (dl_check_legacy_update E i l info).enabled F = info.enabled F := by
  cases F <;> simp only [dl_check_legacy_update, dl_info.enabled] <;> split_ifs <;> rfl

theorem update_enable (E : sysenv) (i : Nat) (l : link_map) (info : dl_info)
    (F : feature) :
    (dl_check_legacy_update E i l info).enable F
      = (info.enable F && (info.type F == cet_always_on || supports E F l)) := by
  cases F <;>
    simp only [dl_check_legacy_update, dl_info.enable, dl_info.type, supports, sysenv.lc] <;>
    split_ifs <;> rfl

theorem update_legacy (E : sysenv) (i : Nat) (l : link_map) (info : dl_info)
    (F : feature) :
    (dl_check_legacy_update E i l info).legacy F
      = if !(decide (info.legacy F ≥ 0))
            && ((info.enable F && (info.type F == cet_always_on || supports E F l))
                != info.enabled F) then (i : Int)
        else info.legacy F := by
  cases F <;>
    simp only [dl_check_legacy_update, dl_info.enable, dl_info.type, dl_info.legacy,
      dl_info.enabled, supports, sysenv.lc] <;>
    split_ifs <;> rfl

theorem after_succ (E : sysenv) (m : link_root) (program : Option String)
    (info : dl_info) (k : Nat) (hk : k + 1 ≤ m.r_nlist) :
    ∃ l, m.l_initfini[m.r_nlist - (k + 1)]? = some l
      ∧ dl_check_legacy_after E m program (k + 1) info
        = dl_check_legacy_body E m program (m.r_nlist - (k + 1)) l
            (dl_check_legacy_after E m program k info) := by
  have hlt : m.r_nlist - (k + 1) < m.l_initfini.length := by
    unfold link_root.r_nlist at *
    omega
  refine ⟨m.l_initfini[m.r_nlist - (k + 1)], List.getElem?_eq_getElem hlt, ?_⟩
  simp [dl_check_legacy_after, List.getElem?_eq_getElem hlt]

theorem after_type (E : sysenv) (m : link_root) (program : Option String)
    (info : dl_info) (F : feature) (k : Nat) :
    (dl_check_legacy_after E m program k info).type F = info.type F
      ∧ (dl_check_legacy_after E m program k info).enabled F = info.enabled F := by
  induction k with
  | zero => simp [dl_check_legacy_after]
  | succ k ih =>
    simp only [dl_check_legacy_after]
    cases hl : m.l_initfini[m.r_nlist - (k + 1)]? with
    | none => simpa using ih
    | some l =>
      simp only [dl_check_legacy_body]
      split_ifs
      · exact ih
      · rw [update_type, update_enabled]
        exact ih

theorem after_inv (E : sysenv) (m : link_root) (program : Option String)
    (info : dl_info) (F : feature) (he : info.enable F = info.enabled F)
    (hl : info.legacy F < 0) (k : Nat) (hk : k ≤ m.r_nlist) :
    scan_inv E m program F info (dl_check_legacy_after E m program k info) k := by
  induction k with
  | zero =>
    left
    refine ⟨rfl, rfl, ?_⟩
    intro _ j h1 h2
    omega
  | succ k ih =>
    obtain ⟨l, hget, hstep⟩ := after_succ E m program info k hk
    have ihk := ih (by omega)
    have hty := after_type E m program info F k
    rw [hstep]
    generalize dl_check_legacy_after E m program k info = st at ihk hty
    obtain ⟨hty1, hty2⟩ := hty
    have hidx : ∀ j, m.r_nlist - (k + 1) ≤ j → j = m.r_nlist - (k + 1) ∨ m.r_nlist - k ≤ j := by
      intro j hj
      omega
    have hnar : narrow_at E m program (info.type F) F (m.r_nlist - (k + 1))
        = (info.type F != cet_always_on
            && (!dl_check_legacy_skip E m program l && !supports E F l)) := by
      simp [narrow_at, legacy_at, hget]
    unfold dl_check_legacy_body
    by_cases hs : dl_check_legacy_skip E m program l = true
    · rw [if_pos hs]
      have hn0 : narrow_at E m program (info.type F) F (m.r_nlist - (k + 1)) = false := by
        rw [hnar]; simp [hs]
      rcases ihk with ⟨h1, h2, h3⟩ | ⟨h1, h2, j, h3, h4, h5, h6, h7⟩
      · left
        refine ⟨h1, h2, ?_⟩
        intro hen j hj1 hj2
        rcases hidx j hj1 with hj | hj
        · rw [hj]; exact hn0
        · exact h3 hen j hj hj2
      · right
        exact ⟨h1, h2, j, by omega, h4, h5, h6, h7⟩
    · rw [if_neg hs]
      have hs2 : dl_check_legacy_skip E m program l = false := by simpa using hs
      unfold scan_inv
      rw [update_enable, update_legacy, hty1, hty2]
      rcases ihk with ⟨h1, h2, h3⟩ | ⟨h1, h2, j, h3, h4, h5, h6, h7⟩
      · rw [h1, h2]
        by_cases hen : info.enable F = true
        · by_cases hok : (info.type F == cet_always_on || supports E F l) = true
          · left
            have hn0 : narrow_at E m program (info.type F) F (m.r_nlist - (k + 1))
                = false := by
              rw [hnar]
              simp only [Bool.or_eq_true, beq_iff_eq] at hok
              rcases hok with hok | hok
              · simp [hok]
              · simp [hok]
            refine ⟨by simp [hen, hok], ?_, ?_⟩
            · rw [← he]; simp [hen, hok]
            · intro _ j hj1 hj2
              rcases hidx j hj1 with hj | hj
              · rw [hj]; exact hn0
              · exact h3 hen j hj hj2
          · right
            have hok2 : (info.type F == cet_always_on || supports E F l) = false := by
              simpa using hok
            have hn1 : narrow_at E m program (info.type F) F (m.r_nlist - (k + 1))
                = true := by
              rw [hnar]
              simp only [Bool.or_eq_false_iff, beq_eq_false_iff_ne] at hok2
              simp [hok2.1, hok2.2, hs2]
            refine ⟨hen, by simp [hok2], m.r_nlist - (k + 1), le_refl _, by omega, hn1, ?_, ?_⟩
            · intro j2 hj1 hj2
              exact h3 hen j2 (by omega) hj2
            · have hl2 : ¬ (info.legacy F ≥ 0) := by omega
              rw [← he]
              simp [hen, hok2, hl2]
        · left
          have hen2 : info.enable F = false := by simpa using hen
          refine ⟨by simp [hen2], ?_, ?_⟩
          · rw [← he]; simp [hen2]
          · intro h; exact absurd h hen
      · right
        refine ⟨h1, by simp [h2], j, by omega, h4, h5, h6, ?_⟩
        rw [h7]
        simp

theorem after_enable (E : sysenv) (m : link_root) (program : Option String)
    (info : dl_info) (F : feature) (k : Nat) (hk : k ≤ m.r_nlist) :
    (dl_check_legacy_after E m program k info).enable F
      = (info.enable F
          && (info.type F == cet_always_on
              || (m.l_initfini.drop (m.r_nlist - k)).all
                  (fun l => dl_check_legacy_skip E m program l || supports E F l))) := by
  induction k with
  | zero => simp [dl_check_legacy_after, link_root.r_nlist]
  | succ k ih =>
    obtain ⟨l, hget, hstep⟩ := after_succ E m program info k hk
    have ihk := ih (by omega)
    have hty := (after_type E m program info F k).1
    have hlt : m.r_nlist - (k + 1) < m.l_initfini.length := by
      unfold link_root.r_nlist at *
      omega
    have hl : m.l_initfini[m.r_nlist - (k + 1)] = l := by
      rw [List.getElem?_eq_getElem hlt] at hget
      exact Option.some.inj hget
    have hdrop : m.l_initfini.drop (m.r_nlist - (k + 1))
        = l :: m.l_initfini.drop (m.r_nlist - k) := by
      rw [List.drop_eq_getElem_cons hlt, hl]
      congr 2
      omega
    rw [hstep, hdrop, List.all_cons]
    unfold dl_check_legacy_body
    by_cases hs : dl_check_legacy_skip E m program l = true
    · rw [if_pos hs, ihk]
      simp [hs]
    · rw [if_neg hs, update_enable, ihk, hty]
      have hs2 : dl_check_legacy_skip E m program l = false := by simpa using hs
      rw [hs2]
      cases info.enable F <;> cases (info.type F == cet_always_on) <;>
        cases supports E F l <;> simp

/-- C8. The enable flag of each feature on exit from `dl_check_legacy` is its
value on entry AND (the policy is always-on OR every entry of the dependency
list that is neither initialised nor exempt has the support bit); hence a flag
that is false on entry is false on exit, and the skipped entries play no
part. -/
theorem scan_enable_is_fold (E : sysenv) (m : link_root) (info : dl_info)
    (program : Option String) (F : feature) :
    (dl_check_legacy E m info program).enable F
        = (info.enable F
            && (info.type F == cet_always_on
                || m.l_initfini.all
                    (fun l => dl_check_legacy_skip E m program l || supports E F l)))
      ∧ (info.enable F = false → (dl_check_legacy E m info program).enable F = false) := by
  have h := after_enable E m program info F m.r_nlist (le_refl _)
  rw [← dl_check_legacy_eq_after] at h
  simp only [Nat.sub_self, List.drop_zero] at h
  refine ⟨h, ?_⟩
  intro h0
  rw [h, h0]
  rfl

theorem narrow_at_eq (E : sysenv) (m : link_root) (program : Option String)
    (ty : dl_x86_cet_control) (F : feature) (j : Nat) (hty : ty ≠ cet_always_on) :
    narrow_at E m program ty F j = legacy_at E m program F j := by
  simp [narrow_at, hty]

theorem legacy_at_lt (E : sysenv) (m : link_root) (program : Option String)
    (F : feature) (j : Nat) (h : legacy_at E m program F j = true) : j < m.r_nlist := by
  unfold legacy_at at h
  unfold link_root.r_nlist
  by_contra hlt
  rw [List.getElem?_eq_none (by omega)] at h
  simp at h

/-- C7. For a feature whose enable flag and previously-enabled flag are true on
entry to `dl_check_legacy`, with no legacy index and a policy other than
always-on: if some scanned entry lacks the support bit, the legacy index on
exit is the position `j` of the first such entry in scan order (the highest
such position), it is `-1` before the pass that reads `j` and stays `j` from
that pass to the end, and the enable flag is true before that pass and false
from it to the end; if no scanned entry lacks the bit, the legacy index stays
`-1` and the enable flag stays true. -/
theorem scan_first_legacy (E : sysenv) (m : link_root) (info : dl_info)
    (program : Option String) (F : feature)
    (hen : info.enable F = true) (hprev : info.enabled F = true)
    (hleg : info.legacy F = -1) (hty : info.type F ≠ cet_always_on) :
    ((∃ j, legacy_at E m program F j = true) →
      ∃ j, j < m.r_nlist ∧ legacy_at E m program F j = true
        ∧ (∀ j2, j < j2 → legacy_at E m program F j2 = false)
        ∧ (dl_check_legacy E m info program).legacy F = (j : Int)
        ∧ (dl_check_legacy E m info program).enable F = false
        ∧ (∀ k, m.r_nlist - j ≤ k → k ≤ m.r_nlist →
            (dl_check_legacy_after E m program k info).enable F = false
              ∧ (dl_check_legacy_after E m program k info).legacy F = (j : Int))
        ∧ (∀ k, k < m.r_nlist - j →
            (dl_check_legacy_after E m program k info).enable F = true
              ∧ (dl_check_legacy_after E m program k info).legacy F = -1))
      ∧ ((∀ j, legacy_at E m program F j = false) →
          (dl_check_legacy E m info program).legacy F = -1
            ∧ (dl_check_legacy E m info program).enable F = true) := by
  have he : info.enable F = info.enabled F := by rw [hen, hprev]
  have hl : info.legacy F < 0 := by rw [hleg]; decide
  have hinv := fun k hk => after_inv E m program info F he hl k hk
  simp only [scan_inv, narrow_at_eq E m program _ F _ hty] at hinv
  rw [dl_check_legacy_eq_after]
  constructor
  · rintro ⟨j0, hj0⟩
    have hj0lt := legacy_at_lt E m program F j0 hj0
    rcases hinv m.r_nlist (le_refl _) with ⟨_, _, h3⟩ | ⟨_, h2, j, _, hjlt, hj, hmax, hjleg⟩
    · have := h3 hen j0 (by omega) hj0lt
      rw [hj0] at this
      exact absurd this (by decide)
    · have hmax2 : ∀ j2, j < j2 → legacy_at E m program F j2 = false := by
        intro j2 hlt
        by_cases hj2 : j2 < m.r_nlist
        · exact hmax j2 hlt hj2
        · by_contra hne
          have ht : legacy_at E m program F j2 = true := by simpa using hne
          exact hj2 (legacy_at_lt E m program F j2 ht)
      refine ⟨j, hjlt, hj, hmax2, hjleg, h2, ?_, ?_⟩
      · intro k hk1 hk2
        rcases hinv k hk2 with ⟨_, _, h3⟩ | ⟨_, h2k, jk, hjk1, hjk2, hjk, hmaxk, hjkleg⟩
        · have := h3 hen j (by omega) hjlt
          rw [hj] at this
          exact absurd this (by decide)
        · have hjeq : jk = j := by
            rcases Nat.lt_trichotomy jk j with hlt | heq | hgt
            · have := hmaxk j hlt hjlt
              rw [hj] at this
              exact absurd this (by decide)
            · exact heq
            · have := hmax jk hgt hjk2
              rw [hjk] at this
              exact absurd this (by decide)
          rw [hjeq] at hjkleg
          exact ⟨h2k, hjkleg⟩
      · intro k hk
        rcases hinv k (by omega) with ⟨h1, h2k, _⟩ | ⟨_, _, jk, hjk1, hjk2, hjk, _, _⟩
        · rw [h1, h2k]
          exact ⟨hen, hleg⟩
        · have := hmax jk (by omega) hjk2
          rw [hjk] at this
          exact absurd this (by decide)
  · intro hnone
    rcases hinv m.r_nlist (le_refl _) with ⟨h1, h2, _⟩ | ⟨_, _, j, _, _, hj, _, _⟩
    · rw [h1, h2]
      exact ⟨hleg, hen⟩
    · rw [hnone j] at hj
      exact absurd hj (by decide)

/-- A run of C7: IBT in `root_mixed` scanned on behalf of a dynamic load
under the default feature control. -/
theorem scan_first_legacy_witness :
    (info_of control_default).enable feature.ibt = true
      ∧ (info_of control_default).enabled feature.ibt = true
      ∧ (info_of control_default).legacy feature.ibt = -1
      ∧ (info_of control_default).type feature.ibt ≠ cet_always_on
      ∧ legacy_at (env_of control_default) root_mixed none feature.ibt 2 = true
      ∧ (dl_check_legacy (env_of control_default) root_mixed (info_of control_default)
          none).legacy feature.ibt = 3
      ∧ (((∃ j, legacy_at (env_of control_default) root_mixed none feature.ibt j = true) →
          ∃ j, j < root_mixed.r_nlist
            ∧ legacy_at (env_of control_default) root_mixed none feature.ibt j = true
            ∧ (∀ j2, j < j2 →
                legacy_at (env_of control_default) root_mixed none feature.ibt j2 = false)
            ∧ (dl_check_legacy (env_of control_default) root_mixed
                (info_of control_default) none).legacy feature.ibt = (j : Int)
            ∧ (dl_check_legacy (env_of control_default) root_mixed
                (info_of control_default) none).enable feature.ibt = false
            ∧ (∀ k, root_mixed.r_nlist - j ≤ k → k ≤ root_mixed.r_nlist →
                (dl_check_legacy_after (env_of control_default) root_mixed none k
                    (info_of control_default)).enable feature.ibt = false
                  ∧ (dl_check_legacy_after (env_of control_default) root_mixed none k
                    (info_of control_default)).legacy feature.ibt = (j : Int))
            ∧ (∀ k, k < root_mixed.r_nlist - j →
                (dl_check_legacy_after (env_of control_default) root_mixed none k
                    (info_of control_default)).enable feature.ibt = true
                  ∧ (dl_check_legacy_after (env_of control_default) root_mixed none k
                    (info_of control_default)).legacy feature.ibt = -1))
        ∧ ((∀ j, legacy_at (env_of control_default) root_mixed none feature.ibt j = false) →
            (dl_check_legacy (env_of control_default) root_mixed (info_of control_default)
                none).legacy feature.ibt = -1
              ∧ (dl_check_legacy (env_of control_default) root_mixed
                (info_of control_default) none).enable feature.ibt = true)) :=
  ⟨by decide, by decide, by decide, by decide, by decide, by decide,
    scan_first_legacy (env_of control_default) root_mixed (info_of control_default) none
      feature.ibt (by decide) (by decide) (by decide) (by decide)⟩

/-! ## Lemmas on the dynamic-load variant -/

theorem dyn_commit_exit (info : dl_info) (c f : Nat) (st : machine) :
    (dl_cet_check_dyn_commit info c f st).exit = outcome.returned := by
  unfold dl_cet_check_dyn_commit
  simp only
  split_ifs <;> rfl

theorem dyn_disable_error (E : sysenv) (m : link_root) (info : dl_info) (c f : Nat)
    (st : machine)
    (h : recoverable_error (dl_cet_check_dyn_disable E m info c f st).exit = true) :
    (dl_cet_check_dyn_disable E m info c f st).st.dl_x86_feature_1 = st.dl_x86_feature_1
      ∧ (dl_cet_check_dyn_disable E m info c f st).st.header_feature_1
          = st.header_feature_1
      ∧ incompatibility_error (dl_cet_check_dyn_disable E m info c f st).exit = false := by
  unfold dl_cet_check_dyn_disable at h ⊢
  simp only at h ⊢
  split_ifs at h ⊢
  all_goals first
    | (simp [recoverable_error, dyn_commit_exit] at h; done)
    | (refine ⟨rfl, rfl, ?_⟩; simp [incompatibility_error])

theorem dyn_disable_atomic (E : sysenv) (m : link_root) (info : dl_info) (c f : Nat)
    (st : machine) : atomic_on_error st (dl_cet_check_dyn_disable E m info c f st) := by
  intro h
  obtain ⟨h1, h2, h3⟩ := dyn_disable_error E m info c f st h
  refine ⟨h1, h2, ?_⟩
  intro h4
  rw [h3] at h4
  exact absurd h4 (by decide)

theorem dyn_shstk_atomic (E : sysenv) (m : link_root) (info : dl_info) (c f : Nat)
    (st : machine) : atomic_on_error st (dl_cet_check_dyn_shstk E m info c f st) := by
  unfold dl_cet_check_dyn_shstk
  split_ifs
  · intro _
    exact ⟨rfl, rfl, fun _ => rfl⟩
  · exact dyn_disable_atomic E m info _ f st
  · exact dyn_disable_atomic E m info c f st

theorem dyn_ibt_atomic (E : sysenv) (m : link_root) (info : dl_info) (c f : Nat)
    (st : machine) : atomic_on_error st (dl_cet_check_dyn_ibt E m info c f st) := by
  unfold dl_cet_check_dyn_ibt
  split_ifs
  · intro _
    exact ⟨rfl, rfl, fun _ => rfl⟩
  · exact dyn_shstk_atomic E m info _ _ st
  · exact dyn_shstk_atomic E m info c f st

theorem dyn_fineibt_atomic (E : sysenv) (m : link_root) (info : dl_info) (c f : Nat)
    (st : machine) : atomic_on_error st (dl_cet_check_dyn_fineibt E m info c f st) := by
  unfold dl_cet_check_dyn_fineibt
  split_ifs
  · intro _
    exact ⟨rfl, rfl, fun _ => rfl⟩
  · exact dyn_ibt_atomic E m info _ _ st
  · exact dyn_ibt_atomic E m info c f st

theorem dyn_atomic (E : sysenv) (m : link_root) (info : dl_info) (st : machine) :
    atomic_on_error st (dl_cet_check_dyn E m info st) := by
  unfold dl_cet_check_dyn
  exact dyn_fineibt_atomic E m _ _ _ st

/-- C1. Atomicity of a dynamic load (`_dl_cet_open_check`): whatever the
environment (feature control, kernel results), the dependency list, the stack
contents and the state on entry, if the reconciliation ends in a recoverable
error then `GL(dl_x86_feature_1)` and the thread's copy are what they were on
entry, and if the error is an incompatibility error then no kernel call was
made (in particular `dl_cet_disable_cet` was not called, even when a
permissive feature had been accumulated for downgrade). -/
theorem dyn_load_error_is_atomic (E : sysenv) (m : link_root) (info0 : dl_info)
    (st : machine)
    (herr : recoverable_error (_dl_cet_open_check E m info0 st).exit = true) :
    (_dl_cet_open_check E m info0 st).st.dl_x86_feature_1 = st.dl_x86_feature_1
      ∧ (_dl_cet_open_check E m info0 st).st.header_feature_1 = st.header_feature_1
      ∧ (incompatibility_error (_dl_cet_open_check E m info0 st).exit = true →
          (_dl_cet_open_check E m info0 st).st.kernel_calls = st.kernel_calls) := by
  have key : atomic_on_error st (_dl_cet_open_check E m info0 st) := by
    unfold _dl_cet_open_check dl_cet_check
    simp only [Option.isSome_none, Bool.false_eq_true, if_false]
    split_ifs
    · intro h
      exact absurd h (by simp [recoverable_error])
    · intro h
      exact absurd h (by simp [recoverable_error])
    · exact dyn_atomic E m _ st
  exact key herr

/-- A run of C1: under the default feature control, loading `root_mixed` into
a process with IBT and SHSTK enabled ends in an incompatibility error. -/
theorem dyn_load_error_is_atomic_witness :
    recoverable_error (_dl_cet_open_check (env_of control_default) root_mixed
        (info_of control_default) (machine.mk 3 3 [])).exit = true
      ∧ incompatibility_error (_dl_cet_open_check (env_of control_default) root_mixed
        (info_of control_default) (machine.mk 3 3 [])).exit = true
      ∧ ((_dl_cet_open_check (env_of control_default) root_mixed
            (info_of control_default) (machine.mk 3 3 [])).st.dl_x86_feature_1
          = (machine.mk 3 3 []).dl_x86_feature_1
        ∧ (_dl_cet_open_check (env_of control_default) root_mixed
            (info_of control_default) (machine.mk 3 3 [])).st.header_feature_1
          = (machine.mk 3 3 []).header_feature_1
        ∧ (incompatibility_error (_dl_cet_open_check (env_of control_default) root_mixed
            (info_of control_default) (machine.mk 3 3 [])).exit = true →
          (_dl_cet_open_check (env_of control_default) root_mixed
            (info_of control_default) (machine.mk 3 3 [])).st.kernel_calls
            = (machine.mk 3 3 []).kernel_calls)) :=
  ⟨by decide, by decide,
    dyn_load_error_is_atomic (env_of control_default) root_mixed (info_of control_default)
      (machine.mk 3 3 []) (by decide)⟩

/-! ## Lemmas on the dispatch -/

theorem dl_cet_check_eq (E : sysenv) (m : link_root) (program : Option String)
    (info0 : dl_info) (st : machine) (hp : passes_fast_paths E st = true) :
    dl_cet_check E m program info0 st
      = if program.isSome then
          dl_cet_check_main E m (dl_cet_check_info E info0 st) program st
        else dl_cet_check_dyn E m (dl_cet_check_info E info0 st) st := by
  simp only [passes_fast_paths, has_bit, Bool.and_eq_true, Bool.not_eq_true',
    Bool.or_eq_true] at hp
  obtain ⟨h1, h2⟩ := hp
  unfold dl_cet_check
  simp only
  rw [if_neg (by simpa using h1)]
  rw [if_neg (by
    simp only [Bool.and_eq_true, Bool.not_eq_true', not_and, Bool.not_eq_false]
    intro h
    rcases h2 with h2 | h2
    · rw [h2] at h; exact absurd h (by decide)
    · exact h2)]
  rfl

theorem open_check_eq (E : sysenv) (m : link_root) (info0 : dl_info) (st : machine)
    (hp : passes_fast_paths E st = true) :
    _dl_cet_open_check E m info0 st
      = dl_cet_check_dyn_fineibt E m (dyn_scan_info E m info0 st) 0 0 st := by
  unfold _dl_cet_open_check
  rw [dl_cet_check_eq E m none info0 st hp]
  simp only [Option.isSome_none, Bool.false_eq_true, if_false]
  rfl

theorem dl_check_legacy_type (E : sysenv) (m : link_root) (info : dl_info)
    (program : Option String) (F : feature) :
    (dl_check_legacy E m info program).type F = info.type F
      ∧ (dl_check_legacy E m info program).enabled F = info.enabled F := by
  rw [dl_check_legacy_eq_after]
  exact after_type E m program info F m.r_nlist

theorem dyn_scan_info_type (E : sysenv) (m : link_root) (info0 : dl_info) (st : machine)
    (F : feature) :
    (dyn_scan_info E m info0 st).type F = E.feature_control.of F := by
  have h : (dl_cet_check_info E info0 st).type F = E.feature_control.of F := by
    cases F <;> rfl
  unfold dyn_scan_info
  split_ifs
  · rw [(dl_check_legacy_type E m _ none F).1, h]
  · exact h

theorem dyn_scan_info_enabled (E : sysenv) (m : link_root) (info0 : dl_info)
    (st : machine) (F : feature) :
    (dyn_scan_info E m info0 st).enabled F = (dl_cet_check_info E info0 st).enabled F := by
  unfold dyn_scan_info
  split_ifs
  · rw [(dl_check_legacy_type E m _ none F).2]
  · rfl

/-! ## Lemmas on the feature word -/

theorem not32_testBit (x i : Nat) :
    (not32 x).testBit i = (decide (i < 32) && !x.testBit i) := by
  unfold not32
  rw [Nat.testBit_two_pow_sub_succ (Nat.mod_lt _ (by norm_num)), Nat.testBit_mod_two_pow]
  by_cases h : i < 32 <;> simp [h]

theorem high_mask_testBit (i : Nat) :
    (0xffffffe0 : Nat).testBit i = (decide (i < 32) && !decide (i < 5)) := by
  have h1 : (0xffffffe0 : Nat) = 2 ^ 32 - (31 + 1) := by norm_num
  have h2 : (31 : Nat) = 2 ^ 5 - 1 := by norm_num
  rw [h1, Nat.testBit_two_pow_sub_succ (by norm_num), h2, Nat.testBit_two_pow_sub_one]

theorem clear_mask_testBit (old D i : Nat) (hold : old < 2 ^ 32) (hD : D < 32) :
    (old &&& (not32 D ||| 0xffffffe0)).testBit i = (old.testBit i && !D.testBit i) := by
  rw [Nat.testBit_and, Nat.testBit_or, not32_testBit, high_mask_testBit]
  by_cases h5 : i < 5
  · have h32 : i < 32 := by omega
    simp [h5, h32]
  · by_cases h32 : i < 32
    · have hDi : D.testBit i = false := by
        apply Nat.testBit_lt_two_pow
        calc D < 2 ^ 5 := by simpa using hD
          _ ≤ 2 ^ i := Nat.pow_le_pow_right (by norm_num) (by omega)
      simp [h5, h32, hDi]
    · have hoi : old.testBit i = false := by
        apply Nat.testBit_lt_two_pow
        calc old < 2 ^ 32 := hold
          _ ≤ 2 ^ i := Nat.pow_le_pow_right (by norm_num) (by omega)
      simp [hoi]

theorem has_bit_one (x : Nat) :
    has_bit x GNU_PROPERTY_X86_FEATURE_1_IBT = x.testBit 0 := by
  unfold has_bit GNU_PROPERTY_X86_FEATURE_1_IBT
  rw [Nat.and_one_is_mod, Nat.testBit_zero]
  rcases Nat.mod_two_eq_zero_or_one x with h | h <;> simp [h]

theorem has_bit_two (x : Nat) :
    has_bit x GNU_PROPERTY_X86_FEATURE_1_SHSTK = x.testBit 1 := by
  unfold has_bit GNU_PROPERTY_X86_FEATURE_1_SHSTK
  have h : x &&& 2 = if x.testBit 1 then 2 else 0 := by
    apply Nat.eq_of_testBit_eq
    intro i
    rw [Nat.testBit_and]
    have h2 : (2 : Nat) = 2 ^ 1 := by norm_num
    by_cases hb : x.testBit 1 = true
    · rw [if_pos hb, h2, Nat.testBit_two_pow]
      by_cases hi : 1 = i
      · subst hi; simp [hb]
      · simp [hi]
    · have hb2 : x.testBit 1 = false := by simpa using hb
      rw [if_neg hb, h2, Nat.testBit_two_pow]
      by_cases hi : 1 = i
      · subst hi; simp [hb2]
      · simp [hi]
  rw [h]
  cases x.testBit 1 <;> simp

/-! ## The dynamic-load variant when no incompatibility error is raised -/

theorem dyn_stage_info (E : sysenv) (m : link_root) (info : dl_info) (c f : Nat)
    (st : machine) :
    (dl_cet_check_dyn_commit info c f st).info = info
      ∧ (dl_cet_check_dyn_disable E m info c f st).info = info
      ∧ (dl_cet_check_dyn_shstk E m info c f st).info = info
      ∧ (dl_cet_check_dyn_ibt E m info c f st).info = info
      ∧ (dl_cet_check_dyn_fineibt E m info c f st).info = info := by
  have h1 : ∀ c f st, (dl_cet_check_dyn_commit info c f st).info = info := by
    intro c f st
    unfold dl_cet_check_dyn_commit
    simp only
    split_ifs <;> rfl
  have h2 : ∀ c f st, (dl_cet_check_dyn_disable E m info c f st).info = info := by
    intro c f st
    unfold dl_cet_check_dyn_disable
    simp only
    split_ifs <;> first | rfl | exact h1 _ _ _
  have h3 : ∀ c f st, (dl_cet_check_dyn_shstk E m info c f st).info = info := by
    intro c f st
    unfold dl_cet_check_dyn_shstk
    split_ifs <;> first | rfl | exact h2 _ _ _
  have h4 : ∀ c f st, (dl_cet_check_dyn_ibt E m info c f st).info = info := by
    intro c f st
    unfold dl_cet_check_dyn_ibt
    split_ifs <;> first | rfl | exact h3 _ _ _
  refine ⟨h1 c f st, h2 c f st, h3 c f st, h4 c f st, ?_⟩
  unfold dl_cet_check_dyn_fineibt
  split_ifs <;> first | rfl | exact h4 _ _ _

theorem dyn_shstk_eq (E : sysenv) (m : link_root) (info : dl_info) (c f : Nat)
    (st : machine)
    (hno : incompatibility_error (dl_cet_check_dyn_shstk E m info c f st).exit = false) :
    dl_cet_check_dyn_shstk E m info c f st
      = dl_cet_check_dyn_disable E m info
          (c ||| (if downgraded info feature.shstk then GNU_PROPERTY_X86_FEATURE_1_SHSTK
                  else 0)) f st := by
  have hd : downgraded info feature.shstk
      = (info.shstk_enabled && decide (info.legacy_shstk ≥ 0) && info.enable_shstk_type == cet_permissive) := rfl
  unfold dl_cet_check_dyn_shstk at hno ⊢
  by_cases h1 : (info.shstk_enabled && decide (info.legacy_shstk ≥ 0)) = true
  · by_cases h2 : (info.enable_shstk_type != cet_permissive) = true
    · rw [if_pos h1, if_pos h2] at hno
      simp [incompatibility_error] at hno
    · rw [if_pos h1, if_neg h2]
      have h3 : (info.enable_shstk_type == cet_permissive) = true := by simpa using h2
      rw [hd, h1, h3]
      rfl
  · rw [if_neg h1]
    have h1b : (info.shstk_enabled && decide (info.legacy_shstk ≥ 0)) = false := by simpa using h1
    rw [hd, h1b]
    simp

theorem dyn_ibt_eq (E : sysenv) (m : link_root) (info : dl_info) (c f : Nat)
    (st : machine)
    (hno : incompatibility_error (dl_cet_check_dyn_ibt E m info c f st).exit = false) :
    dl_cet_check_dyn_ibt E m info c f st
      = dl_cet_check_dyn_shstk E m info
          (c ||| (if downgraded info feature.ibt then GNU_PROPERTY_X86_FEATURE_1_IBT
                  else 0))
          (f ||| (if downgraded info feature.ibt then E.FEATURE_1_FINEIBT else 0)) st := by
  have hd : downgraded info feature.ibt
      = (info.ibt_enabled && decide (info.legacy_ibt ≥ 0) && info.enable_ibt_type == cet_permissive) := rfl
  unfold dl_cet_check_dyn_ibt at hno ⊢
  by_cases h1 : (info.ibt_enabled && decide (info.legacy_ibt ≥ 0)) = true
  · by_cases h2 : (info.enable_ibt_type != cet_permissive) = true
    · rw [if_pos h1, if_pos h2] at hno
      simp [incompatibility_error] at hno
    · rw [if_pos h1, if_neg h2]
      have h3 : (info.enable_ibt_type == cet_permissive) = true := by simpa using h2
      rw [hd, h1, h3]
      rfl
  · rw [if_neg h1]
    have h1b : (info.ibt_enabled && decide (info.legacy_ibt ≥ 0)) = false := by simpa using h1
    rw [hd, h1b]
    simp

theorem dyn_fineibt_eq (E : sysenv) (m : link_root) (info : dl_info) (c f : Nat)
    (st : machine)
    (hno : incompatibility_error (dl_cet_check_dyn_fineibt E m info c f st).exit = false) :
    dl_cet_check_dyn_fineibt E m info c f st
      = dl_cet_check_dyn_ibt E m info
          c
          (f ||| (if downgraded info feature.fineibt then E.FEATURE_1_FINEIBT else 0)) st := by
  have hd : downgraded info feature.fineibt
      = (info.fineibt_enabled && decide (info.legacy_fineibt ≥ 0) && info.enable_fineibt_type == cet_permissive) := rfl
  unfold dl_cet_check_dyn_fineibt at hno ⊢
  by_cases h1 : (info.fineibt_enabled && decide (info.legacy_fineibt ≥ 0)) = true
  · by_cases h2 : (info.enable_fineibt_type != cet_permissive) = true
    · rw [if_pos h1, if_pos h2] at hno
      simp [incompatibility_error] at hno
    · rw [if_pos h1, if_neg h2]
      have h3 : (info.enable_fineibt_type == cet_permissive) = true := by simpa using h2
      rw [hd, h1, h3]
      rfl
  · rw [if_neg h1]
    have h1b : (info.fineibt_enabled && decide (info.legacy_fineibt ≥ 0)) = false := by simpa using h1
    rw [hd, h1b]
    simp

/-- With no incompatibility error, the three tests of `dl_cet_check_dyn` hand
`kernel_disable_bits` and the FineIBT bit (when IBT or FineIBT is downgraded)
to the rest of the function. -/
theorem dyn_tests_eq (E : sysenv) (m : link_root) (info : dl_info) (st : machine)
    (hno : incompatibility_error (dl_cet_check_dyn_fineibt E m info 0 0 st).exit = false) :
    dl_cet_check_dyn_fineibt E m info 0 0 st
      = dl_cet_check_dyn_disable E m info (kernel_disable_bits info)
          (if downgraded info feature.ibt || downgraded info feature.fineibt then
            E.FEATURE_1_FINEIBT
          else 0) st := by
  have e1 := dyn_fineibt_eq E m info 0 0 st hno
  rw [e1] at hno
  have e2 := dyn_ibt_eq E m info _ _ st hno
  rw [e2] at hno
  have e3 := dyn_shstk_eq E m info _ _ st hno
  rw [e1, e2, e3]
  unfold kernel_disable_bits
  congr 1
  · simp
  · cases downgraded info feature.ibt <;> cases downgraded info feature.fineibt <;> simp

theorem dyn_disable_eq (E : sysenv) (m : link_root) (info : dl_info) (c f : Nat)
    (st : machine)
    (hperm : info.enable_ibt_type = cet_permissive ∨ info.enable_shstk_type = cet_permissive
      ∨ info.enable_fineibt_type = cet_permissive)
    (hc : c ≠ 0) (hk : E.dl_cet_disable_cet c = 0) :
    dl_cet_check_dyn_disable E m info c f st
      = { info := info
          st :=
            { dl_x86_feature_1 := st.dl_x86_feature_1 &&& (not32 (c ||| f) ||| 0xffffffe0)
              header_feature_1 := st.dl_x86_feature_1 &&& (not32 (c ||| f) ||| 0xffffffe0)
              kernel_calls := st.kernel_calls ++ [kernel_call.disable_cet c] }
          exit := outcome.returned } := by
  have hcf : c ||| f ≠ 0 := by
    intro h0
    apply hc
    apply Nat.eq_of_testBit_eq
    intro i
    have hi : (c ||| f).testBit i = false := by rw [h0]; simp
    rw [Nat.testBit_or, Bool.or_eq_false_iff] at hi
    rw [hi.1]
    simp
  unfold dl_cet_check_dyn_disable dl_cet_check_dyn_commit
  simp only
  rw [if_neg (by
    simp only [Bool.and_eq_true, bne_iff_ne, ne_eq, not_and, Decidable.not_not]
    intro h1
    rcases hperm with h | h | h
    · exact absurd h h1.1
    · exact absurd h h1.2
    · exact h)]
  rw [if_pos (by simpa using hc)]
  rw [if_neg (by simp [hk])]
  rw [if_pos (by simpa using hcf)]

theorem dl_cet_check_info_enabled (E : sysenv) (info0 : dl_info) (st : machine) :
    (dl_cet_check_info E info0 st).enabled feature.ibt
        = has_bit st.dl_x86_feature_1 GNU_PROPERTY_X86_FEATURE_1_IBT
      ∧ (dl_cet_check_info E info0 st).enabled feature.shstk
        = has_bit st.dl_x86_feature_1 GNU_PROPERTY_X86_FEATURE_1_SHSTK
      ∧ (dl_cet_check_info E info0 st).enabled feature.fineibt = info0.fineibt_enabled :=
  ⟨rfl, rfl, rfl⟩

theorem passes_of_permissive (E : sysenv) (st : machine) (F : feature)
    (hF : F = feature.ibt ∨ F = feature.shstk)
    (hbit : has_bit st.dl_x86_feature_1 (E.feature_1_bit F) = true)
    (hty : E.feature_control.of F ≠ cet_always_on) :
    passes_fast_paths E st = true := by
  unfold passes_fast_paths
  rcases hF with h | h <;> subst h <;>
    simp only [sysenv.feature_1_bit, dl_x86_feature_control.of] at hbit hty <;>
    simp [hbit, hty]

/-- C2. Permissive downgrade on a dynamic load. If IBT or SHSTK is set in
`GL(dl_x86_feature_1)`, is configured permissive and has a legacy index after
the scan, no incompatibility error is raised and `dl_cet_disable_cet`
succeeds, then the call returns normally, the kernel is called exactly once,
with the downgraded IBT and SHSTK bits, the new feature word is the old one
with exactly the bits `D` cleared (bit by bit: new = old AND NOT `D`), where
`D` is the downgraded IBT and SHSTK bits plus the FineIBT bit when IBT or
FineIBT is downgraded, and the thread's copy equals the new word. The word is
a 32-bit value and the FineIBT bit lies in the low five bits. The last three
items tie the flags read by `downgraded` to the state on entry. -/
theorem dyn_permissive_downgrade (E : sysenv) (m : link_root) (info0 : dl_info)
    (st : machine)
    (hst : st.dl_x86_feature_1 < 2 ^ 32)
    (hfine : E.FEATURE_1_FINEIBT < 32)
    (hF : ∃ F, (F = feature.ibt ∨ F = feature.shstk)
      ∧ has_bit st.dl_x86_feature_1 (E.feature_1_bit F) = true
      ∧ E.feature_control.of F = cet_permissive
      ∧ (_dl_cet_open_check E m info0 st).info.legacy F ≥ 0)
    (hno : incompatibility_error (_dl_cet_open_check E m info0 st).exit = false)
    (hk : E.dl_cet_disable_cet
      (kernel_disable_bits (_dl_cet_open_check E m info0 st).info) = 0) :
    (_dl_cet_open_check E m info0 st).exit = outcome.returned
      ∧ (_dl_cet_open_check E m info0 st).st.kernel_calls
          = st.kernel_calls
            ++ [kernel_call.disable_cet
                  (kernel_disable_bits (_dl_cet_open_check E m info0 st).info)]
      ∧ (∀ i, (_dl_cet_open_check E m info0 st).st.dl_x86_feature_1.testBit i
          = (st.dl_x86_feature_1.testBit i
              && !(cleared_bits E (_dl_cet_open_check E m info0 st).info).testBit i))
      ∧ (_dl_cet_open_check E m info0 st).st.header_feature_1
          = (_dl_cet_open_check E m info0 st).st.dl_x86_feature_1
      ∧ (∀ F, (_dl_cet_open_check E m info0 st).info.type F = E.feature_control.of F)
      ∧ (∀ F, F = feature.ibt ∨ F = feature.shstk →
          (_dl_cet_open_check E m info0 st).info.enabled F
            = has_bit st.dl_x86_feature_1 (E.feature_1_bit F))
      ∧ (_dl_cet_open_check E m info0 st).info.enabled feature.fineibt
          = info0.fineibt_enabled := by
  obtain ⟨F, hF1, hF2, hF3, hF4⟩ := hF
  have hp : passes_fast_paths E st = true :=
    passes_of_permissive E st F hF1 hF2 (by rw [hF3]; decide)
  have hinfo : (_dl_cet_open_check E m info0 st).info = dyn_scan_info E m info0 st := by
    rw [open_check_eq E m info0 st hp]
    exact (dyn_stage_info E m _ 0 0 st).2.2.2.2
  rw [hinfo] at hF4 hk ⊢
  rw [open_check_eq E m info0 st hp] at hno ⊢
  have hty := dyn_scan_info_type E m info0 st
  have hen := dyn_scan_info_enabled E m info0 st
  obtain ⟨hi1, hi2, hi3⟩ := dl_cet_check_info_enabled E info0 st
  generalize dyn_scan_info E m info0 st = info1 at *
  have hlink : ∀ G, G = feature.ibt ∨ G = feature.shstk →
      info1.enabled G = has_bit st.dl_x86_feature_1 (E.feature_1_bit G) := by
    intro G hG
    rcases hG with h | h <;> subst h
    · rw [hen, hi1]; rfl
    · rw [hen, hi2]; rfl
  have hdown : downgraded info1 F = true := by
    unfold downgraded
    rw [hlink F hF1, hF2, hty F, hF3]
    simpa using hF4
  have hc : kernel_disable_bits info1 ≠ 0 := by
    unfold kernel_disable_bits
    rcases hF1 with h | h <;> subst h <;> rw [hdown]
    · cases downgraded info1 feature.shstk <;> decide
    · cases downgraded info1 feature.ibt <;> decide
  have hperm : info1.enable_ibt_type = cet_permissive
      ∨ info1.enable_shstk_type = cet_permissive
      ∨ info1.enable_fineibt_type = cet_permissive := by
    have h := hty F
    rw [hF3] at h
    rcases hF1 with h1 | h1 <;> subst h1
    · left; exact h
    · right; left; exact h
  have hD : cleared_bits E info1 < 32 := by
    unfold cleared_bits kernel_disable_bits
    have h32 : (32 : Nat) = 2 ^ 5 := by norm_num
    rw [h32] at hfine ⊢
    apply Nat.or_lt_two_pow
    · cases downgraded info1 feature.ibt <;> cases downgraded info1 feature.shstk <;> decide
    · split_ifs
      · exact hfine
      · norm_num
  rw [dyn_tests_eq E m info1 st hno, dyn_disable_eq E m info1 _ _ st hperm hc hk]
  refine ⟨rfl, rfl, ?_, rfl, hty, hlink, ?_⟩
  · intro i
    exact clear_mask_testBit st.dl_x86_feature_1 (cleared_bits E info1) i hst hD
  · rw [hen, hi3]

/-- A run of C2: every feature permissive, `root_mixed` loaded into a process
whose feature word is `0x53` (IBT, SHSTK, FineIBT and bit 6). -/
theorem dyn_permissive_downgrade_witness :
    (_dl_cet_open_check (env_of control_permissive) root_mixed (info_of control_default)
        (state_of 0x53)).st.dl_x86_feature_1 = 0x40
      ∧ ((_dl_cet_open_check (env_of control_permissive) root_mixed
            (info_of control_default) (state_of 0x53)).exit = outcome.returned
        ∧ (_dl_cet_open_check (env_of control_permissive) root_mixed
            (info_of control_default) (state_of 0x53)).st.kernel_calls
          = (state_of 0x53).kernel_calls
            ++ [kernel_call.disable_cet
                  (kernel_disable_bits (_dl_cet_open_check (env_of control_permissive)
                    root_mixed (info_of control_default) (state_of 0x53)).info)]
        ∧ (∀ i, (_dl_cet_open_check (env_of control_permissive) root_mixed
              (info_of control_default) (state_of 0x53)).st.dl_x86_feature_1.testBit i
            = ((state_of 0x53).dl_x86_feature_1.testBit i
                && !(cleared_bits (env_of control_permissive)
                      (_dl_cet_open_check (env_of control_permissive) root_mixed
                        (info_of control_default) (state_of 0x53)).info).testBit i))
        ∧ (_dl_cet_open_check (env_of control_permissive) root_mixed
            (info_of control_default) (state_of 0x53)).st.header_feature_1
          = (_dl_cet_open_check (env_of control_permissive) root_mixed
            (info_of control_default) (state_of 0x53)).st.dl_x86_feature_1
        ∧ (∀ F, (_dl_cet_open_check (env_of control_permissive) root_mixed
              (info_of control_default) (state_of 0x53)).info.type F
            = (env_of control_permissive).feature_control.of F)
        ∧ (∀ F, F = feature.ibt ∨ F = feature.shstk →
            (_dl_cet_open_check (env_of control_permissive) root_mixed
              (info_of control_default) (state_of 0x53)).info.enabled F
              = has_bit (state_of 0x53).dl_x86_feature_1
                  ((env_of control_permissive).feature_1_bit F))
        ∧ (_dl_cet_open_check (env_of control_permissive) root_mixed
            (info_of control_default) (state_of 0x53)).info.enabled feature.fineibt
          = (info_of control_default).fineibt_enabled) :=
  ⟨by decide,
    dyn_permissive_downgrade (env_of control_permissive) root_mixed
      (info_of control_default) (state_of 0x53) (by decide) (by decide)
      ⟨feature.ibt, Or.inl rfl, by decide, by decide, by decide⟩ (by decide) (by decide)⟩

/-! ## The scan seen from its end -/

theorem scan_final (E : sysenv) (m : link_root) (info : dl_info)
    (program : Option String) (F : feature) (he : info.enable F = info.enabled F)
    (hl : info.legacy F < 0) :
    scan_inv E m program F info (dl_check_legacy E m info program) m.r_nlist := by
  rw [dl_check_legacy_eq_after]
  exact after_inv E m program info F he hl m.r_nlist (le_refl _)

/-- A scan that meets a legacy entry for an enabled feature whose policy is
not always-on records a legacy index. -/
theorem scan_records_legacy (E : sysenv) (m : link_root) (info : dl_info)
    (program : Option String) (F : feature) (hen : info.enable F = true)
    (hprev : info.enabled F = true) (hl : info.legacy F < 0)
    (hty : info.type F ≠ cet_always_on) (hleg : ∃ j, legacy_at E m program F j = true) :
    (dl_check_legacy E m info program).legacy F ≥ 0 := by
  obtain ⟨j0, hj0⟩ := hleg
  have hlt := legacy_at_lt E m program F j0 hj0
  rcases scan_final E m info program F (by rw [hen, hprev]) hl with
    ⟨_, _, h3⟩ | ⟨_, _, j, _, _, _, _, hj⟩
  · have := h3 hen j0 (by omega) hlt
    rw [narrow_at_eq E m program _ F j0 hty, hj0] at this
    exact absurd this (by decide)
  · rw [hj]
    omega

/-- A scan leaves alone a feature whose enable flag agrees with its
previously-enabled flag when the policy is always-on or no scanned entry lacks
the support bit. -/
theorem scan_keeps (E : sysenv) (m : link_root) (info : dl_info)
    (program : Option String) (F : feature) (he : info.enable F = info.enabled F)
    (hl : info.legacy F < 0)
    (hok : info.type F = cet_always_on ∨ ∀ j, legacy_at E m program F j = false) :
    (dl_check_legacy E m info program).enable F = info.enable F
      ∧ (dl_check_legacy E m info program).legacy F = info.legacy F := by
  rcases scan_final E m info program F he hl with
    ⟨h1, h2, _⟩ | ⟨_, _, j, _, _, hj, _, _⟩
  · exact ⟨h1, h2⟩
  · exfalso
    rcases hok with hon | hall
    · simp [narrow_at, hon] at hj
    · simp [narrow_at, hall j] at hj

/-! ## Hard incompatibility on a dynamic load -/

theorem dyn_shstk_raises (E : sysenv) (m : link_root) (info : dl_info) (c f : Nat)
    (st : machine) (h1 : info.shstk_enabled = true) (h2 : info.legacy_shstk ≥ 0)
    (h3 : info.enable_shstk_type ≠ cet_permissive) :
    incompatibility_error (dl_cet_check_dyn_shstk E m info c f st).exit = true := by
  unfold dl_cet_check_dyn_shstk
  rw [if_pos (by simp [h1, h2]), if_pos (by simpa using h3)]
  simp [incompatibility_error]

theorem dyn_ibt_raises (E : sysenv) (m : link_root) (info : dl_info) (c f : Nat)
    (st : machine) (F : feature) (hF : F = feature.ibt ∨ F = feature.shstk)
    (h1 : info.enabled F = true) (h2 : info.legacy F ≥ 0)
    (h3 : info.type F ≠ cet_permissive) :
    incompatibility_error (dl_cet_check_dyn_ibt E m info c f st).exit = true := by
  unfold dl_cet_check_dyn_ibt
  rcases hF with h | h <;> subst h
  · simp only [dl_info.enabled, dl_info.legacy, dl_info.type] at h1 h2 h3
    rw [if_pos (by simp [h1, h2]), if_pos (by simpa using h3)]
    simp [incompatibility_error]
  · simp only [dl_info.enabled, dl_info.legacy, dl_info.type] at h1 h2 h3
    split_ifs
    · simp [incompatibility_error]
    · exact dyn_shstk_raises E m info _ _ st h1 h2 h3
    · exact dyn_shstk_raises E m info _ _ st h1 h2 h3

theorem dyn_fineibt_raises (E : sysenv) (m : link_root) (info : dl_info) (c f : Nat)
    (st : machine) (F : feature) (hF : F = feature.ibt ∨ F = feature.shstk)
    (h1 : info.enabled F = true) (h2 : info.legacy F ≥ 0)
    (h3 : info.type F ≠ cet_permissive) :
    incompatibility_error (dl_cet_check_dyn_fineibt E m info c f st).exit = true := by
  unfold dl_cet_check_dyn_fineibt
  split_ifs
  · simp [incompatibility_error]
  · exact dyn_ibt_raises E m info _ _ st F hF h1 h2 h3
  · exact dyn_ibt_raises E m info _ _ st F hF h1 h2 h3

theorem dl_cet_check_info_enable (E : sysenv) (info0 : dl_info) (st : machine) (F : feature)
    (hF : F = feature.ibt ∨ F = feature.shstk) :
    (dl_cet_check_info E info0 st).enable F
        = (has_bit st.dl_x86_feature_1 (E.feature_1_bit F)
            && E.feature_control.of F != cet_always_off)
      ∧ (dl_cet_check_info E info0 st).enabled F
        = has_bit st.dl_x86_feature_1 (E.feature_1_bit F)
      ∧ (dl_cet_check_info E info0 st).legacy F = -1
      ∧ (dl_cet_check_info E info0 st).type F = E.feature_control.of F := by
  rcases hF with h | h <;> subst h <;> exact ⟨rfl, rfl, rfl, rfl⟩

theorem dyn_scan_runs (E : sysenv) (m : link_root) (info0 : dl_info) (st : machine)
    (F : feature) (hF : F = feature.ibt ∨ F = feature.shstk)
    (hen : (dl_cet_check_info E info0 st).enable F = true) :
    dyn_scan_info E m info0 st = dl_check_legacy E m (dl_cet_check_info E info0 st) none := by
  unfold dyn_scan_info
  rw [if_pos]
  rcases hF with h | h <;> subst h <;> simp only [dl_info.enable] at hen <;> simp [hen]

/-- C3, as amended. Hard incompatibility on a dynamic load: if IBT or SHSTK is
set in `GL(dl_x86_feature_1)`, its policy is neither permissive nor always-on
nor always-off, and the dependency list holds an entry that is scanned (not
initialised, not exempt) and lacks its support bit, then the reconciliation
does not return normally: it raises an incompatibility error. -/
theorem dyn_hard_incompatibility (E : sysenv) (m : link_root) (info0 : dl_info)
    (st : machine) (F : feature) (hF : F = feature.ibt ∨ F = feature.shstk)
    (hbit : has_bit st.dl_x86_feature_1 (E.feature_1_bit F) = true)
    (hperm : E.feature_control.of F ≠ cet_permissive)
    (hon : E.feature_control.of F ≠ cet_always_on)
    (hoff : E.feature_control.of F ≠ cet_always_off)
    (hleg : ∃ j, legacy_at E m none F j = true) :
    (_dl_cet_open_check E m info0 st).exit ≠ outcome.returned
      ∧ recoverable_error (_dl_cet_open_check E m info0 st).exit = true
      ∧ incompatibility_error (_dl_cet_open_check E m info0 st).exit = true := by
  have hp : passes_fast_paths E st = true := passes_of_permissive E st F hF hbit hon
  obtain ⟨e1, e2, e3, e4⟩ := dl_cet_check_info_enable E info0 st F hF
  have hen : (dl_cet_check_info E info0 st).enable F = true := by
    rw [e1, hbit]
    simpa using hoff
  have hprev : (dl_cet_check_info E info0 st).enabled F = true := by rw [e2, hbit]
  have hscan := dyn_scan_runs E m info0 st F hF hen
  have hlegacy : (dyn_scan_info E m info0 st).legacy F ≥ 0 := by
    rw [hscan]
    exact scan_records_legacy E m _ none F hen hprev (by rw [e3]; decide)
      (by rw [e4]; exact hon) hleg
  have henabled : (dyn_scan_info E m info0 st).enabled F = true := by
    rw [dyn_scan_info_enabled, hprev]
  have htype : (dyn_scan_info E m info0 st).type F ≠ cet_permissive := by
    rw [dyn_scan_info_type]
    exact hperm
  have herr := dyn_fineibt_raises E m (dyn_scan_info E m info0 st) 0 0 st F hF henabled
    hlegacy htype
  rw [← open_check_eq E m info0 st hp] at herr
  refine ⟨?_, ?_, herr⟩
  · intro h
    rw [h] at herr
    exact absurd herr (by decide)
  · cases hx : (_dl_cet_open_check E m info0 st).exit with
    | returned => rw [hx] at herr; exact absurd herr (by decide)
    | signal_error e o s => rfl
    | fatal s => rw [hx] at herr; simp [incompatibility_error] at herr

/-- A run of C3 as amended: IBT under the default feature control, with
`root_no_ibt`. -/
theorem dyn_hard_incompatibility_witness :
    has_bit (state_of 3).dl_x86_feature_1
        ((env_of control_default).feature_1_bit feature.ibt) = true
      ∧ legacy_at (env_of control_default) root_no_ibt none feature.ibt 0 = true
      ∧ (_dl_cet_open_check (env_of control_default) root_no_ibt (info_of control_default)
          (state_of 3)).exit
        = outcome.signal_error 0 (some "plugin.so") "rebuild DSO with IBT enabled"
      ∧ ((_dl_cet_open_check (env_of control_default) root_no_ibt
            (info_of control_default) (state_of 3)).exit ≠ outcome.returned
        ∧ recoverable_error (_dl_cet_open_check (env_of control_default) root_no_ibt
            (info_of control_default) (state_of 3)).exit = true
        ∧ incompatibility_error (_dl_cet_open_check (env_of control_default) root_no_ibt
            (info_of control_default) (state_of 3)).exit = true) :=
  ⟨by decide, by decide, by decide,
    dyn_hard_incompatibility (env_of control_default) root_no_ibt (info_of control_default)
      (state_of 3) feature.ibt (Or.inl rfl) (by decide) (by decide) (by decide) (by decide)
      ⟨0, by decide⟩⟩

/-- C3, the claim as stated fails. With IBT set in the feature word, a policy
for IBT that is not permissive, and a scanned dependency without the IBT bit,
the dynamic load returns normally and raises no error: when IBT is always-on
(the scan never narrows it), and when IBT is always-off while SHSTK is not
set (no scan takes place). -/
theorem dyn_hard_incompatibility_fails :
    (passes_fast_paths (env_of control_ibt_on) (state_of 3) = true
        ∧ has_bit (state_of 3).dl_x86_feature_1 GNU_PROPERTY_X86_FEATURE_1_IBT = true
        ∧ (env_of control_ibt_on).feature_control.ibt ≠ cet_permissive
        ∧ legacy_at (env_of control_ibt_on) root_no_ibt none feature.ibt 0 = true
        ∧ (_dl_cet_open_check (env_of control_ibt_on) root_no_ibt
            (info_of control_default) (state_of 3)).exit = outcome.returned)
      ∧ (passes_fast_paths (env_of control_ibt_off) (state_of 1) = true
        ∧ has_bit (state_of 1).dl_x86_feature_1 GNU_PROPERTY_X86_FEATURE_1_IBT = true
        ∧ (env_of control_ibt_off).feature_control.ibt ≠ cet_permissive
        ∧ legacy_at (env_of control_ibt_off) root_no_ibt none feature.ibt 0 = true
        ∧ (_dl_cet_open_check (env_of control_ibt_off) root_no_ibt
            (info_of control_default) (state_of 1)).exit = outcome.returned) := by
  decide

/-! ## The legacy index of a feature that is already off -/

/-- C9, the code at the failing input. At process start with IBT always-off
and the kernel reporting IBT and SHSTK, `dl_check_legacy` is entered with the
IBT enable flag false and the previously-enabled flag true; it records
position 1 as the IBT legacy index although the entry there, `libfull.so`, is
scanned and has the IBT support bit. -/
theorem legacy_index_of_supporting_object :
    (dl_cet_check_info (env_of control_ibt_off) (info_of control_default)
        (state_of 3)).legacy_ibt = -1
      ∧ (dl_cet_check_info (env_of control_ibt_off) (info_of control_default)
        (state_of 3)).legacy_shstk = -1
      ∧ (dl_cet_check_info (env_of control_ibt_off) (info_of control_default)
        (state_of 3)).legacy_fineibt = -1
      ∧ (dl_check_legacy (env_of control_ibt_off) root_full
          (dl_cet_check_info (env_of control_ibt_off) (info_of control_default)
            (state_of 3)) (some "main")).legacy feature.ibt = 1
      ∧ (_dl_cet_check (env_of control_ibt_off) root_full (some "main")
          (info_of control_default) (state_of 3)).info.legacy feature.ibt = 1
      ∧ root_full.l_initfini[1]? = some (obj 11 "libfull.so" 14)
      ∧ dl_check_legacy_skip (env_of control_ibt_off) root_full (some "main")
          (obj 11 "libfull.so" 14) = false
      ∧ supports (env_of control_ibt_off) feature.ibt (obj 11 "libfull.so" 14) = true := by
  decide

/-! ## Lemmas on the initial-load variant -/

theorem main_publish_eq (E : sysenv) (info : dl_info) (c : Nat) (st : machine) :
    dl_cet_check_main_publish E info c st
      = { info := info
          st :=
            { dl_x86_feature_1 :=
                if info.enable_ibt || info.enable_shstk then c ||| main_fineibt_bit E info
                else st.dl_x86_feature_1
              header_feature_1 :=
                if info.enable_ibt || info.enable_shstk then c ||| main_fineibt_bit E info
                else st.header_feature_1
              kernel_calls := st.kernel_calls }
          exit := outcome.returned } := by
  unfold dl_cet_check_main_publish main_fineibt_bit
  simp only
  split_ifs <;> simp

theorem main_lock_eq (E : sysenv) (info : dl_info) (program : Option String) (c : Nat)
    (st : machine)
    (h : (dl_cet_check_main_lock E info program c st).exit = outcome.returned) :
    dl_cet_check_main_lock E info program c st
      = dl_cet_check_main_publish E info c
          { st with
            kernel_calls := st.kernel_calls
              ++ (if E.SHARED && main_lock_cond info then [kernel_call.lock_cet] else []) } := by
  have hcond : main_lock_cond info
      = ((if info.ibt_enabled && info.enable_ibt_type != cet_permissive then true
          else if !info.ibt_enabled then true else false)
        && (if info.shstk_enabled && info.enable_shstk_type != cet_permissive then true
          else if !info.shstk_enabled then true else false)) := by
    unfold main_lock_cond
    cases info.ibt_enabled <;> cases info.shstk_enabled <;>
      cases (info.enable_ibt_type != cet_permissive) <;>
      cases (info.enable_shstk_type != cet_permissive) <;> rfl
  rw [hcond]
  unfold dl_cet_check_main_lock at h ⊢
  simp only at h ⊢
  generalize ((if info.ibt_enabled && info.enable_ibt_type != cet_permissive then true
      else if !info.ibt_enabled then true else false)
    && (if info.shstk_enabled && info.enable_shstk_type != cet_permissive then true
      else if !info.shstk_enabled then true else false)) = lk at h ⊢
  cases hs : E.SHARED
  · simp
  · rw [hs] at h
    simp only [if_true, Bool.true_and] at h ⊢
    cases lk
    · simp
    · simp only [if_true] at h ⊢
      by_cases hl : (E.dl_cet_lock_cet != 0) = true
      · rw [if_pos hl] at h
        simp at h
      · rw [if_neg hl]

theorem main_eq (E : sysenv) (m : link_root) (info : dl_info) (program : Option String)
    (st : machine)
    (h : (dl_cet_check_main E m info program st).exit = outcome.returned) :
    dl_cet_check_main E m info program st
      = { info := dl_cet_check_main_scan E m info program
          st := main_final E (dl_cet_check_main_scan E m info program) st
          exit := outcome.returned } := by
  unfold dl_cet_check_main at h ⊢
  simp only at h ⊢
  generalize dl_cet_check_main_scan E m info program = info6 at h ⊢
  unfold main_final main_calls
  by_cases h1 : (!info6.enable_ibt || !info6.enable_shstk) = true
  · rw [if_pos h1] at h ⊢
    by_cases h2 : (E.dl_cet_disable_cet (not32 (dl_cet_check_main_feature info6) &&& 0x3)
        != 0) = true
    · rw [if_pos h2] at h
      simp at h
    · rw [if_neg h2] at h ⊢
      rw [main_lock_eq E info6 program _ _ h, main_publish_eq]
      simp [h1]
  · rw [if_neg h1] at h ⊢
    rw [main_lock_eq E info6 program _ _ h, main_publish_eq]
    simp [h1]

theorem main_flags_fields (E : sysenv) (m : link_root) (info : dl_info) (F : feature)
    (hF : F = feature.ibt ∨ F = feature.shstk) :
    (dl_cet_check_main_flags E m info).enable F
        = (info.enable F
            && (E.cpu F && (info.type F == cet_always_on || supports E F m.map)))
      ∧ (dl_cet_check_main_flags E m info).enabled F = info.enabled F
      ∧ (dl_cet_check_main_flags E m info).legacy F = info.legacy F
      ∧ (dl_cet_check_main_flags E m info).type F = info.type F := by
  rcases hF with h | h <;> subst h <;> exact ⟨rfl, rfl, rfl, rfl⟩

theorem main_flags_fineibt (E : sysenv) (m : link_root) (info : dl_info) :
    (dl_cet_check_main_flags E m info).enabled feature.fineibt
        = ((info.enable_fineibt_type != cet_always_off)
            && (info.enable_fineibt_type == cet_always_on
                || supports E feature.fineibt m.map))
      ∧ (dl_cet_check_main_flags E m info).enable feature.fineibt
        = (dl_cet_check_main_flags E m info).enabled feature.fineibt
      ∧ (dl_cet_check_main_flags E m info).legacy feature.fineibt = info.legacy_fineibt
      ∧ (dl_cet_check_main_flags E m info).type feature.fineibt
        = info.enable_fineibt_type :=
  ⟨rfl, rfl, rfl, rfl⟩

theorem main_scan_type (E : sysenv) (m : link_root) (info : dl_info)
    (program : Option String) (F : feature) :
    (dl_cet_check_main_scan E m info program).type F
        = (dl_cet_check_main_flags E m info).type F
      ∧ (dl_cet_check_main_scan E m info program).enabled F
        = (dl_cet_check_main_flags E m info).enabled F := by
  unfold dl_cet_check_main_scan
  simp only
  split_ifs
  · exact dl_check_legacy_type E m _ program F
  · exact ⟨rfl, rfl⟩

theorem main_scan_runs (E : sysenv) (m : link_root) (info : dl_info)
    (program : Option String) (F : feature) (hF : F = feature.ibt ∨ F = feature.shstk)
    (hen : (dl_cet_check_main_flags E m info).enable F = true) :
    dl_cet_check_main_scan E m info program
      = dl_check_legacy E m (dl_cet_check_main_flags E m info) program := by
  unfold dl_cet_check_main_scan
  simp only
  rw [if_pos]
  rcases hF with h | h <;> subst h <;> simp only [dl_info.enable] at hen <;> simp [hen]

theorem main_scan_keeps (E : sysenv) (m : link_root) (info : dl_info)
    (program : Option String) (F : feature)
    (he : (dl_cet_check_main_flags E m info).enable F
      = (dl_cet_check_main_flags E m info).enabled F)
    (hl : (dl_cet_check_main_flags E m info).legacy F < 0)
    (hok : (dl_cet_check_main_flags E m info).type F = cet_always_on
      ∨ ∀ j, legacy_at E m program F j = false) :
    (dl_cet_check_main_scan E m info program).enable F
        = (dl_cet_check_main_flags E m info).enable F
      ∧ (dl_cet_check_main_scan E m info program).legacy F
        = (dl_cet_check_main_flags E m info).legacy F := by
  unfold dl_cet_check_main_scan
  simp only
  split_ifs
  · exact scan_keeps E m _ program F he hl hok
  · exact ⟨rfl, rfl⟩

theorem main_feature_eq (info : dl_info) :
    dl_cet_check_main_feature info
      = (if info.enable_ibt
            && (info.enable_ibt_type == cet_always_on || !(decide (info.legacy_ibt ≥ 0)))
          then 1 else 0)
        ||| (if info.enable_shstk
            && (info.enable_shstk_type == cet_always_on
                || !(decide (info.legacy_shstk ≥ 0)))
          then 2 else 0) := by
  unfold dl_cet_check_main_feature
  simp only
  split_ifs <;> rfl

theorem main_feature_testBit (info : dl_info) :
    (dl_cet_check_main_feature info).testBit 0
        = (info.enable_ibt
            && (info.enable_ibt_type == cet_always_on || !(decide (info.legacy_ibt ≥ 0))))
      ∧ (dl_cet_check_main_feature info).testBit 1
        = (info.enable_shstk
            && (info.enable_shstk_type == cet_always_on
                || !(decide (info.legacy_shstk ≥ 0))))
      ∧ dl_cet_check_main_feature info < 4 := by
  rw [main_feature_eq]
  generalize (info.enable_ibt
    && (info.enable_ibt_type == cet_always_on || !(decide (info.legacy_ibt ≥ 0)))) = a
  generalize (info.enable_shstk
    && (info.enable_shstk_type == cet_always_on || !(decide (info.legacy_shstk ≥ 0)))) = b
  cases a <;> cases b <;> decide

/-- The position in the feature word of the IBT bit (0) and of the SHSTK bit
(1). -/
theorem has_bit_feature (E : sysenv) (x : Nat) :
    has_bit x (E.feature_1_bit feature.ibt) = x.testBit 0
      ∧ has_bit x (E.feature_1_bit feature.shstk) = x.testBit 1 :=
  ⟨has_bit_one x, has_bit_two x⟩

theorem main_feature_has (E : sysenv) (info : dl_info) (F : feature)
    (hF : F = feature.ibt ∨ F = feature.shstk) :
    has_bit (dl_cet_check_main_feature info) (E.feature_1_bit F)
      = (info.enable F
          && (info.type F == cet_always_on || !(decide (info.legacy F ≥ 0)))) := by
  obtain ⟨h0, h1, _⟩ := main_feature_testBit info
  rcases hF with h | h <;> subst h
  · rw [(has_bit_feature E _).1, h0]; rfl
  · rw [(has_bit_feature E _).2, h1]; rfl

theorem has_bit_or_left (E : sysenv) (x y : Nat) (F : feature)
    (hF : F = feature.ibt ∨ F = feature.shstk)
    (h : has_bit x (E.feature_1_bit F) = true) :
    has_bit (x ||| y) (E.feature_1_bit F) = true := by
  rcases hF with hf | hf <;> subst hf
  · rw [(has_bit_feature E _).1] at h ⊢
    rw [Nat.testBit_or, h]
    rfl
  · rw [(has_bit_feature E _).2] at h ⊢
    rw [Nat.testBit_or, h]
    rfl

theorem has_bit_disable_arg (E : sysenv) (c : Nat) (F : feature)
    (hF : F = feature.ibt ∨ F = feature.shstk) :
    has_bit (not32 c &&& 0x3) (E.feature_1_bit F) = !has_bit c (E.feature_1_bit F) := by
  rcases hF with hf | hf <;> subst hf
  · rw [(has_bit_feature E _).1, (has_bit_feature E _).1, Nat.testBit_and, not32_testBit]
    simp
  · rw [(has_bit_feature E _).2, (has_bit_feature E _).2, Nat.testBit_and, not32_testBit]
    have h3 : Nat.testBit 3 1 = true := by decide
    rw [h3]
    simp

theorem main_returns (E : sysenv) (m : link_root) (info : dl_info)
    (program : Option String) (st : machine)
    (hk : ∀ b, E.dl_cet_disable_cet b = 0) (hl : E.dl_cet_lock_cet = 0) :
    (dl_cet_check_main E m info program st).exit = outcome.returned := by
  have hlock : ∀ info c st,
      (dl_cet_check_main_lock E info program c st).exit = outcome.returned := by
    intro info c st
    unfold dl_cet_check_main_lock
    simp only [hl, bne_self_eq_false, Bool.false_eq_true, if_false, main_publish_eq]
    split_ifs <;> rfl
  unfold dl_cet_check_main
  simp only [hk, bne_self_eq_false, Bool.false_eq_true, if_false]
  split_ifs <;> exact hlock _ _ _

/-- The conclusion shared by the statements on a feature that ends enabled on
the initial load: its bit is set in the feature word and in the thread's copy,
and it is in the argument of no `dl_cet_disable_cet` made by the call. -/
theorem main_feature_on (E : sysenv) (m : link_root) (info : dl_info)
    (program : Option String) (st : machine) (F : feature)
    (hF : F = feature.ibt ∨ F = feature.shstk)
    (hret : (dl_cet_check_main E m info program st).exit = outcome.returned)
    (hen : (dl_cet_check_main_scan E m info program).enable F = true)
    (hleg : (dl_cet_check_main_scan E m info program).type F = cet_always_on
      ∨ (dl_cet_check_main_scan E m info program).legacy F < 0) :
    has_bit (dl_cet_check_main E m info program st).st.dl_x86_feature_1
        (E.feature_1_bit F) = true
      ∧ has_bit (dl_cet_check_main E m info program st).st.header_feature_1
        (E.feature_1_bit F) = true
      ∧ ∃ new, (dl_cet_check_main E m info program st).st.kernel_calls
          = st.kernel_calls ++ new
        ∧ ∀ b, kernel_call.disable_cet b ∈ new → has_bit b (E.feature_1_bit F) = false := by
  rw [main_eq E m info program st hret]
  generalize dl_cet_check_main_scan E m info program = info6 at hen hleg
  have hpub : (info6.enable_ibt || info6.enable_shstk) = true := by
    rcases hF with h | h <;> subst h <;> simp only [dl_info.enable] at hen <;> simp [hen]
  have hfeat : has_bit (dl_cet_check_main_feature info6) (E.feature_1_bit F) = true := by
    rw [main_feature_has E info6 F hF, hen]
    rcases hleg with h | h
    · simp [h]
    · have h2 : ¬ (info6.legacy F ≥ 0) := by omega
      simp [h2]
  simp only [main_final, if_pos hpub]
  refine ⟨has_bit_or_left E _ _ F hF hfeat, has_bit_or_left E _ _ F hF hfeat,
    main_calls E info6, rfl, ?_⟩
  intro b hb
  unfold main_calls at hb
  rw [List.mem_append] at hb
  rcases hb with hb | hb
  · split_ifs at hb
    · simp only [List.mem_singleton, kernel_call.disable_cet.injEq] at hb
      rw [hb, has_bit_disable_arg E _ F hF, hfeat]
      rfl
    · simp at hb
  · split_ifs at hb <;> simp at hb

/-- C4. Initial load, everything supports the feature: for IBT or SHSTK, if
the bit is set in `GL(dl_x86_feature_1)` on entry, the fast paths are passed,
the CPU reports the feature, its policy is not always-off, the executable and
every entry of its dependency list have the support bit, and the kernel calls
succeed, then the call returns normally, the scan leaves the enable flag true
and records no legacy index, the bit is set in the feature word and in the
thread's copy afterwards, and it is in the argument of no
`dl_cet_disable_cet` made by the call. -/
theorem main_supported_feature_enabled (E : sysenv) (m : link_root) (p : String)
    (info0 : dl_info) (st : machine) (F : feature)
    (hF : F = feature.ibt ∨ F = feature.shstk)
    (hp : passes_fast_paths E st = true)
    (hbit : has_bit st.dl_x86_feature_1 (E.feature_1_bit F) = true)
    (hcpu : E.cpu F = true)
    (hoff : E.feature_control.of F ≠ cet_always_off)
    (hroot : supports E F m.map = true)
    (hdeps : ∀ l, l ∈ m.l_initfini → supports E F l = true)
    (hk : ∀ b, E.dl_cet_disable_cet b = 0) (hl : E.dl_cet_lock_cet = 0) :
    (_dl_cet_check E m (some p) info0 st).exit = outcome.returned
      ∧ (_dl_cet_check E m (some p) info0 st).info.enable F = true
      ∧ (_dl_cet_check E m (some p) info0 st).info.legacy F = -1
      ∧ has_bit (_dl_cet_check E m (some p) info0 st).st.dl_x86_feature_1
          (E.feature_1_bit F) = true
      ∧ has_bit (_dl_cet_check E m (some p) info0 st).st.header_feature_1
          (E.feature_1_bit F) = true
      ∧ ∃ new, (_dl_cet_check E m (some p) info0 st).st.kernel_calls
          = st.kernel_calls ++ new
        ∧ ∀ b, kernel_call.disable_cet b ∈ new → has_bit b (E.feature_1_bit F) = false := by
  have hcheck : _dl_cet_check E m (some p) info0 st
      = dl_cet_check_main E m (dl_cet_check_info E info0 st) (some p) st := by
    unfold _dl_cet_check
    rw [dl_cet_check_eq E m (some p) info0 st hp]
    rfl
  rw [hcheck]
  have hret := main_returns E m (dl_cet_check_info E info0 st) (some p) st hk hl
  obtain ⟨e1, e2, e3, e4⟩ := dl_cet_check_info_enable E info0 st F hF
  obtain ⟨f1, f2, f3, f4⟩ := main_flags_fields E m (dl_cet_check_info E info0 st) F hF
  have hen0 : (dl_cet_check_info E info0 st).enable F = true := by
    rw [e1, hbit]
    simpa using hoff
  have hen : (dl_cet_check_main_flags E m (dl_cet_check_info E info0 st)).enable F = true := by
    rw [f1, hen0, hcpu, hroot]
    simp
  have hprev : (dl_cet_check_main_flags E m (dl_cet_check_info E info0 st)).enabled F
      = true := by
    rw [f2, e2, hbit]
  have hlegacy : (dl_cet_check_main_flags E m (dl_cet_check_info E info0 st)).legacy F
      = -1 := by
    rw [f3, e3]
  have hnone : ∀ j, legacy_at E m (some p) F j = false := by
    intro j
    unfold legacy_at
    cases hj : m.l_initfini[j]? with
    | none => rfl
    | some l =>
      have hmem : l ∈ m.l_initfini := List.getElem?_mem hj
      simp [hdeps l hmem]
  obtain ⟨k1, k2⟩ := main_scan_keeps E m (dl_cet_check_info E info0 st) (some p) F
    (by rw [hen, hprev]) (by rw [hlegacy]; decide) (Or.inr hnone)
  rw [hen] at k1
  rw [hlegacy] at k2
  have hmain := main_feature_on E m (dl_cet_check_info E info0 st) (some p) st F hF hret k1
    (Or.inr (by rw [k2]; decide))
  have hinfo : (dl_cet_check_main E m (dl_cet_check_info E info0 st) (some p) st).info
      = dl_cet_check_main_scan E m (dl_cet_check_info E info0 st) (some p) := by
    rw [main_eq E m _ (some p) st hret]
  rw [hinfo]
  exact ⟨hret, k1, k2, hmain⟩

/-- A run of C4: IBT on the initial load of `root_full` under the default
feature control. -/
theorem main_supported_feature_enabled_witness :
    passes_fast_paths (env_of control_default) (state_of 3) = true
      ∧ has_bit (state_of 3).dl_x86_feature_1
          ((env_of control_default).feature_1_bit feature.ibt) = true
      ∧ ((_dl_cet_check (env_of control_default) root_full (some "main")
            (info_of control_default) (state_of 3)).exit = outcome.returned
        ∧ (_dl_cet_check (env_of control_default) root_full (some "main")
            (info_of control_default) (state_of 3)).info.enable feature.ibt = true
        ∧ (_dl_cet_check (env_of control_default) root_full (some "main")
            (info_of control_default) (state_of 3)).info.legacy feature.ibt = -1
        ∧ has_bit (_dl_cet_check (env_of control_default) root_full (some "main")
            (info_of control_default) (state_of 3)).st.dl_x86_feature_1
            ((env_of control_default).feature_1_bit feature.ibt) = true
        ∧ has_bit (_dl_cet_check (env_of control_default) root_full (some "main")
            (info_of control_default) (state_of 3)).st.header_feature_1
            ((env_of control_default).feature_1_bit feature.ibt) = true
        ∧ ∃ new, (_dl_cet_check (env_of control_default) root_full (some "main")
              (info_of control_default) (state_of 3)).st.kernel_calls
            = (state_of 3).kernel_calls ++ new
          ∧ ∀ b, kernel_call.disable_cet b ∈ new →
              has_bit b ((env_of control_default).feature_1_bit feature.ibt) = false) :=
  ⟨by decide, by decide,
    main_supported_feature_enabled (env_of control_default) root_full "main"
      (info_of control_default) (state_of 3) feature.ibt (Or.inl rfl) (by decide)
      (by decide) (by decide) (by decide) (by decide) (by decide) (fun _ => rfl) rfl⟩

/-! ## What a dynamic load that returns leaves behind -/

theorem dyn_disable_returned (E : sysenv) (m : link_root) (info : dl_info) (c f : Nat)
    (st : machine)
    (h : (dl_cet_check_dyn_disable E m info c f st).exit = outcome.returned) :
    (((dl_cet_check_dyn_disable E m info c f st).st.dl_x86_feature_1 = st.dl_x86_feature_1
          ∧ (dl_cet_check_dyn_disable E m info c f st).st.header_feature_1
            = st.header_feature_1)
        ∨ ((dl_cet_check_dyn_disable E m info c f st).st.dl_x86_feature_1
            = st.dl_x86_feature_1 &&& (not32 (c ||| f) ||| 0xffffffe0)
          ∧ (dl_cet_check_dyn_disable E m info c f st).st.header_feature_1
            = st.dl_x86_feature_1 &&& (not32 (c ||| f) ||| 0xffffffe0)))
      ∧ ((dl_cet_check_dyn_disable E m info c f st).st.kernel_calls = st.kernel_calls
        ∨ (dl_cet_check_dyn_disable E m info c f st).st.kernel_calls
          = st.kernel_calls ++ [kernel_call.disable_cet c]) := by
  unfold dl_cet_check_dyn_disable dl_cet_check_dyn_commit at h ⊢
  simp only at h ⊢
  split_ifs at h ⊢
  all_goals first
    | exact ⟨Or.inl ⟨rfl, rfl⟩, Or.inl rfl⟩
    | exact ⟨Or.inr ⟨rfl, rfl⟩, Or.inl rfl⟩
    | exact ⟨Or.inl ⟨rfl, rfl⟩, Or.inr rfl⟩
    | exact ⟨Or.inr ⟨rfl, rfl⟩, Or.inr rfl⟩

theorem kernel_disable_bits_has (E : sysenv) (info : dl_info) (F : feature)
    (hF : F = feature.ibt ∨ F = feature.shstk) :
    has_bit (kernel_disable_bits info) (E.feature_1_bit F) = downgraded info F := by
  unfold kernel_disable_bits
  rcases hF with h | h <;> subst h <;>
    cases downgraded info feature.ibt <;> cases downgraded info feature.shstk <;>
    simp only [sysenv.feature_1_bit] <;> decide

theorem fineibt_bit_apart (E : sysenv) (h : E.FEATURE_1_FINEIBT &&& 0x3 = 0) :
    E.FEATURE_1_FINEIBT.testBit 0 = false ∧ E.FEATURE_1_FINEIBT.testBit 1 = false := by
  have h0 : (E.FEATURE_1_FINEIBT &&& 0x3).testBit 0 = false := by rw [h]; simp
  have h1 : (E.FEATURE_1_FINEIBT &&& 0x3).testBit 1 = false := by rw [h]; simp
  rw [Nat.testBit_and] at h0 h1
  have h30 : Nat.testBit 3 0 = true := by decide
  have h31 : Nat.testBit 3 1 = true := by decide
  rw [h30, Bool.and_true] at h0
  rw [h31, Bool.and_true] at h1
  exact ⟨h0, h1⟩

theorem has_bit_fineibt_apart (E : sysenv) (F : feature)
    (hF : F = feature.ibt ∨ F = feature.shstk) (h : E.FEATURE_1_FINEIBT &&& 0x3 = 0) (b : Bool) :
    has_bit (if b then E.FEATURE_1_FINEIBT else 0) (E.feature_1_bit F) = false := by
  obtain ⟨h0, h1⟩ := fineibt_bit_apart E h
  rcases hF with hf | hf <;> subst hf
  · rw [(has_bit_feature E _).1]
    cases b
    · simp
    · simpa using h0
  · rw [(has_bit_feature E _).2]
    cases b
    · simp
    · simpa using h1

theorem has_bit_or (E : sysenv) (x y : Nat) (F : feature)
    (hF : F = feature.ibt ∨ F = feature.shstk) :
    has_bit (x ||| y) (E.feature_1_bit F)
      = (has_bit x (E.feature_1_bit F) || has_bit y (E.feature_1_bit F)) := by
  rcases hF with hf | hf <;> subst hf
  · simp only [(has_bit_feature E _).1, Nat.testBit_or]
  · simp only [(has_bit_feature E _).2, Nat.testBit_or]

theorem has_bit_cleared (E : sysenv) (old D : Nat) (F : feature)
    (hF : F = feature.ibt ∨ F = feature.shstk) :
    has_bit (old &&& (not32 D ||| 0xffffffe0)) (E.feature_1_bit F)
      = (has_bit old (E.feature_1_bit F) && !has_bit D (E.feature_1_bit F)) := by
  rcases hF with hf | hf <;> subst hf
  · simp only [(has_bit_feature E _).1, Nat.testBit_and, Nat.testBit_or, not32_testBit,
      high_mask_testBit]
    simp
  · simp only [(has_bit_feature E _).2, Nat.testBit_and, Nat.testBit_or, not32_testBit,
      high_mask_testBit]
    simp

/-- The dynamic-load half of the always-on override, and of any feature that
the scan leaves without a legacy index: the bit stays set and is never passed
to `dl_cet_disable_cet`. -/
theorem dyn_feature_kept (E : sysenv) (m : link_root) (info : dl_info) (st : machine)
    (F : feature) (hF : F = feature.ibt ∨ F = feature.shstk)
    (hfine : E.FEATURE_1_FINEIBT &&& 0x3 = 0)
    (hbit : has_bit st.dl_x86_feature_1 (E.feature_1_bit F) = true)
    (hleg : info.legacy F < 0)
    (hret : (dl_cet_check_dyn_fineibt E m info 0 0 st).exit = outcome.returned) :
    has_bit (dl_cet_check_dyn_fineibt E m info 0 0 st).st.dl_x86_feature_1
        (E.feature_1_bit F) = true
      ∧ ∃ new, (dl_cet_check_dyn_fineibt E m info 0 0 st).st.kernel_calls
          = st.kernel_calls ++ new
        ∧ ∀ b, kernel_call.disable_cet b ∈ new → has_bit b (E.feature_1_bit F) = false := by
  have hno : incompatibility_error (dl_cet_check_dyn_fineibt E m info 0 0 st).exit = false := by
    rw [hret]
    rfl
  have hdown : downgraded info F = false := by
    unfold downgraded
    have h2 : ¬ (info.legacy F ≥ 0) := by omega
    simp [h2]
  have hk := kernel_disable_bits_has E info F hF
  rw [hdown] at hk
  rw [dyn_tests_eq E m info st hno] at hret ⊢
  obtain ⟨hw, hc⟩ := dyn_disable_returned E m info _ _ st hret
  constructor
  · rcases hw with ⟨h1, _⟩ | ⟨h1, _⟩
    · rw [h1]
      exact hbit
    · rw [h1, has_bit_cleared E _ _ F hF, hbit, has_bit_or E _ _ F hF, hk,
        has_bit_fineibt_apart E F hF hfine]
      rfl
  · rcases hc with h1 | h1
    · exact ⟨[], by rw [h1]; simp, by simp⟩
    · refine ⟨[kernel_call.disable_cet (kernel_disable_bits info)], h1, ?_⟩
      intro b hb
      simp only [List.mem_singleton, kernel_call.disable_cet.injEq] at hb
      rw [hb]
      exact hk

/-- C5. Always-on override: for IBT or SHSTK configured always-on (the fast
paths being passed) and set in `GL(dl_x86_feature_1)` on entry, whatever the
support bits of the executable and of its dependencies, on the initial load
(the CPU reporting the feature and the kernel calls succeeding) and on a
dynamic load that returns normally (the FineIBT bit being neither the IBT nor
the SHSTK bit): the call returns, the scan records no legacy index for the
feature, its bit is set in the feature word afterwards, and it is in the
argument of no `dl_cet_disable_cet` made by the call. -/
theorem always_on_override (E : sysenv) (m : link_root) (program : Option String)
    (info0 : dl_info) (st : machine) (F : feature)
    (hF : F = feature.ibt ∨ F = feature.shstk)
    (hon : E.feature_control.of F = cet_always_on)
    (hp : passes_fast_paths E st = true)
    (hbit : has_bit st.dl_x86_feature_1 (E.feature_1_bit F) = true)
    (hmain : program.isSome = true →
      E.cpu F = true ∧ (∀ b, E.dl_cet_disable_cet b = 0) ∧ E.dl_cet_lock_cet = 0)
    (hdyn : program = none →
      E.FEATURE_1_FINEIBT &&& 0x3 = 0
        ∧ (dl_cet_check E m program info0 st).exit = outcome.returned) :
    (dl_cet_check E m program info0 st).exit = outcome.returned
      ∧ (dl_cet_check E m program info0 st).info.legacy F = -1
      ∧ has_bit (dl_cet_check E m program info0 st).st.dl_x86_feature_1
          (E.feature_1_bit F) = true
      ∧ ∃ new, (dl_cet_check E m program info0 st).st.kernel_calls
          = st.kernel_calls ++ new
        ∧ ∀ b, kernel_call.disable_cet b ∈ new → has_bit b (E.feature_1_bit F) = false := by
  obtain ⟨e1, e2, e3, e4⟩ := dl_cet_check_info_enable E info0 st F hF
  have hen0 : (dl_cet_check_info E info0 st).enable F = true := by
    rw [e1, hbit, hon]
    rfl
  cases program with
  | some p =>
    obtain ⟨hcpu, hk, hl⟩ := hmain rfl
    have hcheck : dl_cet_check E m (some p) info0 st
        = dl_cet_check_main E m (dl_cet_check_info E info0 st) (some p) st := by
      rw [dl_cet_check_eq E m (some p) info0 st hp]
      rfl
    rw [hcheck]
    have hret := main_returns E m (dl_cet_check_info E info0 st) (some p) st hk hl
    obtain ⟨f1, f2, f3, f4⟩ := main_flags_fields E m (dl_cet_check_info E info0 st) F hF
    have hty : (dl_cet_check_main_flags E m (dl_cet_check_info E info0 st)).type F
        = cet_always_on := by rw [f4, e4, hon]
    have hen : (dl_cet_check_main_flags E m (dl_cet_check_info E info0 st)).enable F
        = true := by
      rw [f1, hen0, hcpu, e4, hon]
      rfl
    have hprev : (dl_cet_check_main_flags E m (dl_cet_check_info E info0 st)).enabled F
        = true := by rw [f2, e2, hbit]
    have hlegacy : (dl_cet_check_main_flags E m (dl_cet_check_info E info0 st)).legacy F
        = -1 := by rw [f3, e3]
    obtain ⟨k1, k2⟩ := main_scan_keeps E m (dl_cet_check_info E info0 st) (some p) F
      (by rw [hen, hprev]) (by rw [hlegacy]; decide) (Or.inl hty)
    rw [hen] at k1
    rw [hlegacy] at k2
    obtain ⟨m1, _, m3⟩ := main_feature_on E m (dl_cet_check_info E info0 st) (some p) st F
      hF hret k1 (Or.inr (by rw [k2]; decide))
    have hinfo : (dl_cet_check_main E m (dl_cet_check_info E info0 st) (some p) st).info
        = dl_cet_check_main_scan E m (dl_cet_check_info E info0 st) (some p) := by
      rw [main_eq E m _ (some p) st hret]
    rw [hinfo]
    exact ⟨hret, k2, m1, m3⟩
  | none =>
    obtain ⟨hfine, hret⟩ := hdyn rfl
    have hcheck : dl_cet_check E m none info0 st
        = dl_cet_check_dyn_fineibt E m (dyn_scan_info E m info0 st) 0 0 st :=
      open_check_eq E m info0 st hp
    rw [hcheck] at hret ⊢
    have hscan := dyn_scan_runs E m info0 st F hF hen0
    have hkeep := scan_keeps E m (dl_cet_check_info E info0 st) none F
      (by rw [hen0, e2, hbit]) (by rw [e3]; decide) (Or.inl (by rw [e4, hon]))
    rw [← hscan, e3] at hkeep
    have hinfo : (dl_cet_check_dyn_fineibt E m (dyn_scan_info E m info0 st) 0 0 st).info
        = dyn_scan_info E m info0 st := (dyn_stage_info E m _ 0 0 st).2.2.2.2
    obtain ⟨d1, d2⟩ := dyn_feature_kept E m (dyn_scan_info E m info0 st) st F hF hfine hbit
      (by rw [hkeep.2]; decide) hret
    rw [hinfo]
    exact ⟨hret, hkeep.2, d1, d2⟩

/-- A run of C5: IBT always-on, on the initial load of `root_mixed` and on a
dynamic load of `root_no_ibt`, both of which hold objects without IBT. -/
theorem always_on_override_witness :
    (legacy_at (env_of control_ibt_on) root_mixed (some "main") feature.ibt 2 = true
      ∧ ((dl_cet_check (env_of control_ibt_on) root_mixed (some "main")
            (info_of control_default) (state_of 3)).exit = outcome.returned
        ∧ (dl_cet_check (env_of control_ibt_on) root_mixed (some "main")
            (info_of control_default) (state_of 3)).info.legacy feature.ibt = -1
        ∧ has_bit (dl_cet_check (env_of control_ibt_on) root_mixed (some "main")
            (info_of control_default) (state_of 3)).st.dl_x86_feature_1
            ((env_of control_ibt_on).feature_1_bit feature.ibt) = true
        ∧ ∃ new, (dl_cet_check (env_of control_ibt_on) root_mixed (some "main")
              (info_of control_default) (state_of 3)).st.kernel_calls
            = (state_of 3).kernel_calls ++ new
          ∧ ∀ b, kernel_call.disable_cet b ∈ new →
              has_bit b ((env_of control_ibt_on).feature_1_bit feature.ibt) = false))
      ∧ (legacy_at (env_of control_ibt_on) root_no_ibt none feature.ibt 0 = true
        ∧ ((dl_cet_check (env_of control_ibt_on) root_no_ibt none
              (info_of control_default) (state_of 3)).exit = outcome.returned
          ∧ (dl_cet_check (env_of control_ibt_on) root_no_ibt none
              (info_of control_default) (state_of 3)).info.legacy feature.ibt = -1
          ∧ has_bit (dl_cet_check (env_of control_ibt_on) root_no_ibt none
              (info_of control_default) (state_of 3)).st.dl_x86_feature_1
              ((env_of control_ibt_on).feature_1_bit feature.ibt) = true
          ∧ ∃ new, (dl_cet_check (env_of control_ibt_on) root_no_ibt none
                (info_of control_default) (state_of 3)).st.kernel_calls
              = (state_of 3).kernel_calls ++ new
            ∧ ∀ b, kernel_call.disable_cet b ∈ new →
                has_bit b ((env_of control_ibt_on).feature_1_bit feature.ibt) = false)) :=
  ⟨⟨by decide,
      always_on_override (env_of control_ibt_on) root_mixed (some "main")
        (info_of control_default) (state_of 3) feature.ibt (Or.inl rfl) rfl (by decide)
        (by decide) (fun _ => ⟨by decide, fun _ => rfl, rfl⟩)
        (fun h => absurd h (by simp))⟩,
    ⟨by decide,
      always_on_override (env_of control_ibt_on) root_no_ibt none
        (info_of control_default) (state_of 3) feature.ibt (Or.inl rfl) rfl (by decide)
        (by decide) (fun h => absurd h (by simp)) (fun _ => ⟨by decide, by decide⟩)⟩⟩

/-! ## Always-off features on the initial load -/

theorem scan_enable_false (E : sysenv) (m : link_root) (info : dl_info)
    (program : Option String) (F : feature) (h : info.enable F = false) :
    (dl_check_legacy E m info program).enable F = false := by
  rw [dl_check_legacy_eq_after, after_enable E m program info F m.r_nlist (le_refl _), h]
  rfl

theorem main_scan_enable_false (E : sysenv) (m : link_root) (info : dl_info)
    (program : Option String) (F : feature)
    (h : (dl_cet_check_main_flags E m info).enable F = false) :
    (dl_cet_check_main_scan E m info program).enable F = false := by
  unfold dl_cet_check_main_scan
  simp only
  split_ifs
  · exact scan_enable_false E m _ program F h
  · exact h

theorem small_and_fineibt (E : sysenv) (x : Nat) (hx : x < 4)
    (h : E.FEATURE_1_FINEIBT &&& 0x3 = 0) : x &&& E.FEATURE_1_FINEIBT = 0 := by
  obtain ⟨h0, h1⟩ := fineibt_bit_apart E h
  apply Nat.eq_of_testBit_eq
  intro i
  rw [Nat.testBit_and, Nat.zero_testBit]
  match i with
  | 0 => rw [h0]; simp
  | 1 => rw [h1]; simp
  | i + 2 =>
    have hxi : x.testBit (i + 2) = false := by
      apply Nat.testBit_lt_two_pow
      calc x < 2 ^ 2 := by simpa using hx
        _ ≤ 2 ^ (i + 2) := Nat.pow_le_pow_right (by norm_num) (by omega)
    rw [hxi]
    rfl

/-- C6, as amended. Always-off exclusion on the initial load: when the fast
paths are passed and the kernel calls succeed, the call returns, and if IBT
or SHSTK ends enabled (the only case in which the feature word is written)
then every feature configured always-off has its bit clear in
`GL(dl_x86_feature_1)` and in the thread's copy afterwards, whatever the word
held on entry. The FineIBT bit is neither the IBT nor the SHSTK bit. -/
theorem main_always_off_excluded (E : sysenv) (m : link_root) (p : String)
    (info0 : dl_info) (st : machine) (F : feature)
    (hp : passes_fast_paths E st = true)
    (hoff : E.feature_control.of F = cet_always_off)
    (hfine : E.FEATURE_1_FINEIBT &&& 0x3 = 0)
    (hk : ∀ b, E.dl_cet_disable_cet b = 0) (hl : E.dl_cet_lock_cet = 0) :
    (_dl_cet_check E m (some p) info0 st).exit = outcome.returned
      ∧ (((_dl_cet_check E m (some p) info0 st).info.enable_ibt
            || (_dl_cet_check E m (some p) info0 st).info.enable_shstk) = true →
          has_bit (_dl_cet_check E m (some p) info0 st).st.dl_x86_feature_1
              (E.feature_1_bit F) = false
            ∧ has_bit (_dl_cet_check E m (some p) info0 st).st.header_feature_1
              (E.feature_1_bit F) = false) := by
  have hcheck : _dl_cet_check E m (some p) info0 st
      = dl_cet_check_main E m (dl_cet_check_info E info0 st) (some p) st := by
    unfold _dl_cet_check
    rw [dl_cet_check_eq E m (some p) info0 st hp]
    rfl
  rw [hcheck]
  have hret := main_returns E m (dl_cet_check_info E info0 st) (some p) st hk hl
  refine ⟨hret, ?_⟩
  rw [main_eq E m _ (some p) st hret]
  simp only [main_final]
  intro hpub
  rw [if_pos hpub, if_pos hpub, and_self]
  have hfeat := main_feature_testBit
    (dl_cet_check_main_scan E m (dl_cet_check_info E info0 st) (some p))
  have hstd : ∀ G, G = feature.ibt ∨ G = feature.shstk →
      E.feature_control.of G = cet_always_off →
      has_bit (dl_cet_check_main_feature
          (dl_cet_check_main_scan E m (dl_cet_check_info E info0 st) (some p))
        ||| main_fineibt_bit E
          (dl_cet_check_main_scan E m (dl_cet_check_info E info0 st) (some p)))
        (E.feature_1_bit G) = false := by
    intro G hG hGoff
    obtain ⟨e1, _, _, _⟩ := dl_cet_check_info_enable E info0 st G hG
    obtain ⟨f1, _, _, _⟩ := main_flags_fields E m (dl_cet_check_info E info0 st) G hG
    have hen : (dl_cet_check_main_scan E m (dl_cet_check_info E info0 st) (some p)).enable G
        = false := by
      apply main_scan_enable_false
      rw [f1, e1, hGoff]
      simp
    rw [has_bit_or E _ _ G hG, main_feature_has E _ G hG, hen]
    unfold main_fineibt_bit
    rw [has_bit_fineibt_apart E G hG hfine]
    rfl
  cases F with
  | ibt => exact hstd feature.ibt (Or.inl rfl) hoff
  | shstk => exact hstd feature.shstk (Or.inr rfl) hoff
  | fineibt =>
    obtain ⟨g1, g2, _, _⟩ := main_flags_fineibt E m (dl_cet_check_info E info0 st)
    have hty : (dl_cet_check_info E info0 st).enable_fineibt_type = cet_always_off := hoff
    have hen : (dl_cet_check_main_scan E m (dl_cet_check_info E info0 st)
        (some p)).enable feature.fineibt = false := by
      apply main_scan_enable_false
      rw [g2, g1, hty]
      rfl
    have hfb : main_fineibt_bit E
        (dl_cet_check_main_scan E m (dl_cet_check_info E info0 st) (some p)) = 0 := by
      unfold main_fineibt_bit
      simp only [dl_info.enable] at hen
      rw [hen]
      rfl
    rw [hfb, Nat.or_zero]
    unfold has_bit
    simp only [sysenv.feature_1_bit]
    rw [small_and_fineibt E _ hfeat.2.2 hfine]
    rfl

/-- A run of C6 as amended: IBT always-off on the initial load of
`root_full`; SHSTK ends enabled, the word goes from `0x3` to `0x12`. -/
theorem main_always_off_excluded_witness :
    passes_fast_paths (env_of control_ibt_off) (state_of 3) = true
      ∧ (env_of control_ibt_off).feature_control.of feature.ibt = cet_always_off
      ∧ (env_of control_ibt_off).FEATURE_1_FINEIBT &&& 0x3 = 0
      ∧ ((_dl_cet_check (env_of control_ibt_off) root_full (some "main")
            (info_of control_default) (state_of 3)).info.enable_ibt
          || (_dl_cet_check (env_of control_ibt_off) root_full (some "main")
            (info_of control_default) (state_of 3)).info.enable_shstk) = true
      ∧ (_dl_cet_check (env_of control_ibt_off) root_full (some "main")
          (info_of control_default) (state_of 3)).st.dl_x86_feature_1 = 0x12
      ∧ ((_dl_cet_check (env_of control_ibt_off) root_full (some "main")
            (info_of control_default) (state_of 3)).exit = outcome.returned
        ∧ (((_dl_cet_check (env_of control_ibt_off) root_full (some "main")
                (info_of control_default) (state_of 3)).info.enable_ibt
              || (_dl_cet_check (env_of control_ibt_off) root_full (some "main")
                (info_of control_default) (state_of 3)).info.enable_shstk) = true →
            has_bit (_dl_cet_check (env_of control_ibt_off) root_full (some "main")
                (info_of control_default) (state_of 3)).st.dl_x86_feature_1
                ((env_of control_ibt_off).feature_1_bit feature.ibt) = false
              ∧ has_bit (_dl_cet_check (env_of control_ibt_off) root_full (some "main")
                (info_of control_default) (state_of 3)).st.header_feature_1
                ((env_of control_ibt_off).feature_1_bit feature.ibt) = false)) :=
  ⟨by decide, by decide, by decide, by decide, by decide,
    main_always_off_excluded (env_of control_ibt_off) root_full "main"
      (info_of control_default) (state_of 3) feature.ibt (by decide) rfl (by decide)
      (fun _ => rfl) rfl⟩

/-- C6, the claim as stated fails. IBT always-off, the kernel reporting IBT
and SHSTK, an executable built without SHSTK: neither feature ends enabled,
`dl_cet_disable_cet (0x3)` and `dl_cet_lock_cet` succeed, the call returns,
and the feature word and the thread's copy still hold the IBT bit. -/
theorem main_always_off_bit_left_set :
    passes_fast_paths (env_of control_ibt_off) (state_of 3) = true
      ∧ (env_of control_ibt_off).feature_control.ibt = cet_always_off
      ∧ (∀ b, b < 4 → (env_of control_ibt_off).dl_cet_disable_cet b = 0)
      ∧ (env_of control_ibt_off).dl_cet_lock_cet = 0
      ∧ (_dl_cet_check (env_of control_ibt_off) root_ibt_only (some "main")
          (info_of control_default) (state_of 3)).exit = outcome.returned
      ∧ (_dl_cet_check (env_of control_ibt_off) root_ibt_only (some "main")
          (info_of control_default) (state_of 3)).st.kernel_calls
        = [kernel_call.disable_cet 3, kernel_call.lock_cet]
      ∧ has_bit (_dl_cet_check (env_of control_ibt_off) root_ibt_only (some "main")
          (info_of control_default) (state_of 3)).st.dl_x86_feature_1
          GNU_PROPERTY_X86_FEATURE_1_IBT = true
      ∧ has_bit (_dl_cet_check (env_of control_ibt_off) root_ibt_only (some "main")
          (info_of control_default) (state_of 3)).st.header_feature_1
          GNU_PROPERTY_X86_FEATURE_1_IBT = true := by
  decide

/-! ## The mixed-support scenario on the initial load -/

theorem main_returns_of (E : sysenv) (m : link_root) (info : dl_info)
    (program : Option String) (st : machine)
    (hk : (!(dl_cet_check_main_scan E m info program).enable_ibt
        || !(dl_cet_check_main_scan E m info program).enable_shstk) = true →
      E.dl_cet_disable_cet
        (not32 (dl_cet_check_main_feature (dl_cet_check_main_scan E m info program))
          &&& 0x3) = 0)
    (hl : (E.SHARED && main_lock_cond (dl_cet_check_main_scan E m info program)) = true →
      E.dl_cet_lock_cet = 0) :
    (dl_cet_check_main E m info program st).exit = outcome.returned := by
  have hlock : ∀ st, (dl_cet_check_main_lock E (dl_cet_check_main_scan E m info program)
      program
      (dl_cet_check_main_feature (dl_cet_check_main_scan E m info program)) st).exit
        = outcome.returned := by
    intro st
    by_cases hc : (E.SHARED && main_lock_cond (dl_cet_check_main_scan E m info program)) = true
    · have h0 := hl hc
      unfold dl_cet_check_main_lock
      simp only [h0, bne_self_eq_false, Bool.false_eq_true, if_false, main_publish_eq]
      split_ifs <;> rfl
    · generalize dl_cet_check_main_scan E m info program = info6 at hc ⊢
      have hcond : main_lock_cond info6
          = ((if info6.ibt_enabled && info6.enable_ibt_type != cet_permissive then true
              else if !info6.ibt_enabled then true else false)
            && (if info6.shstk_enabled && info6.enable_shstk_type != cet_permissive then true
              else if !info6.shstk_enabled then true else false)) := by
        unfold main_lock_cond
        cases info6.ibt_enabled <;> cases info6.shstk_enabled <;>
          cases (info6.enable_ibt_type != cet_permissive) <;>
          cases (info6.enable_shstk_type != cet_permissive) <;> rfl
      rw [hcond] at hc
      unfold dl_cet_check_main_lock
      simp only
      generalize ((if info6.ibt_enabled && info6.enable_ibt_type != cet_permissive then true
          else if !info6.ibt_enabled then true else false)
        && (if info6.shstk_enabled && info6.enable_shstk_type != cet_permissive then true
          else if !info6.shstk_enabled then true else false)) = lk at hc ⊢
      cases hs : E.SHARED
      · simp [main_publish_eq]
      · rw [hs] at hc
        cases lk
        · simp [main_publish_eq]
        · simp at hc
  unfold dl_cet_check_main
  simp only
  by_cases h1 : (!(dl_cet_check_main_scan E m info program).enable_ibt
      || !(dl_cet_check_main_scan E m info program).enable_shstk) = true
  · rw [if_pos h1, hk h1]
    simp only [bne_self_eq_false, Bool.false_eq_true, if_false]
    exact hlock _
  · rw [if_neg h1]
    exact hlock _

/-- C10. Mixed support on the initial load: the kernel reports IBT and SHSTK,
the CPU has both, both are permissive, the executable has both support bits,
the entry `d` at position `j` of the dependency list is scanned and has SHSTK
but not IBT, every other entry has both, and `dl_cet_disable_cet (0x1)`
succeeds. Then the call returns, the IBT legacy index is `j`, the SHSTK
legacy index is `-1`, the only kernel call is `dl_cet_disable_cet (0x1)` (so
`dl_cet_lock_cet` is not called), and the feature word and the thread's copy
afterwards have SHSTK set and IBT clear. The FineIBT bit is neither the IBT
nor the SHSTK bit. -/
theorem main_mixed_support (E : sysenv) (m : link_root) (p : String) (info0 : dl_info)
    (st : machine) (j : Nat) (d : link_map)
    (hibt : has_bit st.dl_x86_feature_1 GNU_PROPERTY_X86_FEATURE_1_IBT = true)
    (hshstk : has_bit st.dl_x86_feature_1 GNU_PROPERTY_X86_FEATURE_1_SHSTK = true)
    (hcpu1 : E.cpu_ibt = true) (hcpu2 : E.cpu_shstk = true)
    (hp1 : E.feature_control.ibt = cet_permissive)
    (hp2 : E.feature_control.shstk = cet_permissive)
    (hroot1 : supports E feature.ibt m.map = true)
    (hroot2 : supports E feature.shstk m.map = true)
    (hj : m.l_initfini[j]? = some d)
    (hskip : dl_check_legacy_skip E m (some p) d = false)
    (hd1 : supports E feature.ibt d = false)
    (hd2 : supports E feature.shstk d = true)
    (hothers : ∀ k l, k ≠ j → m.l_initfini[k]? = some l →
      supports E feature.ibt l = true ∧ supports E feature.shstk l = true)
    (hfine : E.FEATURE_1_FINEIBT &&& 0x3 = 0)
    (hk : E.dl_cet_disable_cet 0x1 = 0) :
    (_dl_cet_check E m (some p) info0 st).exit = outcome.returned
      ∧ (_dl_cet_check E m (some p) info0 st).info.legacy_ibt = (j : Int)
      ∧ (_dl_cet_check E m (some p) info0 st).info.legacy_shstk = -1
      ∧ (_dl_cet_check E m (some p) info0 st).st.kernel_calls
          = st.kernel_calls ++ [kernel_call.disable_cet 0x1]
      ∧ has_bit (_dl_cet_check E m (some p) info0 st).st.dl_x86_feature_1
          GNU_PROPERTY_X86_FEATURE_1_SHSTK = true
      ∧ has_bit (_dl_cet_check E m (some p) info0 st).st.dl_x86_feature_1
          GNU_PROPERTY_X86_FEATURE_1_IBT = false
      ∧ has_bit (_dl_cet_check E m (some p) info0 st).st.header_feature_1
          GNU_PROPERTY_X86_FEATURE_1_SHSTK = true
      ∧ has_bit (_dl_cet_check E m (some p) info0 st).st.header_feature_1
          GNU_PROPERTY_X86_FEATURE_1_IBT = false := by
  have hp : passes_fast_paths E st = true := by
    apply passes_of_permissive E st feature.ibt (Or.inl rfl) hibt
    simp only [dl_x86_feature_control.of]
    rw [hp1]
    decide
  have hcheck : _dl_cet_check E m (some p) info0 st
      = dl_cet_check_main E m (dl_cet_check_info E info0 st) (some p) st := by
    unfold _dl_cet_check
    rw [dl_cet_check_eq E m (some p) info0 st hp]
    rfl
  rw [hcheck]
  -- the flags before the scan
  have hflag : ∀ F, F = feature.ibt ∨ F = feature.shstk →
      (dl_cet_check_main_flags E m (dl_cet_check_info E info0 st)).enable F = true
        ∧ (dl_cet_check_main_flags E m (dl_cet_check_info E info0 st)).enabled F = true
        ∧ (dl_cet_check_main_flags E m (dl_cet_check_info E info0 st)).legacy F = -1
        ∧ (dl_cet_check_main_flags E m (dl_cet_check_info E info0 st)).type F
          = cet_permissive := by
    intro F hF
    obtain ⟨e1, e2, e3, e4⟩ := dl_cet_check_info_enable E info0 st F hF
    obtain ⟨f1, f2, f3, f4⟩ := main_flags_fields E m (dl_cet_check_info E info0 st) F hF
    rw [f1, f2, f3, f4, e1, e2, e3, e4]
    rcases hF with h | h <;> subst h
    · simp only [sysenv.feature_1_bit, dl_x86_feature_control.of, sysenv.cpu]
      rw [hibt, hp1, hcpu1, hroot1]
      decide
    · simp only [sysenv.feature_1_bit, dl_x86_feature_control.of, sysenv.cpu]
      rw [hshstk, hp2, hcpu2, hroot2]
      decide
  obtain ⟨a1, a2, a3, a4⟩ := hflag feature.ibt (Or.inl rfl)
  obtain ⟨b1, b2, b3, b4⟩ := hflag feature.shstk (Or.inr rfl)
  have hjlt : j < m.r_nlist := by
    unfold link_root.r_nlist
    by_contra hge
    rw [List.getElem?_eq_none (by omega)] at hj
    exact absurd hj (by simp)
  -- the scan
  have hrun := main_scan_runs E m (dl_cet_check_info E info0 st) (some p) feature.ibt
    (Or.inl rfl) a1
  have hnarrow : ∀ k, narrow_at E m (some p) cet_permissive feature.ibt k = true → k = j := by
    intro k hk1
    by_contra hne
    simp only [narrow_at, legacy_at, Bool.and_eq_true] at hk1
    cases hl : m.l_initfini[k]? with
    | none => rw [hl] at hk1; simp at hk1
    | some l =>
      rw [hl] at hk1
      have := (hothers k l hne hl).1
      simp [this] at hk1
  have hnarrowj : narrow_at E m (some p) cet_permissive feature.ibt j = true := by
    simp [narrow_at, legacy_at, hj, hskip, hd1]
  have hscan1 : (dl_cet_check_main_scan E m (dl_cet_check_info E info0 st) (some p)).enable
        feature.ibt = false
      ∧ (dl_cet_check_main_scan E m (dl_cet_check_info E info0 st) (some p)).legacy
        feature.ibt = (j : Int) := by
    rw [hrun]
    rcases scan_final E m _ (some p) feature.ibt (by rw [a1, a2]) (by rw [a3]; decide) with
      ⟨_, _, h3⟩ | ⟨_, h2, k, _, _, hk3, _, hk5⟩
    · have := h3 a1 j (by omega) hjlt
      rw [a4, hnarrowj] at this
      exact absurd this (by decide)
    · rw [a4] at hk3
      rw [hnarrow k hk3] at hk5
      exact ⟨h2, hk5⟩
  have hscan2 := main_scan_keeps E m (dl_cet_check_info E info0 st) (some p) feature.shstk
    (by rw [b1, b2]) (by rw [b3]; decide) (Or.inr (by
      intro k
      unfold legacy_at
      cases hl : m.l_initfini[k]? with
      | none => rfl
      | some l =>
        by_cases hkj : k = j
        · subst hkj
          rw [hj] at hl
          cases hl
          simp [hd2]
        · simp [(hothers k l hkj hl).2]))
  rw [b1, b3] at hscan2
  have hty1 := (main_scan_type E m (dl_cet_check_info E info0 st) (some p) feature.ibt)
  rw [a4, a2] at hty1
  have hty2 := (main_scan_type E m (dl_cet_check_info E info0 st) (some p) feature.shstk)
  rw [b4, b2] at hty2
  obtain ⟨info6, hinfo6⟩ :
      ∃ x, x = dl_cet_check_main_scan E m (dl_cet_check_info E info0 st) (some p) :=
    ⟨_, rfl⟩
  rw [← hinfo6] at hscan1 hscan2 hty1 hty2
  simp only [dl_info.enable, dl_info.legacy, dl_info.type, dl_info.enabled]
    at hscan1 hscan2 hty1 hty2
  obtain ⟨s1, s2⟩ := hscan1
  obtain ⟨s3, s4⟩ := hscan2
  obtain ⟨t1, t2⟩ := hty1
  obtain ⟨t3, t4⟩ := hty2
  have hfeat : dl_cet_check_main_feature info6 = 2 := by
    rw [main_feature_eq, s1, s3, s4]
    simp
  have harg : not32 (dl_cet_check_main_feature info6) &&& 0x3 = 1 := by
    rw [hfeat]
    decide
  have hlockc : main_lock_cond info6 = false := by
    unfold main_lock_cond
    rw [t1, t2]
    simp
  have hret : (dl_cet_check_main E m (dl_cet_check_info E info0 st) (some p) st).exit
      = outcome.returned := by
    apply main_returns_of
    · intro _
      rw [← hinfo6, harg]
      exact hk
    · intro h
      rw [← hinfo6, hlockc] at h
      simp at h
  rw [main_eq E m _ (some p) st hret, ← hinfo6]
  rw [hfeat] at harg
  simp only [main_final, main_calls, s1, s3, hlockc, hfeat, harg]
  have hfb : ∀ b : Bool, has_bit (if b then E.FEATURE_1_FINEIBT else 0)
      GNU_PROPERTY_X86_FEATURE_1_IBT = false :=
    fun b => has_bit_fineibt_apart E feature.ibt (Or.inl rfl) hfine b
  have h2s : has_bit (2 ||| main_fineibt_bit E info6) GNU_PROPERTY_X86_FEATURE_1_SHSTK
      = true :=
    has_bit_or_left E 2 _ feature.shstk (Or.inr rfl) (by
      simp only [sysenv.feature_1_bit]
      decide)
  have h2i : has_bit (2 ||| main_fineibt_bit E info6) GNU_PROPERTY_X86_FEATURE_1_IBT
      = false := by
    have h := has_bit_or E 2 (main_fineibt_bit E info6) feature.ibt (Or.inl rfl)
    simp only [sysenv.feature_1_bit] at h
    rw [h]
    unfold main_fineibt_bit
    rw [hfb]
    decide
  refine ⟨trivial, s2, s4, ?_, ?_, ?_, ?_, ?_⟩
  · simp
  · simpa using h2s
  · simpa using h2i
  · simpa using h2s
  · simpa using h2i

/-- A run of C10: `root_one_legacy`, whose entry at position 2 has SHSTK
only, with IBT, SHSTK and FineIBT permissive. -/
theorem main_mixed_support_witness :
    has_bit (state_of 3).dl_x86_feature_1 GNU_PROPERTY_X86_FEATURE_1_IBT = true
      ∧ has_bit (state_of 3).dl_x86_feature_1 GNU_PROPERTY_X86_FEATURE_1_SHSTK = true
      ∧ root_one_legacy.l_initfini[2]? = some (obj 12 "libshstk.so" 4)
      ∧ (_dl_cet_check (env_of control_permissive) root_one_legacy (some "main")
          (info_of control_default) (state_of 3)).st.dl_x86_feature_1 = 0x2
      ∧ ((_dl_cet_check (env_of control_permissive) root_one_legacy (some "main")
            (info_of control_default) (state_of 3)).exit = outcome.returned
        ∧ (_dl_cet_check (env_of control_permissive) root_one_legacy (some "main")
            (info_of control_default) (state_of 3)).info.legacy_ibt = ((2 : Nat) : Int)
        ∧ (_dl_cet_check (env_of control_permissive) root_one_legacy (some "main")
            (info_of control_default) (state_of 3)).info.legacy_shstk = -1
        ∧ (_dl_cet_check (env_of control_permissive) root_one_legacy (some "main")
            (info_of control_default) (state_of 3)).st.kernel_calls
          = (state_of 3).kernel_calls ++ [kernel_call.disable_cet 0x1]
        ∧ has_bit (_dl_cet_check (env_of control_permissive) root_one_legacy (some "main")
            (info_of control_default) (state_of 3)).st.dl_x86_feature_1
            GNU_PROPERTY_X86_FEATURE_1_SHSTK = true
        ∧ has_bit (_dl_cet_check (env_of control_permissive) root_one_legacy (some "main")
            (info_of control_default) (state_of 3)).st.dl_x86_feature_1
            GNU_PROPERTY_X86_FEATURE_1_IBT = false
        ∧ has_bit (_dl_cet_check (env_of control_permissive) root_one_legacy (some "main")
            (info_of control_default) (state_of 3)).st.header_feature_1
            GNU_PROPERTY_X86_FEATURE_1_SHSTK = true
        ∧ has_bit (_dl_cet_check (env_of control_permissive) root_one_legacy (some "main")
            (info_of control_default) (state_of 3)).st.header_feature_1
            GNU_PROPERTY_X86_FEATURE_1_IBT = false) :=
  ⟨by decide, by decide, by decide, by decide,
    main_mixed_support (env_of control_permissive) root_one_legacy "main"
      (info_of control_default) (state_of 3) 2 (obj 12 "libshstk.so" 4)
      (by decide) (by decide) rfl rfl rfl rfl (by decide) (by decide) (by decide)
      (by decide) (by decide) (by decide)
      (by
        intro k l hk hl
        match k, hk, hl with
        | 0, _, hl =>
          simp only [root_one_legacy, List.getElem?_cons_zero, Option.some.injEq] at hl
          subst hl
          decide
        | 1, _, hl =>
          simp only [root_one_legacy, List.getElem?_cons_succ, List.getElem?_cons_zero,
            Option.some.injEq] at hl
          subst hl
          decide
        | 2, hk, _ => exact absurd rfl hk
        | 3, _, hl =>
          simp only [root_one_legacy, List.getElem?_cons_succ, List.getElem?_cons_zero,
            Option.some.injEq] at hl
          subst hl
          decide
        | k + 4, _, hl =>
          simp [root_one_legacy] at hl)
      (by decide) rfl⟩

/-! ## The fast paths of the dispatch -/

theorem dl_cet_check_fast (E : sysenv) (m : link_root) (program : Option String)
    (info0 : dl_info) (st : machine)
    (h : (E.feature_control.ibt = cet_always_on ∧ E.feature_control.fineibt = cet_always_on
        ∧ E.feature_control.shstk = cet_always_on)
      ∨ (has_bit st.dl_x86_feature_1 GNU_PROPERTY_X86_FEATURE_1_IBT = false
        ∧ has_bit st.dl_x86_feature_1 GNU_PROPERTY_X86_FEATURE_1_SHSTK = false)) :
    (dl_cet_check E m program info0 st).exit = outcome.returned
      ∧ (dl_cet_check E m program info0 st).st = st
      ∧ (dl_cet_check E m program info0 st).info.legacy_ibt = -1
      ∧ (dl_cet_check E m program info0 st).info.legacy_shstk = -1
      ∧ (dl_cet_check E m program info0 st).info.legacy_fineibt = -1 := by
  unfold dl_cet_check
  simp only
  by_cases hall : (E.feature_control.ibt == cet_always_on
      && E.feature_control.fineibt == cet_always_on
      && E.feature_control.shstk == cet_always_on) = true
  · rw [if_pos hall]
    exact ⟨rfl, rfl, rfl, rfl, rfl⟩
  · rw [if_neg hall]
    rcases h with ⟨h1, h2, h3⟩ | ⟨h1, h2⟩
    · exact absurd (by simp [h1, h2, h3]) hall
    · unfold has_bit at h1 h2
      rw [if_pos (by simp only [h1, h2]; rfl)]
      exact ⟨rfl, rfl, rfl, rfl, rfl⟩

/-- C11. Dispatch fast paths: for every call of `dl_cet_check` (initial or
dynamic load, any dependency list, any stack contents), if the three policies
are all always-on, or if neither the IBT bit nor the SHSTK bit is set in
`GL(dl_x86_feature_1)`, the call returns normally, the state is unchanged (the
feature word, the thread's copy, and no kernel call is added), no legacy
index is recorded, and the result is the same for every root map: no
dependency is scanned. -/
theorem dispatch_fast_paths (E : sysenv) (m : link_root) (program : Option String)
    (info0 : dl_info) (st : machine)
    (h : (E.feature_control.ibt = cet_always_on ∧ E.feature_control.fineibt = cet_always_on
        ∧ E.feature_control.shstk = cet_always_on)
      ∨ (has_bit st.dl_x86_feature_1 GNU_PROPERTY_X86_FEATURE_1_IBT = false
        ∧ has_bit st.dl_x86_feature_1 GNU_PROPERTY_X86_FEATURE_1_SHSTK = false)) :
    (dl_cet_check E m program info0 st).exit = outcome.returned
      ∧ (dl_cet_check E m program info0 st).st.dl_x86_feature_1 = st.dl_x86_feature_1
      ∧ (dl_cet_check E m program info0 st).st.header_feature_1 = st.header_feature_1
      ∧ (dl_cet_check E m program info0 st).st.kernel_calls = st.kernel_calls
      ∧ (dl_cet_check E m program info0 st).info.legacy_ibt = -1
      ∧ (dl_cet_check E m program info0 st).info.legacy_shstk = -1
      ∧ (dl_cet_check E m program info0 st).info.legacy_fineibt = -1
      ∧ ∀ m2, dl_cet_check E m2 program info0 st = dl_cet_check E m program info0 st := by
  obtain ⟨h1, h2, h3, h4, h5⟩ := dl_cet_check_fast E m program info0 st h
  refine ⟨h1, by rw [h2], by rw [h2], by rw [h2], h3, h4, h5, ?_⟩
  intro m2
  unfold dl_cet_check
  simp only
  by_cases hall : (E.feature_control.ibt == cet_always_on
      && E.feature_control.fineibt == cet_always_on
      && E.feature_control.shstk == cet_always_on) = true
  · rw [if_pos hall, if_pos hall]
  · rw [if_neg hall, if_neg hall]
    rcases h with ⟨h1, h2, h3⟩ | ⟨h1, h2⟩
    · exact absurd (by simp [h1, h2, h3]) hall
    · unfold has_bit at h1 h2
      rw [if_pos (by simp only [h1, h2]; rfl), if_pos (by simp only [h1, h2]; rfl)]

/-- A run of C11: the three policies always-on on a dynamic load into a
process with IBT and SHSTK, and the default policies on an initial load into a
process with neither. -/
theorem dispatch_fast_paths_witness :
    ((dl_cet_check (env_of control_all_on) root_mixed none (info_of control_default)
          (state_of 3)).exit = outcome.returned
        ∧ (dl_cet_check (env_of control_all_on) root_mixed none (info_of control_default)
          (state_of 3)).st.dl_x86_feature_1 = (state_of 3).dl_x86_feature_1
        ∧ (dl_cet_check (env_of control_all_on) root_mixed none (info_of control_default)
          (state_of 3)).st.header_feature_1 = (state_of 3).header_feature_1
        ∧ (dl_cet_check (env_of control_all_on) root_mixed none (info_of control_default)
          (state_of 3)).st.kernel_calls = (state_of 3).kernel_calls
        ∧ (dl_cet_check (env_of control_all_on) root_mixed none (info_of control_default)
          (state_of 3)).info.legacy_ibt = -1
        ∧ (dl_cet_check (env_of control_all_on) root_mixed none (info_of control_default)
          (state_of 3)).info.legacy_shstk = -1
        ∧ (dl_cet_check (env_of control_all_on) root_mixed none (info_of control_default)
          (state_of 3)).info.legacy_fineibt = -1
        ∧ ∀ m2, dl_cet_check (env_of control_all_on) m2 none (info_of control_default)
            (state_of 3)
          = dl_cet_check (env_of control_all_on) root_mixed none (info_of control_default)
            (state_of 3))
      ∧ ((dl_cet_check (env_of control_default) root_mixed (some "main")
          (info_of control_default) (state_of 0x10)).exit = outcome.returned
        ∧ (dl_cet_check (env_of control_default) root_mixed (some "main")
          (info_of control_default) (state_of 0x10)).st.dl_x86_feature_1
          = (state_of 0x10).dl_x86_feature_1
        ∧ (dl_cet_check (env_of control_default) root_mixed (some "main")
          (info_of control_default) (state_of 0x10)).st.header_feature_1
          = (state_of 0x10).header_feature_1
        ∧ (dl_cet_check (env_of control_default) root_mixed (some "main")
          (info_of control_default) (state_of 0x10)).st.kernel_calls
          = (state_of 0x10).kernel_calls
        ∧ (dl_cet_check (env_of control_default) root_mixed (some "main")
          (info_of control_default) (state_of 0x10)).info.legacy_ibt = -1
        ∧ (dl_cet_check (env_of control_default) root_mixed (some "main")
          (info_of control_default) (state_of 0x10)).info.legacy_shstk = -1
        ∧ (dl_cet_check (env_of control_default) root_mixed (some "main")
          (info_of control_default) (state_of 0x10)).info.legacy_fineibt = -1
        ∧ ∀ m2, dl_cet_check (env_of control_default) m2 (some "main")
            (info_of control_default) (state_of 0x10)
          = dl_cet_check (env_of control_default) root_mixed (some "main")
            (info_of control_default) (state_of 0x10)) :=
  ⟨dispatch_fast_paths (env_of control_all_on) root_mixed none (info_of control_default)
      (state_of 3) (Or.inl ⟨rfl, rfl, rfl⟩),
    dispatch_fast_paths (env_of control_default) root_mixed (some "main")
      (info_of control_default) (state_of 0x10) (Or.inr ⟨by decide, by decide⟩)⟩

/-! ## The kernel calls of the initial-load variant, whatever their results -/

theorem main_lock_trace (E : sysenv) (info : dl_info) (program : Option String) (c : Nat)
    (st : machine) :
    (dl_cet_check_main_lock E info program c st).info = info
      ∧ (dl_cet_check_main_lock E info program c st).st.kernel_calls
        = st.kernel_calls
          ++ (if E.SHARED && main_lock_cond info then [kernel_call.lock_cet] else [])
      ∧ (dl_cet_check_main_lock E info program c st).exit
        ≠ outcome.fatal "%s: can't disable CET\n" program := by
  have hcond : main_lock_cond info
      = ((if info.ibt_enabled && info.enable_ibt_type != cet_permissive then true
          else if !info.ibt_enabled then true else false)
        && (if info.shstk_enabled && info.enable_shstk_type != cet_permissive then true
          else if !info.shstk_enabled then true else false)) := by
    unfold main_lock_cond
    cases info.ibt_enabled <;> cases info.shstk_enabled <;>
      cases (info.enable_ibt_type != cet_permissive) <;>
      cases (info.enable_shstk_type != cet_permissive) <;> rfl
  rw [hcond]
  unfold dl_cet_check_main_lock
  simp only
  generalize ((if info.ibt_enabled && info.enable_ibt_type != cet_permissive then true
      else if !info.ibt_enabled then true else false)
    && (if info.shstk_enabled && info.enable_shstk_type != cet_permissive then true
      else if !info.shstk_enabled then true else false)) = lk
  cases hs : E.SHARED
  · simp [main_publish_eq]
  · cases lk
    · simp [main_publish_eq]
    · by_cases hl : (E.dl_cet_lock_cet != 0) = true
      · rw [if_pos rfl, if_pos rfl, if_pos hl]
        refine ⟨rfl, rfl, ?_⟩
        intro h
        have := (outcome.fatal.injEq _ _ _ _).mp h
        exact absurd this.1 (by decide)
      · rw [if_pos rfl, if_pos rfl, if_neg hl, main_publish_eq]
        exact ⟨rfl, rfl, by simp⟩

/-- The kernel calls and the final `info` of `dl_cet_check_main`, whether or
not a kernel call fails: either `dl_cet_disable_cet` is needed and fails, and
it is the only call, or the calls are those of `main_calls`. -/
theorem main_trace (E : sysenv) (m : link_root) (info : dl_info)
    (program : Option String) (st : machine) :
    (dl_cet_check_main E m info program st).info = dl_cet_check_main_scan E m info program
      ∧ (((dl_cet_check_main E m info program st).exit
            = outcome.fatal "%s: can't disable CET\n" program
          ∧ main_needs_disable (dl_cet_check_main_scan E m info program) = true
          ∧ (dl_cet_check_main E m info program st).st.kernel_calls
            = st.kernel_calls
              ++ [kernel_call.disable_cet
                    (not32 (dl_cet_check_main_feature
                      (dl_cet_check_main_scan E m info program)) &&& 0x3)])
        ∨ ((dl_cet_check_main E m info program st).exit
            ≠ outcome.fatal "%s: can't disable CET\n" program
          ∧ (dl_cet_check_main E m info program st).st.kernel_calls
            = st.kernel_calls
              ++ main_calls E (dl_cet_check_main_scan E m info program))) := by
  unfold dl_cet_check_main
  simp only
  generalize dl_cet_check_main_scan E m info program = info6
  unfold main_calls
  by_cases h1 : (!info6.enable_ibt || !info6.enable_shstk) = true
  · rw [if_pos h1, if_pos h1]
    by_cases h2 : (E.dl_cet_disable_cet (not32 (dl_cet_check_main_feature info6) &&& 0x3)
        != 0) = true
    · rw [if_pos h2]
      exact ⟨rfl, Or.inl ⟨rfl, h1, rfl⟩⟩
    · rw [if_neg h2]
      obtain ⟨t1, t2, t3⟩ := main_lock_trace E info6 program
        (dl_cet_check_main_feature info6)
        { st with
          kernel_calls := st.kernel_calls
            ++ [kernel_call.disable_cet
                  (not32 (dl_cet_check_main_feature info6) &&& 0x3)] }
      refine ⟨t1, Or.inr ⟨t3, ?_⟩⟩
      rw [t2]
      simp
  · rw [if_neg h1, if_neg h1]
    obtain ⟨t1, t2, t3⟩ := main_lock_trace E info6 program
      (dl_cet_check_main_feature info6) st
    refine ⟨t1, Or.inr ⟨t3, ?_⟩⟩
    rw [t2]
    simp

theorem main_scan_entry (E : sysenv) (m : link_root) (info0 : dl_info) (st : machine)
    (program : Option String) (F : feature) (hF : F = feature.ibt ∨ F = feature.shstk) :
    (dl_cet_check_main_scan E m (dl_cet_check_info E info0 st) program).enabled F
        = has_bit st.dl_x86_feature_1 (E.feature_1_bit F)
      ∧ (dl_cet_check_main_scan E m (dl_cet_check_info E info0 st) program).type F
        = E.feature_control.of F := by
  obtain ⟨_, e2, _, e4⟩ := dl_cet_check_info_enable E info0 st F hF
  obtain ⟨_, f2, _, f4⟩ := main_flags_fields E m (dl_cet_check_info E info0 st) F hF
  obtain ⟨s1, s2⟩ := main_scan_type E m (dl_cet_check_info E info0 st) program F
  exact ⟨by rw [s2, f2, e2], by rw [s1, f4, e4]⟩

theorem main_lock_cond_iff (E : sysenv) (m : link_root) (info0 : dl_info) (st : machine)
    (program : Option String) :
    main_lock_cond (dl_cet_check_main_scan E m (dl_cet_check_info E info0 st) program) = true
      ↔ lockable E st feature.ibt ∧ lockable E st feature.shstk := by
  obtain ⟨a1, a2⟩ := main_scan_entry E m info0 st program feature.ibt (Or.inl rfl)
  obtain ⟨b1, b2⟩ := main_scan_entry E m info0 st program feature.shstk (Or.inr rfl)
  simp only [dl_info.enabled, dl_info.type] at a1 a2 b1 b2
  unfold main_lock_cond lockable
  rw [a1, a2, b1, b2]
  cases has_bit st.dl_x86_feature_1 (E.feature_1_bit feature.ibt) <;>
    cases has_bit st.dl_x86_feature_1 (E.feature_1_bit feature.shstk) <;>
    simp

theorem lockable_iff (E : sysenv) (st : machine) (F : feature) :
    lockable E st F
      ↔ (has_bit st.dl_x86_feature_1 (E.feature_1_bit F) = true →
          E.feature_control.of F ≠ cet_permissive) := by
  unfold lockable
  cases has_bit st.dl_x86_feature_1 (E.feature_1_bit F) <;> simp

theorem dl_cet_check_main_eq (E : sysenv) (m : link_root) (p : String) (info0 : dl_info)
    (st : machine) (hp : passes_fast_paths E st = true) :
    _dl_cet_check E m (some p) info0 st
      = dl_cet_check_main E m (dl_cet_check_info E info0 st) (some p) st := by
  unfold _dl_cet_check
  rw [dl_cet_check_eq E m (some p) info0 st hp]
  rfl

theorem lock_mem_main_calls (E : sysenv) (info : dl_info) :
    kernel_call.lock_cet ∈ main_calls E info
      ↔ (E.SHARED && main_lock_cond info) = true := by
  unfold main_calls
  rw [List.mem_append]
  by_cases hc : (E.SHARED && main_lock_cond info) = true
  · rw [if_pos hc]
    simp [hc]
  · rw [if_neg hc]
    constructor
    · rintro (h | h)
      · split_ifs at h <;> simp at h
      · simp at h
    · intro h
      exact absurd h hc

/-- C12. Lock rule on the initial load of a shared build: when the fast paths
are passed and `dl_cet_disable_cet` did not fail, `dl_cet_lock_cet` is among
the kernel calls made if and only if IBT and SHSTK are both lockable (set in
the feature word on entry with a policy other than permissive, or not set on
entry); equivalently, if and only if no feature among IBT and SHSTK that was
set on entry is permissive. Neither side mentions the scan or FineIBT. -/
theorem main_lock_rule (E : sysenv) (m : link_root) (p : String) (info0 : dl_info)
    (st : machine) (hs : E.SHARED = true) (hp : passes_fast_paths E st = true)
    (hd : (_dl_cet_check E m (some p) info0 st).exit
      ≠ outcome.fatal "%s: can't disable CET\n" (some p)) :
    ∃ new, (_dl_cet_check E m (some p) info0 st).st.kernel_calls = st.kernel_calls ++ new
      ∧ (kernel_call.lock_cet ∈ new
          ↔ lockable E st feature.ibt ∧ lockable E st feature.shstk)
      ∧ (kernel_call.lock_cet ∈ new
          ↔ ∀ F, F = feature.ibt ∨ F = feature.shstk →
              has_bit st.dl_x86_feature_1 (E.feature_1_bit F) = true →
              E.feature_control.of F ≠ cet_permissive) := by
  rw [dl_cet_check_main_eq E m p info0 st hp] at hd ⊢
  obtain ⟨_, ht⟩ := main_trace E m (dl_cet_check_info E info0 st) (some p) st
  rcases ht with ⟨h1, _, _⟩ | ⟨_, h2⟩
  · exact absurd h1 hd
  · have hmem : kernel_call.lock_cet
          ∈ main_calls E (dl_cet_check_main_scan E m (dl_cet_check_info E info0 st) (some p))
        ↔ lockable E st feature.ibt ∧ lockable E st feature.shstk := by
      rw [← main_lock_cond_iff E m info0 st (some p), lock_mem_main_calls, hs,
        Bool.true_and]
    refine ⟨_, h2, hmem, ?_⟩
    rw [hmem, lockable_iff, lockable_iff]
    constructor
    · rintro ⟨h3, h4⟩ F hF
      rcases hF with h | h <;> subst h
      · exact h3
      · exact h4
    · intro h
      exact ⟨h feature.ibt (Or.inl rfl), h feature.shstk (Or.inr rfl)⟩

/-- A run of C12: the initial load of `root_full` under the default feature
control; nothing is disabled and CET is locked. -/
theorem main_lock_rule_witness :
    (_dl_cet_check (env_of control_default) root_full (some "main")
        (info_of control_default) (state_of 3)).st.kernel_calls = [kernel_call.lock_cet]
      ∧ ∃ new, (_dl_cet_check (env_of control_default) root_full (some "main")
            (info_of control_default) (state_of 3)).st.kernel_calls
          = (state_of 3).kernel_calls ++ new
        ∧ (kernel_call.lock_cet ∈ new
            ↔ lockable (env_of control_default) (state_of 3) feature.ibt
              ∧ lockable (env_of control_default) (state_of 3) feature.shstk)
        ∧ (kernel_call.lock_cet ∈ new
            ↔ ∀ F, F = feature.ibt ∨ F = feature.shstk →
                has_bit (state_of 3).dl_x86_feature_1
                  ((env_of control_default).feature_1_bit F) = true →
                (env_of control_default).feature_control.of F ≠ cet_permissive) :=
  ⟨by decide,
    main_lock_rule (env_of control_default) root_full "main" (info_of control_default)
      (state_of 3) rfl (by decide) (by decide)⟩

/-! ## The disable request of the initial-load variant -/

theorem disable_mem_main_calls (E : sysenv) (info : dl_info) (b : Nat) :
    kernel_call.disable_cet b ∈ main_calls E info
      ↔ main_needs_disable info = true
        ∧ b = not32 (dl_cet_check_main_feature info) &&& 0x3 := by
  unfold main_calls main_needs_disable
  rw [List.mem_append]
  by_cases hc : (!info.enable_ibt || !info.enable_shstk) = true
  · rw [if_pos hc]
    constructor
    · rintro (h | h)
      · simp only [List.mem_singleton, kernel_call.disable_cet.injEq] at h
        exact ⟨hc, h⟩
      · split_ifs at h <;> simp at h
    · rintro ⟨_, h⟩
      left
      rw [h]
      simp
  · rw [if_neg hc]
    constructor
    · rintro (h | h)
      · simp at h
      · split_ifs at h <;> simp at h
    · rintro ⟨h, _⟩
      exact absurd h hc

/-- On the initial load, an IBT or SHSTK enable flag that is still true after
the scan comes with no legacy index. -/
theorem main_enable_no_legacy (E : sysenv) (m : link_root) (info0 : dl_info)
    (st : machine) (program : Option String) (F : feature)
    (hF : F = feature.ibt ∨ F = feature.shstk)
    (h : (dl_cet_check_main_scan E m (dl_cet_check_info E info0 st) program).enable F
      = true) :
    (dl_cet_check_main_scan E m (dl_cet_check_info E info0 st) program).legacy F = -1 := by
  obtain ⟨e1, e2, e3, _⟩ := dl_cet_check_info_enable E info0 st F hF
  obtain ⟨f1, f2, f3, _⟩ := main_flags_fields E m (dl_cet_check_info E info0 st) F hF
  by_cases hfl : (dl_cet_check_main_flags E m (dl_cet_check_info E info0 st)).enable F = true
  · have hbit : has_bit st.dl_x86_feature_1 (E.feature_1_bit F) = true := by
      rw [f1, e1] at hfl
      simp only [Bool.and_eq_true] at hfl
      exact hfl.1.1
    have he : (dl_cet_check_main_flags E m (dl_cet_check_info E info0 st)).enable F
        = (dl_cet_check_main_flags E m (dl_cet_check_info E info0 st)).enabled F := by
      rw [hfl, f2, e2, hbit]
    have hl : (dl_cet_check_main_flags E m (dl_cet_check_info E info0 st)).legacy F = -1 := by
      rw [f3, e3]
    rw [main_scan_runs E m _ program F hF hfl] at h ⊢
    rcases scan_final E m _ program F he (by rw [hl]; decide) with
      ⟨_, h2, _⟩ | ⟨_, h2, _⟩
    · rw [h2, hl]
    · rw [h2] at h
      exact absurd h (by decide)
  · have hfl2 : (dl_cet_check_main_flags E m (dl_cet_check_info E info0 st)).enable F
        = false := by simpa using hfl
    rw [main_scan_enable_false E m _ program F hfl2] at h
    exact absurd h (by decide)

theorem has_bit_ne_zero (b bit : Nat) (h : has_bit b bit = true) : b ≠ 0 := by
  intro h0
  rw [h0] at h
  simp [has_bit] at h

/-- C13. Kernel disable request on the initial load: when the fast paths are
passed, writing `c` for the computed bitmask (IBT in it iff its enable flag is
true and the policy is always-on or there is no legacy index; same for
SHSTK), `dl_cet_disable_cet` is among the kernel calls made if and only if `c`
lacks IBT or lacks SHSTK, and each such call has as argument exactly the bits
among IBT and SHSTK that `c` lacks: it is not zero and has no bit outside
`0x3`. The last item is the scan invariant this rests on: an enable flag still
true after the scan has no legacy index. -/
theorem main_disable_request (E : sysenv) (m : link_root) (p : String) (info0 : dl_info)
    (st : machine) (hp : passes_fast_paths E st = true) :
    ∃ new, (_dl_cet_check E m (some p) info0 st).st.kernel_calls = st.kernel_calls ++ new
      ∧ (∀ F, F = feature.ibt ∨ F = feature.shstk →
          has_bit (dl_cet_check_main_feature (_dl_cet_check E m (some p) info0 st).info)
              (E.feature_1_bit F)
            = ((_dl_cet_check E m (some p) info0 st).info.enable F
                && ((_dl_cet_check E m (some p) info0 st).info.type F == cet_always_on
                    || !(decide ((_dl_cet_check E m (some p) info0 st).info.legacy F ≥ 0)))))
      ∧ ((∃ b, kernel_call.disable_cet b ∈ new)
          ↔ (has_bit (dl_cet_check_main_feature (_dl_cet_check E m (some p) info0 st).info)
                GNU_PROPERTY_X86_FEATURE_1_IBT = false
              ∨ has_bit
                (dl_cet_check_main_feature (_dl_cet_check E m (some p) info0 st).info)
                GNU_PROPERTY_X86_FEATURE_1_SHSTK = false))
      ∧ (∀ b, kernel_call.disable_cet b ∈ new →
          (∀ F, F = feature.ibt ∨ F = feature.shstk →
              has_bit b (E.feature_1_bit F)
                = !has_bit
                    (dl_cet_check_main_feature (_dl_cet_check E m (some p) info0 st).info)
                    (E.feature_1_bit F))
            ∧ b ≠ 0 ∧ b &&& 0x3 = b)
      ∧ (∀ F, F = feature.ibt ∨ F = feature.shstk →
          (_dl_cet_check E m (some p) info0 st).info.enable F = true →
          (_dl_cet_check E m (some p) info0 st).info.legacy F = -1) := by
  rw [dl_cet_check_main_eq E m p info0 st hp]
  obtain ⟨hinfo, ht⟩ := main_trace E m (dl_cet_check_info E info0 st) (some p) st
  rw [hinfo]
  have hinv := main_enable_no_legacy E m info0 st (some p)
  generalize dl_cet_check_main_scan E m (dl_cet_check_info E info0 st) (some p) = info6
    at ht hinv
  -- with the invariant, the computed bitmask has a bit exactly when the flag is true
  have hc : ∀ F, F = feature.ibt ∨ F = feature.shstk →
      has_bit (dl_cet_check_main_feature info6) (E.feature_1_bit F) = info6.enable F := by
    intro F hF
    rw [main_feature_has E info6 F hF]
    cases he : info6.enable F
    · rfl
    · rw [hinv F hF he]
      simp
  have hneed : main_needs_disable info6 = true
      ↔ (has_bit (dl_cet_check_main_feature info6) GNU_PROPERTY_X86_FEATURE_1_IBT = false
          ∨ has_bit (dl_cet_check_main_feature info6) GNU_PROPERTY_X86_FEATURE_1_SHSTK
            = false) := by
    have h1 := hc feature.ibt (Or.inl rfl)
    have h2 := hc feature.shstk (Or.inr rfl)
    simp only [sysenv.feature_1_bit, dl_info.enable] at h1 h2
    rw [h1, h2]
    unfold main_needs_disable
    cases info6.enable_ibt <;> cases info6.enable_shstk <;> simp
  -- the calls, whether or not the disable call succeeds
  have hcalls : ∃ new, (dl_cet_check_main E m (dl_cet_check_info E info0 st) (some p)
        st).st.kernel_calls = st.kernel_calls ++ new
      ∧ ∀ b, kernel_call.disable_cet b ∈ new
          ↔ main_needs_disable info6 = true
            ∧ b = not32 (dl_cet_check_main_feature info6) &&& 0x3 := by
    rcases ht with ⟨_, h2, h3⟩ | ⟨_, h3⟩
    · refine ⟨_, h3, ?_⟩
      intro b
      simp only [List.mem_singleton, kernel_call.disable_cet.injEq]
      exact ⟨fun h => ⟨h2, h⟩, fun h => h.2⟩
    · exact ⟨_, h3, disable_mem_main_calls E info6⟩
  obtain ⟨new, hnew, hmem⟩ := hcalls
  refine ⟨new, hnew, fun F hF => main_feature_has E info6 F hF, ?_, ?_, hinv⟩
  · rw [← hneed]
    constructor
    · rintro ⟨b, hb⟩
      exact ((hmem b).mp hb).1
    · intro h
      exact ⟨_, (hmem _).mpr ⟨h, rfl⟩⟩
  · intro b hb
    obtain ⟨hn, hb2⟩ := (hmem b).mp hb
    have hbits : ∀ F, F = feature.ibt ∨ F = feature.shstk →
        has_bit b (E.feature_1_bit F)
          = !has_bit (dl_cet_check_main_feature info6) (E.feature_1_bit F) := by
      intro F hF
      rw [hb2]
      exact has_bit_disable_arg E _ F hF
    refine ⟨hbits, ?_, ?_⟩
    · rcases hneed.mp hn with h | h
      · have := hbits feature.ibt (Or.inl rfl)
        simp only [sysenv.feature_1_bit] at this
        rw [h] at this
        exact has_bit_ne_zero b _ this
      · have := hbits feature.shstk (Or.inr rfl)
        simp only [sysenv.feature_1_bit] at this
        rw [h] at this
        exact has_bit_ne_zero b _ this
    · rw [hb2, Nat.and_assoc]
      rfl

/-- A run of C13: IBT and SHSTK permissive, `root_one_legacy`; the computed
bitmask is `0x2` and the kernel is asked to disable `0x1`. -/
theorem main_disable_request_witness :
    dl_cet_check_main_feature (_dl_cet_check (env_of control_permissive) root_one_legacy
        (some "main") (info_of control_default) (state_of 3)).info = 0x2
      ∧ (_dl_cet_check (env_of control_permissive) root_one_legacy (some "main")
          (info_of control_default) (state_of 3)).st.kernel_calls
        = [kernel_call.disable_cet 0x1]
      ∧ ∃ new, (_dl_cet_check (env_of control_permissive) root_one_legacy (some "main")
            (info_of control_default) (state_of 3)).st.kernel_calls
          = (state_of 3).kernel_calls ++ new
        ∧ (∀ F, F = feature.ibt ∨ F = feature.shstk →
            has_bit (dl_cet_check_main_feature (_dl_cet_check (env_of control_permissive)
                root_one_legacy (some "main") (info_of control_default) (state_of 3)).info)
                ((env_of control_permissive).feature_1_bit F)
              = ((_dl_cet_check (env_of control_permissive) root_one_legacy (some "main")
                    (info_of control_default) (state_of 3)).info.enable F
                  && ((_dl_cet_check (env_of control_permissive) root_one_legacy
                        (some "main") (info_of control_default) (state_of 3)).info.type F
                      == cet_always_on
                    || !(decide ((_dl_cet_check (env_of control_permissive)
                        root_one_legacy (some "main") (info_of control_default)
                        (state_of 3)).info.legacy F ≥ 0)))))
        ∧ ((∃ b, kernel_call.disable_cet b ∈ new)
            ↔ (has_bit (dl_cet_check_main_feature (_dl_cet_check
                  (env_of control_permissive) root_one_legacy (some "main")
                  (info_of control_default) (state_of 3)).info)
                  GNU_PROPERTY_X86_FEATURE_1_IBT = false
                ∨ has_bit (dl_cet_check_main_feature (_dl_cet_check
                  (env_of control_permissive) root_one_legacy (some "main")
                  (info_of control_default) (state_of 3)).info)
                  GNU_PROPERTY_X86_FEATURE_1_SHSTK = false))
        ∧ (∀ b, kernel_call.disable_cet b ∈ new →
            (∀ F, F = feature.ibt ∨ F = feature.shstk →
                has_bit b ((env_of control_permissive).feature_1_bit F)
                  = !has_bit (dl_cet_check_main_feature (_dl_cet_check
                      (env_of control_permissive) root_one_legacy (some "main")
                      (info_of control_default) (state_of 3)).info)
                      ((env_of control_permissive).feature_1_bit F))
              ∧ b ≠ 0 ∧ b &&& 0x3 = b)
        ∧ (∀ F, F = feature.ibt ∨ F = feature.shstk →
            (_dl_cet_check (env_of control_permissive) root_one_legacy (some "main")
              (info_of control_default) (state_of 3)).info.enable F = true →
            (_dl_cet_check (env_of control_permissive) root_one_legacy (some "main")
              (info_of control_default) (state_of 3)).info.legacy F = -1) :=
  ⟨by decide, by decide,
    main_disable_request (env_of control_permissive) root_one_legacy "main"
      (info_of control_default) (state_of 3) (by decide)⟩

/-! ## The object named by the FineIBT error -/

/-- C14, the code at two failing inputs. Under the default feature control,
with IBT, SHSTK and FineIBT set in the feature word and the FineIBT flags of
the stack true: loading `root_no_fineibt` records the FineIBT legacy index 0
and no IBT legacy index, and the error "rebuild DSO with FineIBT enabled"
fetches its object name at index `-1`, outside the dependency list; loading
`root_two_legacy` records the FineIBT legacy index 1 (`libnofine.so`) and
the same error names the object at the IBT legacy index 0, `libnoibt.so`,
which has the FineIBT support bit. -/
theorem fineibt_error_names_ibt_legacy_object :
    ((_dl_cet_open_check (env_of control_default) root_no_fineibt (info_of control_default)
          (state_of 0x13)).exit
        = outcome.signal_error 0 none "rebuild DSO with FineIBT enabled"
      ∧ (_dl_cet_open_check (env_of control_default) root_no_fineibt
          (info_of control_default) (state_of 0x13)).info.legacy_fineibt = 0
      ∧ (_dl_cet_open_check (env_of control_default) root_no_fineibt
          (info_of control_default) (state_of 0x13)).info.legacy_ibt = -1
      ∧ initfini_name root_no_fineibt 0 = some "plugin.so")
      ∧ ((_dl_cet_open_check (env_of control_default) root_two_legacy
          (info_of control_default) (state_of 0x13)).exit
        = outcome.signal_error 0 (some "libnoibt.so") "rebuild DSO with FineIBT enabled"
      ∧ (_dl_cet_open_check (env_of control_default) root_two_legacy
          (info_of control_default) (state_of 0x13)).info.legacy_fineibt = 1
      ∧ (_dl_cet_open_check (env_of control_default) root_two_legacy
          (info_of control_default) (state_of 0x13)).info.legacy_ibt = 0
      ∧ initfini_name root_two_legacy 1 = some "libnofine.so"
      ∧ supports (env_of control_default) feature.fineibt (obj 22 "libnoibt.so" 12) = true) := by
  decide

/-! ## Every outcome of the dynamic-load variant -/

theorem machine_ext (a b : machine) (h1 : a.dl_x86_feature_1 = b.dl_x86_feature_1)
    (h2 : a.header_feature_1 = b.header_feature_1) (h3 : a.kernel_calls = b.kernel_calls) :
    a = b := by
  cases a
  cases b
  simp only [machine.mk.injEq]
  exact ⟨h1, h2, h3⟩

theorem dyn_disable_all (E : sysenv) (m : link_root) (info : dl_info) (c f : Nat)
    (st : machine) :
    (((dl_cet_check_dyn_disable E m info c f st).st.dl_x86_feature_1 = st.dl_x86_feature_1
          ∧ (dl_cet_check_dyn_disable E m info c f st).st.header_feature_1
            = st.header_feature_1)
        ∨ ((dl_cet_check_dyn_disable E m info c f st).exit = outcome.returned
          ∧ (dl_cet_check_dyn_disable E m info c f st).st.dl_x86_feature_1
            = st.dl_x86_feature_1 &&& (not32 (c ||| f) ||| 0xffffffe0)
          ∧ (dl_cet_check_dyn_disable E m info c f st).st.header_feature_1
            = st.dl_x86_feature_1 &&& (not32 (c ||| f) ||| 0xffffffe0)))
      ∧ ((dl_cet_check_dyn_disable E m info c f st).st.kernel_calls = st.kernel_calls
        ∨ (dl_cet_check_dyn_disable E m info c f st).st.kernel_calls
          = st.kernel_calls ++ [kernel_call.disable_cet c])
      ∧ ((info.enable_ibt_type ≠ cet_permissive ∧ info.enable_shstk_type ≠ cet_permissive
            ∧ info.enable_fineibt_type ≠ cet_permissive) →
          (dl_cet_check_dyn_disable E m info c f st).st = st) := by
  unfold dl_cet_check_dyn_disable dl_cet_check_dyn_commit
  simp only
  by_cases hnp : (info.enable_ibt_type != cet_permissive
      && info.enable_shstk_type != cet_permissive
      && info.enable_fineibt_type != cet_permissive) = true
  · rw [if_pos hnp]
    exact ⟨Or.inl ⟨rfl, rfl⟩, Or.inl rfl, fun _ => rfl⟩
  · rw [if_neg hnp]
    have hlast : (info.enable_ibt_type ≠ cet_permissive
        ∧ info.enable_shstk_type ≠ cet_permissive
        ∧ info.enable_fineibt_type ≠ cet_permissive) → False := by
      rintro ⟨h1, h2, h3⟩
      apply hnp
      simp [h1, h2, h3]
    split_ifs
    all_goals first
      | exact ⟨Or.inl ⟨rfl, rfl⟩, Or.inl rfl, fun h => absurd h hlast⟩
      | exact ⟨Or.inr ⟨rfl, rfl, rfl⟩, Or.inl rfl, fun h => absurd h hlast⟩
      | exact ⟨Or.inl ⟨rfl, rfl⟩, Or.inr rfl, fun h => absurd h hlast⟩
      | exact ⟨Or.inr ⟨rfl, rfl, rfl⟩, Or.inr rfl, fun h => absurd h hlast⟩

theorem incompatibility_is_recoverable (x : outcome)
    (h : incompatibility_error x = true) : recoverable_error x = true := by
  cases x with
  | returned => simp [incompatibility_error] at h
  | signal_error e o s => rfl
  | fatal f p => simp [incompatibility_error] at h

/-- Every outcome of the three tests and what follows them: the feature word
is left alone or, on a normal return, loses the bits of `cleared_bits`; the
kernel is not called or is called once with `kernel_disable_bits`; and
nothing changes when no policy is permissive. -/
theorem dyn_all (E : sysenv) (m : link_root) (info : dl_info) (st : machine) :
    (((dl_cet_check_dyn_fineibt E m info 0 0 st).st.dl_x86_feature_1 = st.dl_x86_feature_1
          ∧ (dl_cet_check_dyn_fineibt E m info 0 0 st).st.header_feature_1
            = st.header_feature_1)
        ∨ ((dl_cet_check_dyn_fineibt E m info 0 0 st).exit = outcome.returned
          ∧ (dl_cet_check_dyn_fineibt E m info 0 0 st).st.dl_x86_feature_1
            = st.dl_x86_feature_1 &&& (not32 (cleared_bits E info) ||| 0xffffffe0)
          ∧ (dl_cet_check_dyn_fineibt E m info 0 0 st).st.header_feature_1
            = st.dl_x86_feature_1 &&& (not32 (cleared_bits E info) ||| 0xffffffe0)))
      ∧ ((dl_cet_check_dyn_fineibt E m info 0 0 st).st.kernel_calls = st.kernel_calls
        ∨ (dl_cet_check_dyn_fineibt E m info 0 0 st).st.kernel_calls
          = st.kernel_calls ++ [kernel_call.disable_cet (kernel_disable_bits info)])
      ∧ ((info.enable_ibt_type ≠ cet_permissive ∧ info.enable_shstk_type ≠ cet_permissive
            ∧ info.enable_fineibt_type ≠ cet_permissive) →
          (dl_cet_check_dyn_fineibt E m info 0 0 st).st = st) := by
  cases hinc : incompatibility_error (dl_cet_check_dyn_fineibt E m info 0 0 st).exit
  · rw [dyn_tests_eq E m info st hinc]
    exact dyn_disable_all E m info _ _ st
  · obtain ⟨h1, h2, h3⟩ := dyn_fineibt_atomic E m info 0 0 st
      (incompatibility_is_recoverable _ hinc)
    exact ⟨Or.inl ⟨h1, h2⟩, Or.inl (h3 hinc), fun _ => machine_ext _ _ h1 h2 (h3 hinc)⟩

theorem fast_of_not_passes (E : sysenv) (st : machine)
    (h : ¬ passes_fast_paths E st = true) :
    (E.feature_control.ibt = cet_always_on ∧ E.feature_control.fineibt = cet_always_on
        ∧ E.feature_control.shstk = cet_always_on)
      ∨ (has_bit st.dl_x86_feature_1 GNU_PROPERTY_X86_FEATURE_1_IBT = false
        ∧ has_bit st.dl_x86_feature_1 GNU_PROPERTY_X86_FEATURE_1_SHSTK = false) := by
  unfold passes_fast_paths at h
  by_cases hall : (E.feature_control.ibt == cet_always_on
      && E.feature_control.fineibt == cet_always_on
      && E.feature_control.shstk == cet_always_on) = true
  · left
    simp only [Bool.and_eq_true, beq_iff_eq] at hall
    exact ⟨hall.1.1, hall.1.2, hall.2⟩
  · right
    have hall2 : (E.feature_control.ibt == cet_always_on
      && E.feature_control.fineibt == cet_always_on
      && E.feature_control.shstk == cet_always_on) = false := by simpa using hall
    rw [hall2] at h
    simpa using h

theorem cleared_bits_has (E : sysenv) (info : dl_info) (F : feature)
    (hF : F = feature.ibt ∨ F = feature.shstk) (hapart : E.FEATURE_1_FINEIBT &&& 0x3 = 0) :
    has_bit (cleared_bits E info) (E.feature_1_bit F) = downgraded info F := by
  unfold cleared_bits
  rw [has_bit_or E _ _ F hF, kernel_disable_bits_has E info F hF,
    has_bit_fineibt_apart E F hF hapart, Bool.or_false]

theorem cleared_word_testBit (old D i : Nat) :
    (old &&& (not32 D ||| 0xffffffe0)).testBit i
      = (old.testBit i && decide (i < 32) && (!D.testBit i || !decide (i < 5))) := by
  rw [Nat.testBit_and, Nat.testBit_or, not32_testBit, high_mask_testBit]
  cases old.testBit i <;> cases D.testBit i <;> by_cases h1 : i < 32 <;>
    by_cases h2 : i < 5 <;> simp [h1, h2]

/-- C19. A dynamic load never widens the policy. For every
`_dl_cet_open_check`, whatever its outcome, with a 32-bit feature word and a
FineIBT bit that is neither the IBT nor the SHSTK bit: every bit of the word
afterwards is a bit of the word before (new AND old = new), no bit from
position 5 upwards changes, an IBT or SHSTK bit that was set before and is
clear afterwards belongs to a feature configured permissive, and when no
feature is permissive the word is unchanged and no kernel call is made. -/
theorem dyn_never_widens (E : sysenv) (m : link_root) (info0 : dl_info) (st : machine)
    (hst : st.dl_x86_feature_1 < 2 ^ 32) (hapart : E.FEATURE_1_FINEIBT &&& 0x3 = 0) :
    (∀ i, (_dl_cet_open_check E m info0 st).st.dl_x86_feature_1.testBit i = true →
        st.dl_x86_feature_1.testBit i = true)
      ∧ (_dl_cet_open_check E m info0 st).st.dl_x86_feature_1 &&& st.dl_x86_feature_1
        = (_dl_cet_open_check E m info0 st).st.dl_x86_feature_1
      ∧ (∀ i, 5 ≤ i →
          (_dl_cet_open_check E m info0 st).st.dl_x86_feature_1.testBit i
            = st.dl_x86_feature_1.testBit i)
      ∧ (∀ F, F = feature.ibt ∨ F = feature.shstk →
          has_bit st.dl_x86_feature_1 (E.feature_1_bit F) = true →
          has_bit (_dl_cet_open_check E m info0 st).st.dl_x86_feature_1
            (E.feature_1_bit F) = false →
          E.feature_control.of F = cet_permissive)
      ∧ (no_permissive E →
          (_dl_cet_open_check E m info0 st).st.dl_x86_feature_1 = st.dl_x86_feature_1
            ∧ (_dl_cet_open_check E m info0 st).st.kernel_calls = st.kernel_calls) := by
  have hsub : ∀ new : Nat, (∀ i, new.testBit i = true → st.dl_x86_feature_1.testBit i = true) →
      new &&& st.dl_x86_feature_1 = new := by
    intro new h
    apply Nat.eq_of_testBit_eq
    intro i
    rw [Nat.testBit_and]
    cases hn : new.testBit i
    · rfl
    · rw [h i hn]
      rfl
  have hsame : (_dl_cet_open_check E m info0 st).st.dl_x86_feature_1 = st.dl_x86_feature_1 →
      (∀ i, (_dl_cet_open_check E m info0 st).st.dl_x86_feature_1.testBit i = true →
          st.dl_x86_feature_1.testBit i = true)
        ∧ (_dl_cet_open_check E m info0 st).st.dl_x86_feature_1 &&& st.dl_x86_feature_1
          = (_dl_cet_open_check E m info0 st).st.dl_x86_feature_1
        ∧ (∀ i, 5 ≤ i →
            (_dl_cet_open_check E m info0 st).st.dl_x86_feature_1.testBit i
              = st.dl_x86_feature_1.testBit i)
        ∧ (∀ F, F = feature.ibt ∨ F = feature.shstk →
            has_bit st.dl_x86_feature_1 (E.feature_1_bit F) = true →
            has_bit (_dl_cet_open_check E m info0 st).st.dl_x86_feature_1
              (E.feature_1_bit F) = false →
            E.feature_control.of F = cet_permissive) := by
    intro h
    rw [h]
    refine ⟨fun _ hi => hi, hsub _ (fun _ hi => hi), fun _ _ => rfl, ?_⟩
    intro F _ h1 h2
    rw [h1] at h2
    exact absurd h2 (by decide)
  by_cases hp : passes_fast_paths E st = true
  · have hty := dyn_scan_info_type E m info0 st
    obtain ⟨hw, _, hnp⟩ := dyn_all E m (dyn_scan_info E m info0 st) st
    rw [← open_check_eq E m info0 st hp] at hw hnp
    have hlast : no_permissive E →
        (_dl_cet_open_check E m info0 st).st.dl_x86_feature_1 = st.dl_x86_feature_1
          ∧ (_dl_cet_open_check E m info0 st).st.kernel_calls = st.kernel_calls := by
      rintro ⟨n1, n2, n3⟩
      have h1 := hty feature.ibt
      have h2 := hty feature.shstk
      have h3 := hty feature.fineibt
      simp only [dl_info.type, dl_x86_feature_control.of] at h1 h2 h3
      have := hnp ⟨by rw [h1]; exact n1, by rw [h2]; exact n2, by rw [h3]; exact n3⟩
      rw [this]
      exact ⟨rfl, rfl⟩
    rcases hw with ⟨h1, _⟩ | ⟨_, h1, _⟩
    · obtain ⟨a, b, c, d⟩ := hsame h1
      exact ⟨a, b, c, d, hlast⟩
    · have hbits : ∀ i, (_dl_cet_open_check E m info0 st).st.dl_x86_feature_1.testBit i = true →
          st.dl_x86_feature_1.testBit i = true := by
        intro i hi
        rw [h1, Nat.testBit_and, Bool.and_eq_true] at hi
        exact hi.1
      refine ⟨hbits, hsub _ hbits, ?_, ?_, hlast⟩
      · intro i hi
        rw [h1, cleared_word_testBit]
        have h5 : ¬ i < 5 := by omega
        by_cases h32 : i < 32
        · simp [h5, h32]
        · have hoi : st.dl_x86_feature_1.testBit i = false := by
            apply Nat.testBit_lt_two_pow
            calc st.dl_x86_feature_1 < 2 ^ 32 := hst
              _ ≤ 2 ^ i := Nat.pow_le_pow_right (by norm_num) (by omega)
          simp [hoi]
      · intro F hF hb1 hb2
        rw [h1, has_bit_cleared E _ _ F hF, hb1, cleared_bits_has E _ F hF hapart] at hb2
        have hd : downgraded (dyn_scan_info E m info0 st) F = true := by simpa using hb2
        unfold downgraded at hd
        simp only [Bool.and_eq_true, beq_iff_eq] at hd
        rw [← hty F]
        exact hd.2
  · obtain ⟨_, h2, _⟩ := dl_cet_check_fast E m none info0 st (fast_of_not_passes E st hp)
    have h3 : (_dl_cet_open_check E m info0 st).st = st := h2
    obtain ⟨a, b, c, d⟩ := hsame (by rw [h3])
    exact ⟨a, b, c, d, fun _ => by rw [h3]; exact ⟨rfl, rfl⟩⟩

/-- A run of C19: every feature permissive, `root_mixed` loaded into a
process whose feature word is `0x53`. -/
theorem dyn_never_widens_witness :
    (_dl_cet_open_check (env_of control_permissive) root_mixed (info_of control_default)
        (state_of 0x53)).st.dl_x86_feature_1 = 0x40
      ∧ ((∀ i, (_dl_cet_open_check (env_of control_permissive) root_mixed
              (info_of control_default) (state_of 0x53)).st.dl_x86_feature_1.testBit i
            = true →
            (state_of 0x53).dl_x86_feature_1.testBit i = true)
        ∧ (_dl_cet_open_check (env_of control_permissive) root_mixed
            (info_of control_default) (state_of 0x53)).st.dl_x86_feature_1
            &&& (state_of 0x53).dl_x86_feature_1
          = (_dl_cet_open_check (env_of control_permissive) root_mixed
            (info_of control_default) (state_of 0x53)).st.dl_x86_feature_1
        ∧ (∀ i, 5 ≤ i →
            (_dl_cet_open_check (env_of control_permissive) root_mixed
              (info_of control_default) (state_of 0x53)).st.dl_x86_feature_1.testBit i
              = (state_of 0x53).dl_x86_feature_1.testBit i)
        ∧ (∀ F, F = feature.ibt ∨ F = feature.shstk →
            has_bit (state_of 0x53).dl_x86_feature_1
              ((env_of control_permissive).feature_1_bit F) = true →
            has_bit (_dl_cet_open_check (env_of control_permissive) root_mixed
              (info_of control_default) (state_of 0x53)).st.dl_x86_feature_1
              ((env_of control_permissive).feature_1_bit F) = false →
            (env_of control_permissive).feature_control.of F = cet_permissive)
        ∧ (no_permissive (env_of control_permissive) →
            (_dl_cet_open_check (env_of control_permissive) root_mixed
              (info_of control_default) (state_of 0x53)).st.dl_x86_feature_1
              = (state_of 0x53).dl_x86_feature_1
            ∧ (_dl_cet_open_check (env_of control_permissive) root_mixed
              (info_of control_default) (state_of 0x53)).st.kernel_calls
              = (state_of 0x53).kernel_calls)) :=
  ⟨by decide,
    dyn_never_widens (env_of control_permissive) root_mixed (info_of control_default)
      (state_of 0x53) (by decide) (by decide)⟩

/-! ## FineIBT and IBT in the feature word -/

theorem has_bit_and_left (old X bit : Nat) (h : has_bit (old &&& X) bit = true) :
    has_bit old bit = true := by
  unfold has_bit at h ⊢
  by_contra hc
  have h0 : old &&& bit = 0 := by simpa using hc
  have : old &&& X &&& bit = 0 := by
    rw [Nat.and_assoc, Nat.and_comm X bit, ← Nat.and_assoc, h0, Nat.zero_and]
  rw [this] at h
  exact absurd h (by decide)

theorem fineibt_cleared (E : sysenv) (old D : Nat) (hfine : E.FEATURE_1_FINEIBT < 32)
    (hD : ∀ i, E.FEATURE_1_FINEIBT.testBit i = true → D.testBit i = true) :
    has_bit (old &&& (not32 D ||| 0xffffffe0)) E.FEATURE_1_FINEIBT = false := by
  have h0 : old &&& (not32 D ||| 0xffffffe0) &&& E.FEATURE_1_FINEIBT = 0 := by
    apply Nat.eq_of_testBit_eq
    intro i
    rw [Nat.testBit_and, cleared_word_testBit, Nat.zero_testBit]
    cases hf : E.FEATURE_1_FINEIBT.testBit i
    · simp
    · have hi5 : i < 5 := by
        by_contra hge
        have : E.FEATURE_1_FINEIBT.testBit i = false := by
          apply Nat.testBit_lt_two_pow
          calc E.FEATURE_1_FINEIBT < 2 ^ 5 := by simpa using hfine
            _ ≤ 2 ^ i := Nat.pow_le_pow_right (by norm_num) (by omega)
        rw [this] at hf
        exact absurd hf (by decide)
      rw [hD i hf]
      simp [hi5]
  unfold has_bit
  rw [h0]
  rfl

theorem cleared_bits_fineibt (E : sysenv) (info : dl_info)
    (h : (downgraded info feature.ibt || downgraded info feature.fineibt) = true) (i : Nat)
    (hi : E.FEATURE_1_FINEIBT.testBit i = true) : (cleared_bits E info).testBit i = true := by
  unfold cleared_bits
  rw [Nat.testBit_or, if_pos h, hi, Bool.or_true]

/-- C20, as amended. A dynamic load preserves "FineIBT implies IBT": for
every `_dl_cet_open_check`, whatever its outcome, with the FineIBT bit in the
low five bits and distinct from the IBT and SHSTK bits, if the feature word
did not have FineIBT set with IBT clear before the call, it does not have
FineIBT set with IBT clear afterwards. -/
theorem dyn_preserves_fineibt_implies_ibt (E : sysenv) (m : link_root) (info0 : dl_info)
    (st : machine) (hfine : E.FEATURE_1_FINEIBT < 32)
    (hapart : E.FEATURE_1_FINEIBT &&& 0x3 = 0)
    (hinv : has_bit st.dl_x86_feature_1 E.FEATURE_1_FINEIBT = true →
      has_bit st.dl_x86_feature_1 GNU_PROPERTY_X86_FEATURE_1_IBT = true) :
    has_bit (_dl_cet_open_check E m info0 st).st.dl_x86_feature_1 E.FEATURE_1_FINEIBT = true →
      has_bit (_dl_cet_open_check E m info0 st).st.dl_x86_feature_1
        GNU_PROPERTY_X86_FEATURE_1_IBT = true := by
  by_cases hp : passes_fast_paths E st = true
  · obtain ⟨hw, _, _⟩ := dyn_all E m (dyn_scan_info E m info0 st) st
    rw [← open_check_eq E m info0 st hp] at hw
    rcases hw with ⟨h1, _⟩ | ⟨_, h1, _⟩
    · rw [h1]
      exact hinv
    · rw [h1]
      intro hnew
      have hold := hinv (has_bit_and_left _ _ _ hnew)
      have hib := has_bit_cleared E st.dl_x86_feature_1
        (cleared_bits E (dyn_scan_info E m info0 st)) feature.ibt (Or.inl rfl)
      rw [cleared_bits_has E _ feature.ibt (Or.inl rfl) hapart] at hib
      simp only [sysenv.feature_1_bit] at hib
      rw [hib, hold]
      cases hd : downgraded (dyn_scan_info E m info0 st) feature.ibt
      · rfl
      · have := fineibt_cleared E st.dl_x86_feature_1
          (cleared_bits E (dyn_scan_info E m info0 st)) hfine
          (cleared_bits_fineibt E _ (by rw [hd]; rfl))
        rw [this] at hnew
        exact absurd hnew (by decide)
  · obtain ⟨_, h2, _⟩ := dl_cet_check_fast E m none info0 st (fast_of_not_passes E st hp)
    have h3 : (_dl_cet_open_check E m info0 st).st = st := h2
    rw [h3]
    exact hinv

/-- A run of C20 as amended: every feature permissive, `root_no_shstk` loaded
into a process whose feature word is `0x13`; SHSTK is cleared, FineIBT and
IBT stay. -/
theorem dyn_preserves_fineibt_implies_ibt_witness :
    (_dl_cet_open_check (env_of control_permissive) root_no_shstk (info_of control_default)
        (state_of 0x13)).st.dl_x86_feature_1 = 0x11
      ∧ has_bit (_dl_cet_open_check (env_of control_permissive) root_no_shstk
          (info_of control_default) (state_of 0x13)).st.dl_x86_feature_1
          GNU_PROPERTY_X86_FEATURE_1_IBT = true :=
  ⟨by decide,
    dyn_preserves_fineibt_implies_ibt (env_of control_permissive) root_no_shstk
      (info_of control_default) (state_of 0x13) (by decide) (by decide) (fun _ => by decide)
      (by decide)⟩

/-- C20, the claim as stated fails on the initial load. The published word
has FineIBT set and IBT clear when IBT is always-off and everything supports
SHSTK and FineIBT (`0x12`), and also under the default feature control when
one dependency lacks IBT only (`0x12`). -/
theorem main_publishes_fineibt_without_ibt :
    ((_dl_cet_check (env_of control_ibt_off) root_full (some "main")
          (info_of control_default) (state_of 3)).exit = outcome.returned
        ∧ (_dl_cet_check (env_of control_ibt_off) root_full (some "main")
          (info_of control_default) (state_of 3)).st.dl_x86_feature_1 = 0x12
        ∧ has_bit (_dl_cet_check (env_of control_ibt_off) root_full (some "main")
          (info_of control_default) (state_of 3)).st.dl_x86_feature_1
          (env_of control_ibt_off).FEATURE_1_FINEIBT = true
        ∧ has_bit (_dl_cet_check (env_of control_ibt_off) root_full (some "main")
          (info_of control_default) (state_of 3)).st.dl_x86_feature_1
          GNU_PROPERTY_X86_FEATURE_1_IBT = false)
      ∧ ((_dl_cet_check (env_of control_default) root_main_no_ibt (some "main")
          (info_of control_default) (state_of 3)).exit = outcome.returned
        ∧ (_dl_cet_check (env_of control_default) root_main_no_ibt (some "main")
          (info_of control_default) (state_of 3)).st.dl_x86_feature_1 = 0x12
        ∧ has_bit (_dl_cet_check (env_of control_default) root_main_no_ibt (some "main")
          (info_of control_default) (state_of 3)).st.dl_x86_feature_1
          (env_of control_default).FEATURE_1_FINEIBT = true
        ∧ has_bit (_dl_cet_check (env_of control_default) root_main_no_ibt (some "main")
          (info_of control_default) (state_of 3)).st.dl_x86_feature_1
          GNU_PROPERTY_X86_FEATURE_1_IBT = false) := by
  decide

/-! ## The coupling of FineIBT to IBT on a dynamic load -/

theorem dyn_disable_ok (E : sysenv) (m : link_root) (info : dl_info) (c f : Nat)
    (st : machine)
    (hperm : info.enable_ibt_type = cet_permissive ∨ info.enable_shstk_type = cet_permissive
      ∨ info.enable_fineibt_type = cet_permissive)
    (hc : c ≠ 0)
    (hret : (dl_cet_check_dyn_disable E m info c f st).exit = outcome.returned) :
    E.dl_cet_disable_cet c = 0 := by
  by_contra hk
  unfold dl_cet_check_dyn_disable at hret
  simp only at hret
  rw [if_neg (by
    simp only [Bool.and_eq_true, bne_iff_ne, ne_eq, not_and, Decidable.not_not]
    intro h1
    rcases hperm with h | h | h
    · exact absurd h h1.1
    · exact absurd h h1.2
    · exact h)] at hret
  rw [if_pos (by simpa using hc), if_pos (by simpa using hk)] at hret
  exact absurd hret (by simp)

theorem dyn_commit_fineibt_only (E : sysenv) (info : dl_info) (st : machine)
    (hfine : E.FEATURE_1_FINEIBT < 32) (hapart : E.FEATURE_1_FINEIBT &&& 0x3 = 0) :
    (dl_cet_check_dyn_commit info 0 (0 ||| E.FEATURE_1_FINEIBT) st).exit = outcome.returned
      ∧ (dl_cet_check_dyn_commit info 0 (0 ||| E.FEATURE_1_FINEIBT) st).st.kernel_calls
        = st.kernel_calls
      ∧ has_bit (dl_cet_check_dyn_commit info 0 (0 ||| E.FEATURE_1_FINEIBT)
          st).st.dl_x86_feature_1 E.FEATURE_1_FINEIBT = false
      ∧ ∀ F, F = feature.ibt ∨ F = feature.shstk →
          has_bit (dl_cet_check_dyn_commit info 0 (0 ||| E.FEATURE_1_FINEIBT)
              st).st.dl_x86_feature_1 (E.feature_1_bit F)
            = has_bit st.dl_x86_feature_1 (E.feature_1_bit F) := by
  unfold dl_cet_check_dyn_commit
  simp only [Nat.zero_or]
  by_cases h0 : (E.FEATURE_1_FINEIBT != 0) = true
  · rw [if_pos h0]
    refine ⟨rfl, rfl, fineibt_cleared E _ _ hfine (fun _ hi => hi), ?_⟩
    intro F hF
    have := has_bit_fineibt_apart E F hF hapart true
    simp only [if_true] at this
    simp only [has_bit_cleared E _ _ F hF, this, Bool.not_false, Bool.and_true]
  · rw [if_neg h0]
    have hz : E.FEATURE_1_FINEIBT = 0 := by simpa using h0
    refine ⟨rfl, rfl, ?_, fun _ _ => rfl⟩
    rw [hz]
    simp [has_bit]

/-- C15. Coupling of FineIBT to IBT on a dynamic load, with the FineIBT bit in
the low five bits and distinct from the IBT and SHSTK bits. (a) If IBT is set
in the feature word, is permissive and has a legacy index after the scan, and
the call returns normally, the FineIBT bit is clear in the new word. (b) If
the FineIBT previously-enabled flag is true, FineIBT is permissive and has a
legacy index, and neither IBT nor SHSTK has one, then the call returns
normally, no kernel call is made, the FineIBT bit is clear in the new word,
and the IBT and SHSTK bits are what they were. -/
theorem dyn_fineibt_coupling (E : sysenv) (m : link_root) (info0 : dl_info) (st : machine)
    (hfine : E.FEATURE_1_FINEIBT < 32) (hapart : E.FEATURE_1_FINEIBT &&& 0x3 = 0) :
    (has_bit st.dl_x86_feature_1 GNU_PROPERTY_X86_FEATURE_1_IBT = true →
        E.feature_control.ibt = cet_permissive →
        (_dl_cet_open_check E m info0 st).info.legacy_ibt ≥ 0 →
        (_dl_cet_open_check E m info0 st).exit = outcome.returned →
        has_bit (_dl_cet_open_check E m info0 st).st.dl_x86_feature_1
          E.FEATURE_1_FINEIBT = false)
      ∧ ((_dl_cet_open_check E m info0 st).info.fineibt_enabled = true →
          E.feature_control.fineibt = cet_permissive →
          (_dl_cet_open_check E m info0 st).info.legacy_fineibt ≥ 0 →
          (_dl_cet_open_check E m info0 st).info.legacy_ibt < 0 →
          (_dl_cet_open_check E m info0 st).info.legacy_shstk < 0 →
          (_dl_cet_open_check E m info0 st).exit = outcome.returned
            ∧ (_dl_cet_open_check E m info0 st).st.kernel_calls = st.kernel_calls
            ∧ has_bit (_dl_cet_open_check E m info0 st).st.dl_x86_feature_1
              E.FEATURE_1_FINEIBT = false
            ∧ has_bit (_dl_cet_open_check E m info0 st).st.dl_x86_feature_1
                GNU_PROPERTY_X86_FEATURE_1_IBT
              = has_bit st.dl_x86_feature_1 GNU_PROPERTY_X86_FEATURE_1_IBT
            ∧ has_bit (_dl_cet_open_check E m info0 st).st.dl_x86_feature_1
                GNU_PROPERTY_X86_FEATURE_1_SHSTK
              = has_bit st.dl_x86_feature_1 GNU_PROPERTY_X86_FEATURE_1_SHSTK) := by
  by_cases hp : passes_fast_paths E st = true
  · have hinfo : (_dl_cet_open_check E m info0 st).info = dyn_scan_info E m info0 st := by
      rw [open_check_eq E m info0 st hp]
      exact (dyn_stage_info E m _ 0 0 st).2.2.2.2
    rw [hinfo, open_check_eq E m info0 st hp]
    have hty := dyn_scan_info_type E m info0 st
    have hen := dyn_scan_info_enabled E m info0 st feature.ibt
    rw [(dl_cet_check_info_enabled E info0 st).1] at hen
    generalize dyn_scan_info E m info0 st = info1 at hty hen
    have t1 := hty feature.ibt
    have t3 := hty feature.fineibt
    simp only [dl_info.type, dl_x86_feature_control.of] at t1 t3
    simp only [dl_info.enabled] at hen
    constructor
    · intro hbit hperm hleg hret
      have hno : incompatibility_error (dl_cet_check_dyn_fineibt E m info1 0 0 st).exit
          = false := by rw [hret]; rfl
      have hd : downgraded info1 feature.ibt = true := by
        unfold downgraded
        simp only [dl_info.enabled, dl_info.legacy, dl_info.type]
        rw [hen, hbit, t1, hperm]
        simpa using hleg
      have hc : kernel_disable_bits info1 ≠ 0 := by
        unfold kernel_disable_bits
        rw [hd]
        cases downgraded info1 feature.shstk <;> decide
      rw [dyn_tests_eq E m info1 st hno] at hret ⊢
      have hk := dyn_disable_ok E m info1 _ _ st (Or.inl (by rw [t1, hperm])) hc hret
      rw [dyn_disable_eq E m info1 _ _ st (Or.inl (by rw [t1, hperm])) hc hk]
      exact fineibt_cleared E _ _ hfine (cleared_bits_fineibt E info1 (by rw [hd]; rfl))
    · intro hfe hperm hlf hli hls
      have hc1 : (info1.fineibt_enabled && decide (info1.legacy_fineibt ≥ 0)) = true := by
        simp [hfe, hlf]
      have hc2 : ¬ (info1.ibt_enabled && decide (info1.legacy_ibt ≥ 0)) = true := by
        have : ¬ (info1.legacy_ibt ≥ 0) := by omega
        simp [this]
      have hc3 : ¬ (info1.shstk_enabled && decide (info1.legacy_shstk ≥ 0)) = true := by
        have : ¬ (info1.legacy_shstk ≥ 0) := by omega
        simp [this]
      have hc4 : ¬ (info1.enable_fineibt_type != cet_permissive) = true := by
        rw [t3, hperm]
        decide
      have hc5 : ¬ (info1.enable_ibt_type != cet_permissive
          && info1.enable_shstk_type != cet_permissive
          && info1.enable_fineibt_type != cet_permissive) = true := by
        rw [t3, hperm]
        simp
      have hrun : dl_cet_check_dyn_fineibt E m info1 0 0 st
          = dl_cet_check_dyn_commit info1 0 (0 ||| E.FEATURE_1_FINEIBT) st := by
        unfold dl_cet_check_dyn_fineibt
        rw [if_pos hc1, if_neg hc4]
        unfold dl_cet_check_dyn_ibt
        rw [if_neg hc2]
        unfold dl_cet_check_dyn_shstk
        rw [if_neg hc3]
        unfold dl_cet_check_dyn_disable
        rw [if_neg hc5, if_neg (by simp)]
      rw [hrun]
      obtain ⟨c1, c2, c3, c4⟩ := dyn_commit_fineibt_only E info1 st hfine hapart
      exact ⟨c1, c2, c3, c4 feature.ibt (Or.inl rfl), c4 feature.shstk (Or.inr rfl)⟩
  · obtain ⟨_, _, h3, _, h5⟩ := dl_cet_check_fast E m none info0 st
      (fast_of_not_passes E st hp)
    have h3b : (_dl_cet_open_check E m info0 st).info.legacy_ibt = -1 := h3
    have h5b : (_dl_cet_open_check E m info0 st).info.legacy_fineibt = -1 := h5
    constructor
    · intro _ _ hleg
      rw [h3b] at hleg
      exact absurd hleg (by decide)
    · intro _ _ hleg
      rw [h5b] at hleg
      exact absurd hleg (by decide)

/-- A run of C15: every feature permissive; (a) `root_mixed` loaded into a
process whose word is `0x53`, (b) `root_no_fineibt` loaded into a process
whose word is `0x13`. -/
theorem dyn_fineibt_coupling_witness :
    ((_dl_cet_open_check (env_of control_permissive) root_mixed (info_of control_default)
          (state_of 0x53)).st.dl_x86_feature_1 = 0x40
        ∧ has_bit (_dl_cet_open_check (env_of control_permissive) root_mixed
            (info_of control_default) (state_of 0x53)).st.dl_x86_feature_1
            (env_of control_permissive).FEATURE_1_FINEIBT = false)
      ∧ ((_dl_cet_open_check (env_of control_permissive) root_no_fineibt
            (info_of control_default) (state_of 0x13)).st.dl_x86_feature_1 = 0x3
        ∧ ((_dl_cet_open_check (env_of control_permissive) root_no_fineibt
              (info_of control_default) (state_of 0x13)).exit = outcome.returned
          ∧ (_dl_cet_open_check (env_of control_permissive) root_no_fineibt
              (info_of control_default) (state_of 0x13)).st.kernel_calls
            = (state_of 0x13).kernel_calls
          ∧ has_bit (_dl_cet_open_check (env_of control_permissive) root_no_fineibt
              (info_of control_default) (state_of 0x13)).st.dl_x86_feature_1
              (env_of control_permissive).FEATURE_1_FINEIBT = false
          ∧ has_bit (_dl_cet_open_check (env_of control_permissive) root_no_fineibt
                (info_of control_default) (state_of 0x13)).st.dl_x86_feature_1
                GNU_PROPERTY_X86_FEATURE_1_IBT
              = has_bit (state_of 0x13).dl_x86_feature_1 GNU_PROPERTY_X86_FEATURE_1_IBT
          ∧ has_bit (_dl_cet_open_check (env_of control_permissive) root_no_fineibt
                (info_of control_default) (state_of 0x13)).st.dl_x86_feature_1
                GNU_PROPERTY_X86_FEATURE_1_SHSTK
              = has_bit (state_of 0x13).dl_x86_feature_1
                  GNU_PROPERTY_X86_FEATURE_1_SHSTK)) :=
  ⟨⟨by decide,
      (dyn_fineibt_coupling (env_of control_permissive) root_mixed (info_of control_default)
        (state_of 0x53) (by decide) (by decide)).1 (by decide) rfl (by decide) (by decide)⟩,
    ⟨by decide,
      (dyn_fineibt_coupling (env_of control_permissive) root_no_fineibt
        (info_of control_default) (state_of 0x13) (by decide) (by decide)).2 (by decide) rfl
        (by decide) (by decide) (by decide)⟩⟩

/-! ## The FineIBT bit published by the initial load -/

theorem has_bit_fineibt_or (E : sysenv) (c : Nat) (b : Bool) (hc : c < 4)
    (hne : E.FEATURE_1_FINEIBT ≠ 0) (hapart : E.FEATURE_1_FINEIBT &&& 0x3 = 0) :
    has_bit (c ||| (if b then E.FEATURE_1_FINEIBT else 0)) E.FEATURE_1_FINEIBT = b := by
  have h0 := small_and_fineibt E c hc hapart
  unfold has_bit
  cases b
  · simp [h0]
  · have : (c ||| E.FEATURE_1_FINEIBT) &&& E.FEATURE_1_FINEIBT = E.FEATURE_1_FINEIBT := by
      apply Nat.eq_of_testBit_eq
      intro i
      rw [Nat.testBit_and, Nat.testBit_or]
      cases c.testBit i <;> cases E.FEATURE_1_FINEIBT.testBit i <;> rfl
    simp [this, hne]

/-- After a scan entered with the enable flag of a feature equal to its
previously-enabled flag and no legacy index, the feature passes the test
"enable flag and (always-on or no legacy index)" exactly when its enable flag
is true. -/
theorem scan_final_bit (E : sysenv) (m : link_root) (info : dl_info)
    (program : Option String) (F : feature) (he : info.enable F = info.enabled F)
    (hl : info.legacy F = -1) :
    ((dl_check_legacy E m info program).enable F
        && ((dl_check_legacy E m info program).type F == cet_always_on
            || !(decide ((dl_check_legacy E m info program).legacy F ≥ 0))))
      = (dl_check_legacy E m info program).enable F := by
  rcases scan_final E m info program F he (by rw [hl]; decide) with
    ⟨_, h2, _⟩ | ⟨_, h2, _⟩
  · rw [h2, hl]
    simp
  · rw [h2]
    rfl

theorem scan_enable_eq (E : sysenv) (m : link_root) (info : dl_info)
    (program : Option String) (F : feature) :
    (dl_check_legacy E m info program).enable F
      = (info.enable F
          && (info.type F == cet_always_on
              || m.l_initfini.all
                  (fun l => dl_check_legacy_skip E m program l || supports E F l))) := by
  have h := after_enable E m program info F m.r_nlist (le_refl _)
  rw [← dl_check_legacy_eq_after] at h
  simpa using h

/-- C16. FineIBT bit on the initial load: when the fast paths are passed, the
call returns normally and IBT or SHSTK ends enabled (so a word is published),
the FineIBT bit of the published word, and of the thread's copy, is set if
and only if the FineIBT policy is not always-off and (it is always-on, or the
executable has the FineIBT support bit and so does every entry of the
dependency list that is neither initialised nor exempt). The right-hand side
mentions neither the word on entry nor the kernel. The FineIBT bit is not
zero and is neither the IBT nor the SHSTK bit. -/
theorem main_fineibt_bit_rule (E : sysenv) (m : link_root) (p : String) (info0 : dl_info)
    (st : machine) (hp : passes_fast_paths E st = true)
    (hne : E.FEATURE_1_FINEIBT ≠ 0) (hapart : E.FEATURE_1_FINEIBT &&& 0x3 = 0)
    (hret : (_dl_cet_check E m (some p) info0 st).exit = outcome.returned)
    (hpub : ((_dl_cet_check E m (some p) info0 st).info.enable_ibt
      || (_dl_cet_check E m (some p) info0 st).info.enable_shstk) = true) :
    has_bit (_dl_cet_check E m (some p) info0 st).st.dl_x86_feature_1 E.FEATURE_1_FINEIBT
        = (E.feature_control.fineibt != cet_always_off
            && (E.feature_control.fineibt == cet_always_on
                || (supports E feature.fineibt m.map
                    && m.l_initfini.all
                        (fun l => dl_check_legacy_skip E m (some p) l
                          || supports E feature.fineibt l))))
      ∧ (_dl_cet_check E m (some p) info0 st).st.header_feature_1
        = (_dl_cet_check E m (some p) info0 st).st.dl_x86_feature_1 := by
  rw [dl_cet_check_main_eq E m p info0 st hp] at hret hpub ⊢
  rw [main_eq E m _ (some p) st hret] at hpub ⊢
  simp only at hpub
  simp only [main_final, if_pos hpub, and_true]
  -- the scan took place
  have hrun : dl_cet_check_main_scan E m (dl_cet_check_info E info0 st) (some p)
      = dl_check_legacy E m (dl_cet_check_main_flags E m (dl_cet_check_info E info0 st))
          (some p) := by
    unfold dl_cet_check_main_scan at hpub ⊢
    simp only at hpub ⊢
    by_cases hc : ((dl_cet_check_main_flags E m (dl_cet_check_info E info0 st)).enable_ibt
        || (dl_cet_check_main_flags E m (dl_cet_check_info E info0 st)).enable_shstk) = true
    · rw [if_pos hc]
    · rw [if_neg hc] at hpub
      exact absurd hpub hc
  obtain ⟨g1, g2, g3, g4⟩ := main_flags_fineibt E m (dl_cet_check_info E info0 st)
  have hbit := scan_final_bit E m (dl_cet_check_main_flags E m (dl_cet_check_info E info0 st))
    (some p) feature.fineibt g2 g3
  have hen := scan_enable_eq E m (dl_cet_check_main_flags E m (dl_cet_check_info E info0 st))
    (some p) feature.fineibt
  rw [g2, g1, g4] at hen
  have hcf := (main_feature_testBit
    (dl_cet_check_main_scan E m (dl_cet_check_info E info0 st) (some p))).2.2
  unfold main_fineibt_bit
  rw [has_bit_fineibt_or E _ _ hcf hne hapart, hrun]
  simp only [dl_info.enable, dl_info.type, dl_info.legacy] at hbit hen
  rw [hbit, hen]
  have hty : (dl_cet_check_info E info0 st).enable_fineibt_type = E.feature_control.fineibt :=
    rfl
  rw [hty]
  cases (E.feature_control.fineibt != cet_always_off) <;>
    cases (E.feature_control.fineibt == cet_always_on) <;>
    cases supports E feature.fineibt m.map <;>
    cases (m.l_initfini.all
      (fun l => dl_check_legacy_skip E m (some p) l || supports E feature.fineibt l)) <;> rfl

/-- A run of C16: the initial load of `root_full` under the default feature
control publishes `0x13`. -/
theorem main_fineibt_bit_rule_witness :
    (_dl_cet_check (env_of control_default) root_full (some "main")
        (info_of control_default) (state_of 3)).st.dl_x86_feature_1 = 0x13
      ∧ has_bit (_dl_cet_check (env_of control_default) root_full (some "main")
          (info_of control_default) (state_of 3)).st.dl_x86_feature_1
          (env_of control_default).FEATURE_1_FINEIBT = true
      ∧ (has_bit (_dl_cet_check (env_of control_default) root_full (some "main")
            (info_of control_default) (state_of 3)).st.dl_x86_feature_1
            (env_of control_default).FEATURE_1_FINEIBT
          = ((env_of control_default).feature_control.fineibt != cet_always_off
              && ((env_of control_default).feature_control.fineibt == cet_always_on
                  || (supports (env_of control_default) feature.fineibt root_full.map
                      && root_full.l_initfini.all
                          (fun l => dl_check_legacy_skip (env_of control_default) root_full
                              (some "main") l
                            || supports (env_of control_default) feature.fineibt l))))
        ∧ (_dl_cet_check (env_of control_default) root_full (some "main")
            (info_of control_default) (state_of 3)).st.header_feature_1
          = (_dl_cet_check (env_of control_default) root_full (some "main")
            (info_of control_default) (state_of 3)).st.dl_x86_feature_1) :=
  ⟨by decide, by decide,
    main_fineibt_bit_rule (env_of control_default) root_full "main"
      (info_of control_default) (state_of 3) (by decide) (by decide) (by decide) (by decide)
      (by decide)⟩

/-! ## An always-off feature on a dynamic load -/

/-- C17, the code at the failing input. IBT is always-off, the other policies
follow the ELF properties, and the kernel reports IBT and SHSTK. The initial
load of `root_ibt_only` (an executable without SHSTK) disables both features
in the kernel and leaves the feature word at `0x3`. A later dynamic load of
`root_plugin_full`, every object of which has IBT, SHSTK and FineIBT, scans
with the IBT enable flag false, records the IBT legacy index 0 and raises
"rebuild DSO with IBT enabled" against `libfull.so`. -/
theorem always_off_feature_raises_incompatibility :
    (env_of control_ibt_off).feature_control.ibt = cet_always_off
      ∧ (_dl_cet_check (env_of control_ibt_off) root_ibt_only (some "main")
          (info_of control_default) (state_of 3)).exit = outcome.returned
      ∧ (_dl_cet_check (env_of control_ibt_off) root_ibt_only (some "main")
          (info_of control_default) (state_of 3)).st.dl_x86_feature_1 = 0x3
      ∧ (_dl_cet_open_check (env_of control_ibt_off) root_plugin_full
          (info_of control_default)
          (_dl_cet_check (env_of control_ibt_off) root_ibt_only (some "main")
            (info_of control_default) (state_of 3)).st).info.legacy_ibt = 0
      ∧ (_dl_cet_open_check (env_of control_ibt_off) root_plugin_full
          (info_of control_default)
          (_dl_cet_check (env_of control_ibt_off) root_ibt_only (some "main")
            (info_of control_default) (state_of 3)).st).exit
        = outcome.signal_error 0 (some "libfull.so") "rebuild DSO with IBT enabled"
      ∧ root_plugin_full.l_initfini[0]? = some (obj 11 "libfull.so" 14)
      ∧ supports (env_of control_ibt_off) feature.ibt (obj 11 "libfull.so" 14) = true := by
  decide

/-! ## The FineIBT flags on a dynamic load -/

/-- C18, the code at the failing input. Two dynamic loads of `root_no_fineibt`
under the default feature control, with the same feature word `0x13` (IBT,
SHSTK and FineIBT set) and the same kernel, differ only in what the stack
holds at the two FineIBT flags of `info`, which `dl_cet_check` does not assign
on this path: with the flags true the load fails with "rebuild DSO with
FineIBT enabled", with the flags false it returns normally, and the FineIBT
previously-enabled flag is then false although FineIBT is set in the feature
word. -/
theorem dyn_outcome_depends_on_stack :
    (info_of control_default).fineibt_enabled = true
      ∧ info_fineibt_off.fineibt_enabled = false
      ∧ has_bit (state_of 0x13).dl_x86_feature_1 (env_of control_default).FEATURE_1_FINEIBT
        = true
      ∧ (_dl_cet_open_check (env_of control_default) root_no_fineibt
          (info_of control_default) (state_of 0x13)).exit
        = outcome.signal_error 0 none "rebuild DSO with FineIBT enabled"
      ∧ (_dl_cet_open_check (env_of control_default) root_no_fineibt info_fineibt_off
          (state_of 0x13)).exit = outcome.returned
      ∧ (_dl_cet_open_check (env_of control_default) root_no_fineibt info_fineibt_off
          (state_of 0x13)).info.fineibt_enabled = false
      ∧ (_dl_cet_open_check (env_of control_default) root_no_fineibt
          (info_of control_default) (state_of 0x13)).info.fineibt_enabled = true := by
  decide

end DlCet
